import Mathlib

/-!
# libnetwork OVS driver: command pipeline, step pipeline and OVSDB cache

A shallow embedding of parts of `drivers/ovs` of the repository and the
properties proved about them.

Go code with side effects is embedded by explicit state passing: a Go function
`f() error` that reads and writes the host (and the fields of its receiver)
becomes a Lean function `σ → Option GoError × σ`, where `σ` is the type of
everything the function can touch and `none` stands for the `nil` error.
-/

namespace Libnetwork

/-! ## Go errors -/

/-- Go `error` values that occur in the embedded code.

* `errorString msg` is an error made by `errors.New` or by `fmt.Errorf` with a
  fixed text;
* `ErrEmptyStack` is the package variable
  `var ErrEmptyStack = errors.New("stack is empty")` of `drivers/ovs/errors.go`;
  Go compares it by identity, so it is a constructor of its own;
* `Errorf format arg` is the fresh error `fmt.Errorf(format, arg)` for a format
  with one `%v` verb: it is kept symbolically, as the format and the error that
  was formatted into it;
* `aggregate errs` is the non-nil result of `util.NewAggregate`;
* `ErrInvalidOvsDBConnection`, `ErrReplyDisMatchOps`, `ErrTransactionError`,
  `ErrBridgeAlreadyExists` and `ErrBridgeNotExists` are the error types of
  `ovsdbdriver/errors.go`, with the fields they carry;
* `NonDefaultBridgeExistError` and `ErrInvalidMtu` are error types of
  `drivers/ovs/errors.go`;
* `ErrNoNetwork` is the error type of `driverapi`, `ForbiddenErrorf msg` and
  `InternalMaskableErrorf msg` are the errors that the functions of these names
  of the package `types` make from a text, and `ErrKeyModified` is the variable
  `datastore.ErrKeyModified`;
* `hexErrLength` and `hexInvalidByteError` are `hex.ErrLength` and
  `hex.InvalidByteError` of the Go library. -/
inductive GoError where
  | errorString (msg : String)
  | ErrEmptyStack
  | Errorf (format : String) (arg : GoError)
  | aggregate (errs : List GoError)
  | ErrInvalidOvsDBConnection
  | ErrReplyDisMatchOps
  | ErrTransactionError (errMsg : String)
  | ErrBridgeAlreadyExists (name : String)
  | ErrBridgeNotExists (name : String)
  | NonDefaultBridgeExistError (name : String)
  | ErrInvalidMtu (mtu : Int)
  | ErrNoNetwork (nid : String)
  | ForbiddenErrorf (msg : String)
  | InternalMaskableErrorf (msg : String)
  | BadRequestErrorf (msg : String)
  | ErrKeyModified
  | hexErrLength
  | hexInvalidByteError (c : Char)

/-- Modelled from the spec: `util.NewAggregate` is called by the code under
`src/` but its definition is not part of it. The spec calls its result the
aggregate of the collected errors, and the tests of `CommandManager.Execute`
require the aggregate of no error to be the `nil` error; a non-empty list
becomes one error that holds every error of the list in order. -/
def NewAggregate (errlist : List GoError) : Option GoError :=
  match errlist with
  | [] => none
  | e :: es => some (GoError.aggregate (e :: es))

/-! ## `setup_attach_nic.go`: undoable commands -/

/-- The Go interface `UndoableCommand` with its methods `Execute() error` and
`Undo() error`, over the state `σ` that the commands read and write. -/
structure UndoableCommand (σ : Type) where
  Execute : σ → Option GoError × σ
  Undo : σ → Option GoError × σ

/-- The Go struct `CommandStack`: the top of the stack is the end of the slice. -/
structure CommandStack (σ : Type) where
  commands : List (UndoableCommand σ)

/-- `NewStack(num)`: an empty stack (the capacity `num` has no observable effect). -/
def NewStack {σ : Type} (_num : Nat) : CommandStack σ :=
  { commands := [] }

/-- `Len` returns the number of commands in the stack. -/
def CommandStack.Len {σ : Type} (s : CommandStack σ) : Nat :=
  s.commands.length

/-- `IsEmpty` returns whether the stack is empty. -/
def CommandStack.IsEmpty {σ : Type} (s : CommandStack σ) : Bool :=
  s.Len == 0

/-- `Push` puts a command on the stack. -/
def CommandStack.Push {σ : Type} (s : CommandStack σ) (command : UndoableCommand σ) :
    CommandStack σ :=
  { commands := s.commands ++ [command] }

/-- `Pop` pops the top item out: Go returns `(rect, nil)` and shortens the
slice when `s.Len() > 0`, and `(nil, ErrEmptyStack)` otherwise. The pair of the
Go result is the `Except` value, the second component is the stack afterwards.
The index `s.Len() - 1` is in range when `s.Len() > 0`, so the inner `none` is
never taken. -/
def CommandStack.Pop {σ : Type} (s : CommandStack σ) :
    Except GoError (UndoableCommand σ) × CommandStack σ :=
  if s.Len > 0 then
    match s.commands[s.Len - 1]? with
    | some rect => (.ok rect, { commands := s.commands.take (s.Len - 1) })
    | none => (.error GoError.ErrEmptyStack, s)
  else
    (.error GoError.ErrEmptyStack, s)

/-- `Peek` returns the top item and leaves the stack as it is. -/
def CommandStack.Peek {σ : Type} (s : CommandStack σ) : Except GoError (UndoableCommand σ) :=
  if s.Len > 0 then
    match s.commands[s.Len - 1]? with
    | some rect => .ok rect
    | none => .error GoError.ErrEmptyStack
  else
    .error GoError.ErrEmptyStack

/-- The Go struct `CommandManager`. -/
structure CommandManager (σ : Type) where
  commands : List (UndoableCommand σ)
  undoCommands : CommandStack σ

/-- `NewCommandManager()`: no command, an empty undo stack. -/
def NewCommandManager {σ : Type} : CommandManager σ :=
  { commands := [], undoCommands := NewStack 5 }

/-- `AddCommand` appends to the command list. -/
def CommandManager.AddCommand {σ : Type} (cm : CommandManager σ) (c : UndoableCommand σ) :
    CommandManager σ :=
  { cm with commands := cm.commands ++ [c] }

/-- The rollback loop of `CommandManager.Execute`:
`for uc, err := Pop(); err != ErrEmptyStack; uc, err = Pop() { if err = uc.Undo(); err != nil { errs = append(errs, err) } }`.
The loop condition only ever sees the error of `Pop`, since the post statement
overwrites the `err` that the body assigned. `Pop` returns no error other than
`ErrEmptyStack`; for one, Go would call `Undo` on a nil command and panic, and
the loop stops here. Result: the collected errors, the stack and the state. -/
def CommandManager.undoLoop {σ : Type} (undoCommands : CommandStack σ) (w : σ)
    (errs : List GoError) : List GoError × CommandStack σ × σ :=
  match h : undoCommands.Pop with
  | (.error _, rest) => (errs, rest, w)
  | (.ok uc, rest) =>
    match uc.Undo w with
    | (some err, w1) => CommandManager.undoLoop rest w1 (errs ++ [err])
    | (none, w1) => CommandManager.undoLoop rest w1 errs
termination_by undoCommands.Len
decreasing_by
  all_goals
    simp only [CommandStack.Pop] at h
    split at h
    · split at h
      · simp only [Prod.mk.injEq] at h
        rw [← h.2]
        simp only [CommandStack.Len, List.length_take]
        simp only [CommandStack.Len] at *
        omega
      · simp at h
    · simp at h

/-- The `for i := range cm.commands` loop of `CommandManager.Execute` over the
commands that are still to run. Result: the returned error, the manager and the
state afterwards. `errs` is still empty when the rollback starts. -/
def CommandManager.executeLoop {σ : Type} (commands : List (UndoableCommand σ))
    (cm : CommandManager σ) (w : σ) : Option GoError × CommandManager σ × σ :=
  match commands with
  | [] => (none, cm, w)
  | c :: rest =>
    match c.Execute w with
    | (some err, w1) =>
      if !cm.undoCommands.IsEmpty then
        match CommandManager.undoLoop cm.undoCommands w1 [] with
        | (errs, undo, w2) => (NewAggregate errs, { cm with undoCommands := undo }, w2)
      else
        (some (GoError.Errorf "get error when undo command stack is empty %v" err), cm, w1)
    | (none, w1) =>
      CommandManager.executeLoop rest { cm with undoCommands := cm.undoCommands.Push c } w1

/-- `Execute` executes the command chain; if a command's execute gets an error,
it undoes the previous commands. -/
def CommandManager.Execute {σ : Type} (cm : CommandManager σ) (w : σ) :
    Option GoError × CommandManager σ × σ :=
  CommandManager.executeLoop cm.commands cm w

/-- The manager that `NewCommandManager()` followed by one `AddCommand` per
command of `cs`, in order, builds. -/
def managerOf {σ : Type} (cs : List (UndoableCommand σ)) : CommandManager σ :=
  cs.foldl CommandManager.AddCommand NewCommandManager

/-! ### Observing the calls

The calls that a run makes are observed by wrapping every command: the wrapped
command does what the command does and appends a record of the call, with the
error it returned, to a log carried next to the state. -/

/-- Which method of a command was called. -/
inductive CallKind where
  | Execute
  | Undo
  deriving DecidableEq

/-- The record of one call: the method, the position of the command in the
order of `AddCommand`, and the error that the call returned. -/
structure Call where
  kind : CallKind
  index : Nat
  result : Option GoError

/-- The method and command of a call, without the returned error. -/
def Call.target (c : Call) : CallKind × Nat :=
  (c.kind, c.index)

/-- Command number `i`, logging its calls. -/
def UndoableCommand.traced {σ : Type} (i : Nat) (c : UndoableCommand σ) :
    UndoableCommand (σ × List Call) :=
  { Execute := fun s =>
      match c.Execute s.1 with
      | (r, w) => (r, (w, s.2 ++ [{ kind := CallKind.Execute, index := i, result := r }]))
    Undo := fun s =>
      match c.Undo s.1 with
      | (r, w) => (r, (w, s.2 ++ [{ kind := CallKind.Undo, index := i, result := r }])) }

/-- The commands of a list, numbered from `i` on, each logging its calls. -/
def tracedFrom {σ : Type} (i : Nat) : List (UndoableCommand σ) →
    List (UndoableCommand (σ × List Call))
  | [] => []
  | c :: cs => c.traced i :: tracedFrom (i + 1) cs

/-- The state after the `Execute` of every command of the list, run in order,
when each of them succeeds; `none` when one of them fails. -/
def runExecutes {σ : Type} : List (UndoableCommand σ) → σ → Option σ
  | [], w => some w
  | c :: cs, w =>
    match c.Execute w with
    | (none, w1) => runExecutes cs w1
    | (some _, _) => none

/-- The `Undo` of every command of the list, run in list order from state `w`:
the errors returned, after `errs`, and the state afterwards. -/
def runUndos {σ : Type} : List (UndoableCommand σ) → σ → List GoError → List GoError × σ
  | [], w, errs => (errs, w)
  | c :: cs, w, errs =>
    match c.Undo w with
    | (some err, w1) => runUndos cs w1 (errs ++ [err])
    | (none, w1) => runUndos cs w1 errs

/-- The errors that the `Undo` calls of a log returned, in call order. -/
def undoErrors (log : List Call) : List GoError :=
  log.filterMap (fun c => match c.kind with
    | CallKind.Undo => c.result
    | CallKind.Execute => none)

/-- The observed run of `Execute` on a fresh manager holding the commands `cs`:
the returned error, the manager afterwards, the state and the log of calls. -/
def observedExecute {σ : Type} (cs : List (UndoableCommand σ)) (w : σ) :
    Option GoError × CommandManager (σ × List Call) × σ × List Call :=
  (managerOf (tracedFrom 0 cs)).Execute (w, [])

/-! ### Sample commands

Three commands over a counter, used to instantiate the theorems. -/

/-- A command that succeeds: `Execute` adds one to the counter, `Undo` takes it
off again. -/
def cmdOk : UndoableCommand Nat :=
  { Execute := fun n => (none, n + 1)
    Undo := fun n => (none, n - 1) }

/-- A command whose `Execute` fails and changes nothing. -/
def cmdFails : UndoableCommand Nat :=
  { Execute := fun n => (some (GoError.errorString "execute failed"), n)
    Undo := fun n => (none, n) }

/-- A command whose `Execute` succeeds and whose `Undo` fails. -/
def cmdUndoFails : UndoableCommand Nat :=
  { Execute := fun n => (none, n + 1)
    Undo := fun n => (some (GoError.errorString "undo failed"), n) }

/-! ### The fake commands of `setup_attach_nic_test.go`

The tests run `CommandManager.Execute` on fake commands that keep the host in
their own fields. A pointer to an object that only one command reaches is the
object itself, `none` for the nil pointer. `netlink.ParseAddr` belongs to an
external library and is a parameter; the tests drop its error, so only the
address it returns (nil for text it rejects) is kept. -/

/-- `netlink.Addr`, kept as the text of the address. -/
structure Addr where
  cidr : String
  deriving DecidableEq

/-- The test type `fakeBridge`: the name of its `LinkAttrs` and its address. -/
structure fakeBridge where
  Name : String
  addr : Option Addr
  deriving DecidableEq

/-- The test type `fakeDevice`. -/
structure fakeDevice where
  Name : String
  addr : Option Addr
  deriving DecidableEq

/-- The test type `fakeBridgeAddIpCommand`. -/
structure fakeBridgeAddIpCommand where
  bridgeName : String
  ip : String
  link : Option fakeBridge
  addr : Option Addr
  deriving DecidableEq

/-- The test type `fakeRemoveIpCommand`. -/
structure fakeRemoveIpCommand where
  deviceName : String
  ip : String
  link : Option fakeDevice
  addr : Option Addr
  deriving DecidableEq

/-- The test type `fakeBridgeAddIntfCommand`; its fields `bridge` and `device`
are never read or written. -/
structure fakeBridgeAddIntfCommand where
  bridgeName : String
  deviceName : String
  deriving DecidableEq

/-- `bridgeAddIp(link, addr)`: `br.addr = addr`. The result is the bridge
afterwards; `none` when `link` is nil, where Go panics on the nil pointer. -/
def bridgeAddIp (link : Option fakeBridge) (addr : Option Addr) : Option fakeBridge :=
  match link with
  | some br => some { br with addr := addr }
  | none => none

/-- `bridgeRemoveIp(link)`: `br.addr = nil`; `none` when Go panics on a nil `link`. -/
def bridgeRemoveIp (link : Option fakeBridge) : Option fakeBridge :=
  match link with
  | some br => some { br with addr := none }
  | none => none

/-- `deviceRemoveIp(link)`: `fd.addr = nil`; `none` when Go panics on a nil `link`. -/
def deviceRemoveIp (link : Option fakeDevice) : Option fakeDevice :=
  match link with
  | some fd => some { fd with addr := none }
  | none => none

/-- `deviceAddIp(link, addr)`: `fd.addr = addr`; `none` when Go panics on a nil `link`. -/
def deviceAddIp (link : Option fakeDevice) (addr : Option Addr) : Option fakeDevice :=
  match link with
  | some fd => some { fd with addr := addr }
  | none => none

/-- `fakeBridgeAddIpCommand.Execute`: the returned error and the command
afterwards; `none` when Go panics. -/
def fakeBridgeAddIpCommand.Execute (ParseAddr : String → Option Addr)
    (fc : fakeBridgeAddIpCommand) : Option (Option GoError × fakeBridgeAddIpCommand) :=
  if fc.bridgeName = "non-bridge" then
    some (some (GoError.errorString "could not find a bridge named \"no-bridge\""), fc)
  else
    let link : Option fakeBridge := some { Name := fc.bridgeName, addr := none }
    let addr := ParseAddr fc.ip
    match bridgeAddIp link addr with
    | some br => some (none, { fc with link := some br, addr := addr })
    | none => none

/-- `fakeBridgeAddIpCommand.Undo`. -/
def fakeBridgeAddIpCommand.Undo (fc : fakeBridgeAddIpCommand) :
    Option (Option GoError × fakeBridgeAddIpCommand) :=
  match bridgeRemoveIp fc.link with
  | some br => some (none, { fc with link := some br, addr := none })
  | none => none

/-- `fakeRemoveIpCommand.Execute`. -/
def fakeRemoveIpCommand.Execute (ParseAddr : String → Option Addr)
    (fc : fakeRemoveIpCommand) : Option (Option GoError × fakeRemoveIpCommand) :=
  if fc.deviceName = "non-device" then
    some (some (GoError.errorString "could not find device named \"non-device\""), fc)
  else
    let addr := ParseAddr fc.ip
    let link : Option fakeDevice := some { Name := fc.deviceName, addr := addr }
    match deviceRemoveIp link with
    | some fd => some (none, { fc with link := some fd, addr := addr })
    | none => none

/-- `fakeRemoveIpCommand.Undo`. -/
def fakeRemoveIpCommand.Undo (fc : fakeRemoveIpCommand) :
    Option (Option GoError × fakeRemoveIpCommand) :=
  match deviceAddIp fc.link fc.addr with
  | some fd => some (none, { fc with link := some fd })
  | none => none

/-- `fakeBridgeAddIntfCommand.Execute`. -/
def fakeBridgeAddIntfCommand.Execute (fc : fakeBridgeAddIntfCommand) :
    Option (Option GoError × fakeBridgeAddIntfCommand) :=
  if fc.deviceName = "non-device" then
    some (some (GoError.errorString "could not find device named \"non-device\""), fc)
  else
    some (none, fc)

/-- `fakeBridgeAddIntfCommand.Undo`. -/
def fakeBridgeAddIntfCommand.Undo (fc : fakeBridgeAddIntfCommand) :
    Option (Option GoError × fakeBridgeAddIntfCommand) :=
  some (none, fc)

/-- The objects of a test: the three commands it may add, and whether a call
has panicked. A panic ends a Go test; here it sets `panicked`, which nothing
resets, and the run goes on. -/
structure TestState where
  fBridgeCmd : fakeBridgeAddIpCommand
  fRemoveCmd : fakeRemoveIpCommand
  fBridgeAddIntfCmd : fakeBridgeAddIntfCommand
  panicked : Bool
  deriving DecidableEq

/-- A method of a test command as a function on the test state. -/
def TestState.call {α : Type} (get : TestState → α) (set : TestState → α → TestState)
    (method : α → Option (Option GoError × α)) (s : TestState) : Option GoError × TestState :=
  match method (get s) with
  | some (err, a) => (err, set s a)
  | none => (none, { s with panicked := true })

/-- The pointer `fBridgeCmd` as an `UndoableCommand`. -/
def fBridgeCmd (ParseAddr : String → Option Addr) : UndoableCommand TestState :=
  { Execute := TestState.call (fun s => s.fBridgeCmd) (fun s a => { s with fBridgeCmd := a })
      (fakeBridgeAddIpCommand.Execute ParseAddr)
    Undo := TestState.call (fun s => s.fBridgeCmd) (fun s a => { s with fBridgeCmd := a })
      fakeBridgeAddIpCommand.Undo }

/-- The pointer `fRemoveCmd` as an `UndoableCommand`. -/
def fRemoveCmd (ParseAddr : String → Option Addr) : UndoableCommand TestState :=
  { Execute := TestState.call (fun s => s.fRemoveCmd) (fun s a => { s with fRemoveCmd := a })
      (fakeRemoveIpCommand.Execute ParseAddr)
    Undo := TestState.call (fun s => s.fRemoveCmd) (fun s a => { s with fRemoveCmd := a })
      fakeRemoveIpCommand.Undo }

/-- The pointer `fBridgeAddIntfCmd` as an `UndoableCommand`. -/
def fBridgeAddIntfCmd : UndoableCommand TestState :=
  { Execute := TestState.call (fun s => s.fBridgeAddIntfCmd)
      (fun s a => { s with fBridgeAddIntfCmd := a }) fakeBridgeAddIntfCommand.Execute
    Undo := TestState.call (fun s => s.fBridgeAddIntfCmd)
      (fun s a => { s with fBridgeAddIntfCmd := a }) fakeBridgeAddIntfCommand.Undo }

/-- The commands as `TestRemoveIpFail` creates them: the bridge `br0` with an
address, the device `non-device`. -/
def testRemoveIpFailState : TestState :=
  { fBridgeCmd := { bridgeName := "br0", ip := "10.10.101.92/24", link := none, addr := none }
    fRemoveCmd := { deviceName := "non-device", ip := "", link := none, addr := none }
    fBridgeAddIntfCmd := { bridgeName := "", deviceName := "" }
    panicked := false }

/-- The commands as `TestBridgeAddIntfFail` creates them. -/
def testBridgeAddIntfFailState : TestState :=
  { fBridgeCmd := { bridgeName := "br0", ip := "10.10.101.92/24", link := none, addr := none }
    fRemoveCmd := { deviceName := "eth0", ip := "10.10.101.92/24", link := none, addr := none }
    fBridgeAddIntfCmd := { bridgeName := "br0", deviceName := "non-device" }
    panicked := false }

/-- The commands as `TestBridgeAddIpFail` creates them. -/
def testBridgeAddIpFailState : TestState :=
  { fBridgeCmd := { bridgeName := "non-bridge", ip := "", link := none, addr := none }
    fRemoveCmd := { deviceName := "", ip := "", link := none, addr := none }
    fBridgeAddIntfCmd := { bridgeName := "", deviceName := "" }
    panicked := false }

/-- A stand-in for `netlink.ParseAddr` that accepts every non-empty text. -/
def sampleParseAddr (s : String) : Option Addr :=
  if s = "" then none else some { cidr := s }

/-- The body of `TestRemoveIpFail` up to its checks: the error that
`cm.Execute()` returns, the manager and the test objects afterwards. -/
def runTestRemoveIpFail (ParseAddr : String → Option Addr) :
    Option GoError × CommandManager TestState × TestState :=
  (managerOf ([fBridgeCmd ParseAddr] ++ fRemoveCmd ParseAddr :: [])).Execute testRemoveIpFailState

/-- The body of `TestBridgeAddIntfFail` up to its checks. -/
def runTestBridgeAddIntfFail (ParseAddr : String → Option Addr) :
    Option GoError × CommandManager TestState × TestState :=
  (managerOf ([fBridgeCmd ParseAddr, fRemoveCmd ParseAddr] ++ fBridgeAddIntfCmd :: [])).Execute
    testBridgeAddIntfFailState

/-! ## `setup.go`: the step pipeline -/

/-- The Go type `setupStep`, `func(*ovs.OvsdbDriver, *networkConfiguration) error`,
over the state `σ` that holds the driver, the configuration and the host. -/
abbrev setupStep (σ : Type) : Type :=
  σ → Option GoError × σ

/-- The Go struct `bridgeSetup`; the pointers `config` and `ovs` that `apply`
hands to every step are part of the state `σ`. -/
structure bridgeSetup (σ : Type) where
  steps : List (setupStep σ)

/-- `newBridgeSetup(ovs, c)`: no step queued. -/
def newBridgeSetup {σ : Type} : bridgeSetup σ :=
  { steps := [] }

/-- The `for _, fn := range b.steps` loop of `apply` over the steps still to run. -/
def bridgeSetup.applyLoop {σ : Type} : List (setupStep σ) → σ → Option GoError × σ
  | [], w => (none, w)
  | fn :: rest, w =>
    match fn w with
    | (some err, w1) => (some err, w1)
    | (none, w1) => bridgeSetup.applyLoop rest w1

/-- `apply` runs the queued steps. -/
def bridgeSetup.apply {σ : Type} (b : bridgeSetup σ) (w : σ) : Option GoError × σ :=
  bridgeSetup.applyLoop b.steps w

/-- `queueStep` appends a step. -/
def bridgeSetup.queueStep {σ : Type} (b : bridgeSetup σ) (step : setupStep σ) : bridgeSetup σ :=
  { steps := b.steps ++ [step] }

/-- The setup that `newBridgeSetup` followed by one `queueStep` per step of
`steps`, in order, builds. -/
def setupOf {σ : Type} (steps : List (setupStep σ)) : bridgeSetup σ :=
  steps.foldl bridgeSetup.queueStep newBridgeSetup

/-- Step number `i`, logging each of its invocations with the error it returned. -/
def tracedStep {σ : Type} (i : Nat) (fn : setupStep σ) :
    setupStep (σ × List (Nat × Option GoError)) :=
  fun s =>
    match fn s.1 with
    | (r, w) => (r, (w, s.2 ++ [(i, r)]))

/-- The steps of a list, numbered from `i` on, each logging its invocations. -/
def tracedStepsFrom {σ : Type} (i : Nat) : List (setupStep σ) →
    List (setupStep (σ × List (Nat × Option GoError)))
  | [] => []
  | fn :: rest => tracedStep i fn :: tracedStepsFrom (i + 1) rest

/-- The state after every step of the list, run in order, when each of them
succeeds; `none` when one of them fails. -/
def runSteps {σ : Type} : List (setupStep σ) → σ → Option σ
  | [], w => some w
  | fn :: rest, w =>
    match fn w with
    | (none, w1) => runSteps rest w1
    | (some _, _) => none

/-- The observed run of `apply` on a fresh setup with the steps queued in
order: the returned error, the state and the log of invocations. -/
def observedApply {σ : Type} (steps : List (setupStep σ)) (w : σ) :
    Option GoError × σ × List (Nat × Option GoError) :=
  (setupOf (tracedStepsFrom 0 steps)).apply (w, [])

/-- A step that succeeds and adds one to a counter. -/
def stepOk : setupStep Nat :=
  fun n => (none, n + 1)

/-- A step that fails and leaves the counter. -/
def stepFails : setupStep Nat :=
  fun n => (some (GoError.errorString "step failed"), n)

/-! ## `ovsdbdriver/ovsdb.go`: the table cache

A Go map that the code reads and writes by key is a function from keys to
`Option`, `none` for a key that is absent. A Go map that the code only ranges
over is the list of its entries in the order in which the `range` visits them;
Go fixes no order, and the keys of a map are pairwise distinct. -/

/-- `libovsdb.Row`: its only field is the map `Fields`, `none` for the nil map
of the zero value `libovsdb.Row{}`. Column values are kept as text. -/
structure Row where
  Fields : Option (List (String × String))
  deriving DecidableEq

/-- The value `empty := libovsdb.Row{}` of `populateCache`. -/
def Row.empty : Row :=
  { Fields := none }

/-- `libovsdb.RowUpdate`. -/
structure RowUpdate where
  New : Row
  Old : Row
  deriving DecidableEq

/-- `libovsdb.TableUpdate`: `Rows` maps the text of a row UUID to its update. -/
structure TableUpdate where
  Rows : List (String × RowUpdate)
  deriving DecidableEq

/-- `libovsdb.TableUpdates`: `Updates` maps a table name to its update. -/
structure TableUpdates where
  Updates : List (String × TableUpdate)
  deriving DecidableEq

/-- The type `map[libovsdb.UUID]libovsdb.Row` of one cached table; a
`libovsdb.UUID` is the struct of its text `GoUuid`. -/
abbrev TableCache : Type :=
  String → Option Row

/-- The type `map[string]map[libovsdb.UUID]libovsdb.Row` of the package
variable `ovsdbCache`, once `initDBCache` has allocated it. -/
abbrev OvsdbCache : Type :=
  String → Option TableCache

/-- The cache that `make(map[string]map[libovsdb.UUID]libovsdb.Row)` allocates. -/
def OvsdbCache.make : OvsdbCache :=
  fun _ => none

/-- The Go lookup `ovsdbCache[table][uuid]` with its presence flag: the cached
row, or `none` when the table or the row is absent. -/
def OvsdbCache.row? (cache : OvsdbCache) (table uuid : String) : Option Row :=
  match cache table with
  | some rows => rows uuid
  | none => none

/-- The assignment `ovsdbCache[table][uuid] = row`. For a table without a map
Go panics; `populateCache` allocates the map first, and the model leaves such a
cache as it is. -/
def OvsdbCache.setRow (cache : OvsdbCache) (table uuid : String) (row : Row) : OvsdbCache :=
  fun t =>
    if t = table then
      match cache table with
      | some rows => some (fun k => if k = uuid then some row else rows k)
      | none => none
    else cache t

/-- The statement `delete(ovsdbCache[table], uuid)`; on a nil map it does nothing. -/
def OvsdbCache.deleteRow (cache : OvsdbCache) (table uuid : String) : OvsdbCache :=
  fun t =>
    if t = table then
      match cache table with
      | some rows => some (fun k => if k = uuid then none else rows k)
      | none => none
    else cache t

/-- The inner loop `for uuid, row := range tableUpdate.Rows` of `populateCache`:
a new value that is not deeply equal to `libovsdb.Row{}` is stored, otherwise
the key is deleted. -/
def populateRows (table : String) : List (String × RowUpdate) → OvsdbCache → OvsdbCache
  | [], cache => cache
  | (uuid, row) :: rest, cache =>
    if ¬ row.New = Row.empty then
      populateRows table rest (cache.setRow table uuid row.New)
    else
      populateRows table rest (cache.deleteRow table uuid)

/-- The outer loop `for table, tableUpdate := range updates.Updates` of
`populateCache`: a table that has no map yet gets an empty one, then its rows
are merged. -/
def populateTables : List (String × TableUpdate) → OvsdbCache → OvsdbCache
  | [], cache => cache
  | (table, tableUpdate) :: rest, cache =>
    let cache1 : OvsdbCache :=
      if (cache table).isNone then
        fun t => if t = table then some (fun _ => none) else cache t
      else cache
    populateTables rest (populateRows table tableUpdate.Rows cache1)

/-- `populateCache(updates)` on the package variable `ovsdbCache`. -/
def populateCache (updates : TableUpdates) (ovsdbCache : OvsdbCache) : OvsdbCache :=
  populateTables updates.Updates ovsdbCache

/-- `Notifier.Update(context, tableUpdates)` hands the update to `populateCache`. -/
def Notifier.Update (tableUpdates : TableUpdates) (ovsdbCache : OvsdbCache) : OvsdbCache :=
  populateCache tableUpdates ovsdbCache

/-- The cache that `initDBCache` builds from the reply `initCache` of
`MonitorAll`: a fresh map, filled by `populateCache(*initCache)`. -/
def initDBCache (initCache : TableUpdates) : OvsdbCache :=
  populateCache initCache OvsdbCache.make

/-- The cache after a sequence of notifications, applied in order. -/
def applyUpdates (ns : List TableUpdates) (cache : OvsdbCache) : OvsdbCache :=
  ns.foldl (fun c n => populateCache n c) cache

/-- A list of entries stands for a Go map: no key occurs twice. -/
def TableUpdates.WellFormed (n : TableUpdates) : Prop :=
  (n.Updates.map Prod.fst).Nodup ∧ ∀ p ∈ n.Updates, (p.2.Rows.map Prod.fst).Nodup

/-- The row update that a notification carries for the row `uuid` of `table`,
`none` when it does not mention that row. -/
def TableUpdates.mention? (n : TableUpdates) (table uuid : String) : Option RowUpdate :=
  match n.Updates.lookup table with
  | some tableUpdate => tableUpdate.Rows.lookup uuid
  | none => none

/-- The row update of the latest notification of the sequence that mentions the
row `uuid` of `table`, `none` when no notification mentions it. -/
def latestMention? : List TableUpdates → String → String → Option RowUpdate
  | [], _, _ => none
  | n :: ns, table, uuid =>
    match latestMention? ns table uuid with
    | some r => some r
    | none => n.mention? table uuid

/-- What the cache holds for a key after an update that carries `r` for it: the
new row, or nothing when the new row is the empty `libovsdb.Row{}`. -/
def cachedAfter (r : RowUpdate) : Option Row :=
  if r.New = Row.empty then none else some r.New

/-- A sample row with one column. -/
def sampleRow (name : String) : Row :=
  { Fields := some [("name", name)] }

/-- A notification that inserts the ports `u1` and `u2`. -/
def sampleInsert : TableUpdates :=
  { Updates := [("Port", { Rows := [("u1", { New := sampleRow "p1", Old := Row.empty }),
                                    ("u2", { New := sampleRow "p2", Old := Row.empty })] })] }

/-- A notification that deletes the port `u1` and inserts the bridge `b1`. -/
def sampleDelete : TableUpdates :=
  { Updates := [("Port", { Rows := [("u1", { New := Row.empty, Old := sampleRow "p1" })] }),
                ("Bridge", { Rows := [("b1", { New := sampleRow "br0", Old := Row.empty })] })] }

/-! ## `ovsdbdriver`: transactions

`libovsdb` is an external library. Its client is a parameter: the method
`Transact` as a function of the state `σ` of the connection and of the remote
database. The values that the driver puts into rows, conditions and mutations
are the constructors of `OvsValue`. A Go map that the code fills key by key and
hands to the library is the list of its entries in the order of the
assignments. -/

/-- The values of type `interface{}` that the driver stores in a row, a
condition or a mutation: a string, a boolean, a `uint`, a `libovsdb.UUID` (the
struct of its text `GoUuid`) and the `*libovsdb.OvsSet` of a slice of strings or
of UUIDs. -/
inductive OvsValue where
  | str (s : String)
  | bool (b : Bool)
  | uint (n : Nat)
  | uuid (GoUuid : String)
  | stringSet (elems : List String)
  | uuidSet (elems : List String)
  deriving DecidableEq

/-- The result `[]interface{}{column, function, value}` of `libovsdb.NewCondition`. -/
structure Condition where
  column : String
  function : String
  value : OvsValue
  deriving DecidableEq

/-- The result `[]interface{}{column, mutator, value}` of `libovsdb.NewMutation`. -/
structure Mutation where
  column : String
  mutator : String
  value : OvsValue
  deriving DecidableEq

/-- `libovsdb.NewCondition`. -/
def NewCondition (column function : String) (value : OvsValue) : Condition :=
  { column := column, function := function, value := value }

/-- `libovsdb.NewMutation`. -/
def NewMutation (column mutator : String) (value : OvsValue) : Mutation :=
  { column := column, mutator := mutator, value := value }

/-- `libovsdb.NewOvsSet` on a slice of UUIDs: the set and a nil error. The
library returns an error only for an argument that is not a slice. -/
def NewOvsSet (goSlice : List String) : OvsValue × Option GoError :=
  (OvsValue.uuidSet goSlice, none)

/-- `libovsdb.NewOvsSet` on a slice of strings. -/
def NewOvsSetOfStrings (goSlice : List String) : OvsValue × Option GoError :=
  (OvsValue.stringSet goSlice, none)

/-- The Go assignment `m[key] = value` on a `map[string]interface{}`. -/
def mapAssign (m : List (String × OvsValue)) (key : String) (value : OvsValue) :
    List (String × OvsValue) :=
  if (m.lookup key).isSome then
    m.map (fun p => if p.1 = key then (key, value) else p)
  else
    m ++ [(key, value)]

/-- `libovsdb.Operation`, with the fields that the driver sets; a field left
out in Go has its zero value. -/
structure Operation where
  Op : String
  Table : String
  Row : List (String × OvsValue) := []
  Mutations : List Mutation := []
  Where : List Condition := []
  UUIDName : String := ""
  deriving DecidableEq

/-- `libovsdb.OperationResult`, with the fields that the driver reads. -/
structure OperationResult where
  Error : String := ""
  Details : String := ""
  Rows : List (List (String × OvsValue)) := []
  deriving DecidableEq

/-- The constant `OvsDatabase`. -/
def OvsDatabase : String := "Open_vSwitch"

/-- The constant `RootTable`. -/
def RootTable : String := "Open_vSwitch"

/-- The constant `BridgeTable`. -/
def BridgeTable : String := "Bridge"

/-- The constant `PortTable`. -/
def PortTable : String := "Port"

/-- The constant `InterfaceTable`. -/
def InterfaceTable : String := "Interface"

/-- The constant `InsertOp`. -/
def InsertOp : String := "insert"

/-- The constant `DeleteOp`. -/
def DeleteOp : String := "delete"

/-- The constant `SelectOp`. -/
def SelectOp : String := "select"

/-- The constant `MutateOp`. -/
def MutateOp : String := "mutate"

/-- A non-nil `*libovsdb.OvsdbClient`: `Transact(database, operation...)` returns
the reply and an error and changes the state `σ`. -/
structure OvsdbClient (σ : Type) where
  Transact : String → List Operation → σ → (List OperationResult × Option GoError) × σ

/-- The Go struct `OvsdbDriver`; `none` is the nil client. -/
structure OvsdbDriver (C : Type) where
  client : Option C

/-- `performOvsdbOps(ops)` with the non-nil client of the driver. The error of
`Transact` is dropped (`reply, _ :=`). -/
def performOvsdbOps {σ : Type} (client : OvsdbClient σ) (ops : List Operation) (s : σ) :
    Option GoError × σ :=
  if ops.length = 0 then
    (none, s)
  else
    match client.Transact OvsDatabase ops s with
    | ((reply, _), s1) =>
      if reply.length < ops.length then
        (some GoError.ErrReplyDisMatchOps, s1)
      else
        (NewAggregate (reply.filterMap (fun o =>
          if o.Error ≠ "" then some (GoError.errorString (o.Error ++ "(" ++ o.Details ++ ")"))
          else none)), s1)

/-- `bridgeExists` checks whether the bridge exists: the flag and the error it
returns. After the length check the reply has a first result, so the `[]` case
of the match is never taken. -/
def bridgeExists {σ : Type} (client : OvsdbClient σ) (bridgeName : String) (s : σ) :
    (Bool × Option GoError) × σ :=
  let condition := NewCondition "name" "==" (OvsValue.str bridgeName)
  let selectOp : Operation := { Op := SelectOp, Table := BridgeTable, Where := [condition] }
  let operations := [selectOp]
  match client.Transact OvsDatabase operations s with
  | ((reply, _), s1) =>
    if reply.length < operations.length then
      ((false, some GoError.ErrReplyDisMatchOps), s1)
    else
      match reply with
      | [] => ((false, some GoError.ErrReplyDisMatchOps), s1)
      | reply0 :: _ =>
        if reply0.Error ≠ "" then
          ((false, some (GoError.ErrTransactionError reply0.Error)), s1)
        else if reply0.Rows.length = 0 then
          ((false, none), s1)
        else
          ((true, none), s1)

/-- `portExists` checks whether the port exists. -/
def portExists {σ : Type} (client : OvsdbClient σ) (portName : String) (s : σ) :
    (Bool × Option GoError) × σ :=
  let condition := NewCondition "name" "==" (OvsValue.str portName)
  let selectOp : Operation := { Op := SelectOp, Table := PortTable, Where := [condition] }
  let operations := [selectOp]
  match client.Transact OvsDatabase operations s with
  | ((reply, _), s1) =>
    if reply.length < operations.length then
      ((false, some GoError.ErrReplyDisMatchOps), s1)
    else
      match reply with
      | [] => ((false, some GoError.ErrReplyDisMatchOps), s1)
      | reply0 :: _ =>
        if reply0.Error ≠ "" then
          ((false, some (GoError.ErrTransactionError reply0.Error)), s1)
        else if reply0.Rows.length = 0 then
          ((false, none), s1)
        else
          ((true, none), s1)

/-- The one operation that an existence check submits: a `select` on `table`
with the single condition `name == name`. -/
def selectByName (table name : String) : Operation :=
  { Op := SelectOp, Table := table, Where := [NewCondition "name" "==" (OvsValue.str name)] }

/-- What an existence check answers to a reply: an error for a reply without a
result or with an error in its first result, otherwise whether that result has
a row. -/
def existsAnswer (reply : List OperationResult) : Bool × Option GoError :=
  match reply with
  | [] => (false, some GoError.ErrReplyDisMatchOps)
  | reply0 :: _ =>
    if reply0.Error ≠ "" then (false, some (GoError.ErrTransactionError reply0.Error))
    else if reply0.Rows = [] then (false, none)
    else (true, none)

/-- What the driver asks of the outside: a transaction on the database, or a
command line run with `exec.Command`. -/
inductive Request where
  | transact (database : String) (ops : List Operation)
  | exec (argv : List String)
  deriving DecidableEq

/-- The client that does what `client` does and logs every transaction. -/
def OvsdbClient.logged {σ : Type} (client : OvsdbClient σ) : OvsdbClient (σ × List Request) :=
  { Transact := fun database ops s =>
      match client.Transact database ops s.1 with
      | (r, s1) => (r, (s1, s.2 ++ [Request.transact database ops])) }


/-- The function that does what `exec` does and logs every command line. -/
def loggedExec {σ : Type} (exec : List String → σ → Option GoError × σ) :
    List String → σ × List Request → Option GoError × (σ × List Request) :=
  fun argv s =>
    match exec argv s.1 with
    | (r, s1) => (r, (s1, s.2 ++ [Request.exec argv]))

/-- `getRootUUID` returns the first key that `range ovsdbCache[OvsDatabase]`
visits, and the zero `libovsdb.UUID{}` for a table without a row. `rootTable`
is that table of the cache as the `range` visits it. -/
def getRootUUID (rootTable : List (String × Row)) : String :=
  match rootTable with
  | (uuid, _) :: _ => uuid
  | [] => ""

/-- The four operations that `createOvsBridge` builds. `mac` is the text of
`netutils.GenerateRandomMAC()`, a random address made outside of this code. -/
def createOvsBridgeOps (rootTable : List (String × Row)) (mac : String) (bridgeName : String)
    (setMacAddr : Bool) : List Operation :=
  let namedBridgeUuid := "bridge"
  let namedPortUuid := "port"
  let namedIntfUuid := "intf"
  let protocols := ["OpenFlow10", "OpenFlow11", "OpenFlow12", "OpenFlow13"]
  let intf := mapAssign (mapAssign [] "name" (OvsValue.str bridgeName))
    "type" (OvsValue.str "internal")
  let intfOp : Operation :=
    { Op := InsertOp, Table := InterfaceTable, Row := intf, UUIDName := namedIntfUuid }
  let port := mapAssign (mapAssign [] "name" (OvsValue.str bridgeName))
    "interfaces" (OvsValue.uuid namedIntfUuid)
  let portOp : Operation :=
    { Op := InsertOp, Table := PortTable, Row := port, UUIDName := namedPortUuid }
  let bridge0 := mapAssign (mapAssign (mapAssign (mapAssign [] "name" (OvsValue.str bridgeName))
    "stp_enable" (OvsValue.bool false)) "protocols" (NewOvsSetOfStrings protocols).1)
    "ports" (OvsValue.uuid namedPortUuid)
  let bridge := if setMacAddr then mapAssign bridge0 "other_config:hwaddr" (OvsValue.str mac)
    else bridge0
  let bridgeOp : Operation :=
    { Op := InsertOp, Table := BridgeTable, Row := bridge, UUIDName := namedBridgeUuid }
  let mutateUuid := [namedBridgeUuid]
  let mutateSet := (NewOvsSet mutateUuid).1
  let mutation := NewMutation "bridges" InsertOp mutateSet
  let condition := NewCondition "_uuid" "==" (OvsValue.uuid (getRootUUID rootTable))
  let mutateOp : Operation :=
    { Op := MutateOp, Table := RootTable, Mutations := [mutation], Where := [condition] }
  [intfOp, portOp, bridgeOp, mutateOp]

/-- `createOvsBridge` creates an OVS bridge: it hands its four operations to
`performOvsdbOps`. -/
def createOvsBridge {σ : Type} (client : OvsdbClient σ) (rootTable : List (String × Row))
    (mac : String) (bridgeName : String) (setMacAddr : Bool) (s : σ) : Option GoError × σ :=
  performOvsdbOps client (createOvsBridgeOps rootTable mac bridgeName setMacAddr) s

/-- `AddOvsBridge`: check if the bridge exists prior to creating it. The
printing of the errors is left out. -/
def AddOvsBridge {σ : Type} (ovsdber : OvsdbDriver (OvsdbClient σ))
    (rootTable : List (String × Row)) (mac : String) (bridgeName : String) (setMacAddr : Bool)
    (s : σ) : Option GoError × σ :=
  match ovsdber.client with
  | none => (some GoError.ErrInvalidOvsDBConnection, s)
  | some client =>
    match bridgeExists client bridgeName s with
    | ((_, some err), s1) => (some err, s1)
    | ((exist, none), s1) =>
      if !exist then
        match createOvsBridge client rootTable mac bridgeName setMacAddr s1 with
        | (some err, s2) => (some err, s2)
        | (none, s2) =>
          match bridgeExists client bridgeName s2 with
          | ((_, some err), s3) => (some err, s3)
          | ((exist2, none), s3) =>
            if !exist2 then (some (GoError.errorString "Error creating ovs bridge"), s3)
            else (none, s3)
      else
        (some (GoError.ErrBridgeAlreadyExists bridgeName), s1)

/-- `ovsctlDeleteBridge`: `exec` is `exec.Command(argv...).Output()` with its
output dropped, an effect on the host that is a parameter. -/
def ovsctlDeleteBridge {σ : Type} (exec : List String → σ → Option GoError × σ)
    (bridgeName : String) (s : σ) : Option GoError × σ :=
  match exec ["ovs-vsctl", "del-br", bridgeName] s with
  | (some err, s1) =>
    (some (GoError.Errorf ("ovs-vsctl failed to delete ovs bridge " ++ bridgeName ++ ": %v") err),
      s1)
  | (none, s1) => (none, s1)

/-- `deleteOvsBridge` deletes an OVS bridge; its transaction is commented out
in the source and it runs `ovsctlDeleteBridge`. -/
def deleteOvsBridge {σ : Type} (exec : List String → σ → Option GoError × σ)
    (bridgeName : String) (s : σ) : Option GoError × σ :=
  ovsctlDeleteBridge exec bridgeName s

/-- `RemoveOvsBridge`: check if the bridge exists prior to deleting it. -/
def RemoveOvsBridge {σ : Type} (ovsdber : OvsdbDriver (OvsdbClient σ))
    (exec : List String → σ → Option GoError × σ) (bridgeName : String) (s : σ) :
    Option GoError × σ :=
  match ovsdber.client with
  | none => (some GoError.ErrInvalidOvsDBConnection, s)
  | some client =>
    match bridgeExists client bridgeName s with
    | ((_, some err), s1) => (some err, s1)
    | ((exist, none), s1) =>
      if exist then
        match deleteOvsBridge exec bridgeName s1 with
        | (some err, s2) => (some err, s2)
        | (none, s2) =>
          match bridgeExists client bridgeName s2 with
          | ((_, some err), s3) => (some err, s3)
          | ((exist2, none), s3) =>
            if exist2 then (some (GoError.errorString "Error deleting ovs bridge"), s3)
            else (none, s3)
      else
        (some (GoError.ErrBridgeNotExists bridgeName), s1)


/-- The operations that `addPort` builds, or the error it returns before any
transaction when `libovsdb.NewOvsSet` fails. -/
def addPortOps (bridgeName portName portType : String) (tag : Nat) :
    Except GoError (List Operation) :=
  let namedPortUUIDStr := portName
  let namedIntfUUIDStr := "Intf" ++ portName
  let namedPortUUID := [namedPortUUIDStr]
  let namedIntfUUID := [namedIntfUUIDStr]
  let intf := mapAssign (mapAssign [] "name" (OvsValue.str portName))
    "type" (OvsValue.str portType)
  let intfOp : Operation :=
    { Op := InsertOp, Table := InterfaceTable, Row := intf, UUIDName := namedIntfUUIDStr }
  let port0 := mapAssign [] "name" (OvsValue.str portName)
  let port1 := if tag ≠ 0 then
      mapAssign (mapAssign port0 "vlan_mode" (OvsValue.str "access")) "tag" (OvsValue.uint tag)
    else port0
  match NewOvsSet namedIntfUUID with
  | (_, some _) => .error (GoError.errorString "failed to create port interfaces set")
  | (interfaces, none) =>
    let port := mapAssign port1 "interfaces" interfaces
    let portOp : Operation :=
      { Op := InsertOp, Table := PortTable, Row := port, UUIDName := namedPortUUIDStr }
    let mutateSet := (NewOvsSet namedPortUUID).1
    let mutation := NewMutation "ports" InsertOp mutateSet
    let condition := NewCondition "name" "==" (OvsValue.str bridgeName)
    let mutateOp : Operation :=
      { Op := MutateOp, Table := BridgeTable, Mutations := [mutation], Where := [condition] }
    .ok [intfOp, portOp, mutateOp]

/-- `addPort(bridgeName, portName, portType, tag)`. -/
def addPort {σ : Type} (client : OvsdbClient σ) (bridgeName portName portType : String)
    (tag : Nat) (s : σ) : Option GoError × σ :=
  match addPortOps bridgeName portName portType tag with
  | .error err => (some err, s)
  | .ok operations => performOvsdbOps client operations s

/-- `AddOvsInternalPort` adds an ovs internal port. -/
def AddOvsInternalPort {σ : Type} (client : OvsdbClient σ) (bridgeName portName : String)
    (tag : Nat) (s : σ) : Option GoError × σ :=
  addPort client bridgeName portName "internal" tag s

/-- `AddOvsVethPort` adds a veth pair port. -/
def AddOvsVethPort {σ : Type} (client : OvsdbClient σ) (bridgeName portName : String)
    (tag : Nat) (s : σ) : Option GoError × σ :=
  addPort client bridgeName portName "" tag s

/-- The expression `row.Fields["name"].(string)`: the name of a cached row,
`none` when Go panics because the row has no `name` field. -/
def Row.name? (row : Row) : Option String :=
  match row.Fields with
  | some fields => fields.lookup "name"
  | none => none

/-- The loop `for uuid, row := range getTableCache(PortTable)` of `DeletePort`:
the UUID for the mutation, which starts as `portUUID` and becomes the key of
the first visited row whose name is `portName`; `none` when Go panics on a row
without a name. -/
def findPortUUID (portName : String) (portUUID : String) :
    List (String × Row) → Option String
  | [] => some portUUID
  | (uuid, row) :: rest =>
    match row.name? with
    | none => none
    | some name => if name = portName then some uuid else findPortUUID portName portUUID rest

/-- The three operations that `DeletePort` builds for the UUID `portUUID`. -/
def deletePortOps (bridgeName portName : String) (portUUID : String) : List Operation :=
  let intfOp : Operation :=
    { Op := DeleteOp, Table := InterfaceTable,
      Where := [NewCondition "name" "==" (OvsValue.str portName)] }
  let portOp : Operation :=
    { Op := DeleteOp, Table := PortTable,
      Where := [NewCondition "name" "==" (OvsValue.str portName)] }
  let mutateSet := (NewOvsSet [portUUID]).1
  let mutation := NewMutation "ports" DeleteOp mutateSet
  let condition := NewCondition "name" "==" (OvsValue.str bridgeName)
  let mutateOp : Operation :=
    { Op := MutateOp, Table := BridgeTable, Mutations := [mutation], Where := [condition] }
  [intfOp, portOp, mutateOp]

/-- `DeletePort(bridgeName, portName)`; `portTable` is the `Port` table of the
cache as the `range` visits it. The result is `none` when Go panics. -/
def DeletePort {σ : Type} (client : OvsdbClient σ) (portTable : List (String × Row))
    (bridgeName portName : String) (s : σ) : Option (Option GoError × σ) :=
  let portUUIDStr := portName
  match findPortUUID portName portUUIDStr portTable with
  | none => none
  | some portUUID => some (performOvsdbOps client (deletePortOps bridgeName portName portUUID) s)

/-- A list of entries is a table of the cache as a `range` visits it: every
cached row of the table occurs once, and nothing else occurs. -/
def IsRangeOf (entries : List (String × Row)) (cache : OvsdbCache) (table : String) : Prop :=
  (entries.map Prod.fst).Nodup ∧ ∀ uuid row, (uuid, row) ∈ entries ↔ cache.row? table uuid = some row

/-- The loop `for i := 0; i < retries; i++` of `NewOvsdber` with `n` rounds
left: `client, err = libovsdb.ConnectUnix("")`, and `break` when `err == nil`.
`ConnectUnix` is the library call, a parameter. -/
def NewOvsdber.connect {C σ : Type} (ConnectUnix : σ → (Option C × Option GoError) × σ) :
    Nat → Option C → σ → Option C × σ
  | 0, client, s => (client, s)
  | n + 1, _, s =>
    match ConnectUnix s with
    | ((client, none), s1) => (client, s1)
    | ((client, some _), s1) => NewOvsdber.connect ConnectUnix n client s1

/-- `NewOvsdber(host, port)`. `runInitDBCache` is the call `ovs.initDBCache()`
as an effect on the state, `none` when it does not return: it waits until the
cache holds the root row. The result is `none` when `NewOvsdber` does not
return. -/
def NewOvsdber {C σ : Type} (ConnectUnix : σ → (Option C × Option GoError) × σ)
    (runInitDBCache : C → σ → Option σ) (s : σ) :
    Option ((Option (OvsdbDriver C) × Option GoError) × σ) :=
  let retries := 3
  match NewOvsdber.connect ConnectUnix retries none s with
  | (none, s1) => some ((none, some GoError.ErrInvalidOvsDBConnection), s1)
  | (some client, s1) =>
    match runInitDBCache client s1 with
    | some s2 => some ((some { client := some client }, none), s2)
    | none => none

/-- What the sample database does with one operation: an `insert` into the
`Bridge` table adds the name of the row, a `select` on the `Bridge` table by
name returns one row when the bridge is held; every operation succeeds. -/
def sampleOperation (op : Operation) (bridges : List String) : OperationResult × List String :=
  if op.Op = InsertOp ∧ op.Table = BridgeTable then
    match op.Row.lookup "name" with
    | some (OvsValue.str name) => ({}, name :: bridges)
    | _ => ({}, bridges)
  else if op.Op = SelectOp ∧ op.Table = BridgeTable then
    match op.Where with
    | [c] => match c.value with
      | OvsValue.str name =>
        if name ∈ bridges then ({ Rows := [[("name", OvsValue.str name)]] }, bridges)
        else ({}, bridges)
      | _ => ({}, bridges)
    | _ => ({}, bridges)
  else ({}, bridges)

/-- The sample database runs the operations of a transaction in order. -/
def sampleTransact : List Operation → List String → List OperationResult × List String
  | [], bridges => ([], bridges)
  | op :: ops, bridges =>
    match sampleOperation op bridges with
    | (r, bridges1) =>
      match sampleTransact ops bridges1 with
      | (rs, bridges2) => (r :: rs, bridges2)

/-- The client of the sample database. -/
def sampleClient : OvsdbClient (List String) :=
  { Transact := fun _ ops bridges =>
      match sampleTransact ops bridges with
      | (reply, bridges1) => ((reply, none), bridges1) }

/-- The command line on the sample host: `ovs-vsctl del-br name` drops the bridge. -/
def sampleExec (argv : List String) (bridges : List String) : Option GoError × List String :=
  match argv with
  | ["ovs-vsctl", "del-br", name] => (none, bridges.filter (fun b => b ≠ name))
  | _ => (none, bridges)

/-- A client whose database answers every transaction with an empty reply. -/
def silentClient : OvsdbClient Nat :=
  { Transact := fun _ _ n => (([], some (GoError.errorString "connection lost")), n + 1) }

/-- A client whose database answers one result with an error and one without. -/
def failingClient : OvsdbClient Nat :=
  { Transact := fun _ _ n =>
      (([{ Error := "constraint violation", Details := "no such row" }, {},
         { Error := "referential integrity violation", Details := "ports" }], none), n + 1) }

/-- The UUIDs that a value holds. -/
def OvsValue.uuids : OvsValue → List String
  | OvsValue.uuid u => [u]
  | OvsValue.uuidSet us => us
  | _ => []

/-- The UUIDs that the row and the mutations of an operation refer to; in an
`insert` or a `mutate` of the driver these are the named placeholders. -/
def Operation.references (op : Operation) : List String :=
  (op.Row.map (fun p => p.2.uuids)).flatten ++ (op.Mutations.map (fun m => m.value.uuids)).flatten


/-- A cached `Port` table as a `range` visits it, with two ports. -/
def samplePortTable : List (String × Row) :=
  [("uuid-1", sampleRow "eth1"), ("uuid-2", sampleRow "TestPort")]


/-- The stack after `Push(c)` for every command of the list, in order. -/
def pushAll {σ : Type} (s : CommandStack σ) (cs : List (UndoableCommand σ)) : CommandStack σ :=
  cs.foldl CommandStack.Push s

/-- The commands that `n` calls of `Pop` return, in call order, and the stack
afterwards; a call on an empty stack returns no command. -/
def popN {σ : Type} : Nat → CommandStack σ → List (UndoableCommand σ) × CommandStack σ
  | 0, s => ([], s)
  | n + 1, s =>
    match s.Pop with
    | (.ok c, rest) => (c :: (popN n rest).1, (popN n rest).2)
    | (.error _, rest) => ((popN n rest).1, (popN n rest).2)


/-! ## `util/utils.go`: the route table

A Go string that the code scans is the Lean string of its characters; the texts
at hand are ASCII, where a byte is a character. A `net.IP` is the list of its
bytes. -/

/-- The value of a hexadecimal digit, as `encoding/hex` reads it; `none` for
any other character. -/
def fromHexChar (c : Char) : Option Nat :=
  if '0' ≤ c ∧ c ≤ '9' then some (c.toNat - '0'.toNat)
  else if 'a' ≤ c ∧ c ≤ 'f' then some (c.toNat - 'a'.toNat + 10)
  else if 'A' ≤ c ∧ c ≤ 'F' then some (c.toNat - 'A'.toNat + 10)
  else none

/-- `hex.Decode` of the Go library on the characters of a string: two digits
make a byte; the first character that is no digit gives `InvalidByteError`, and
an odd number of digits gives `ErrLength`. -/
def hexDecode : List Char → Except GoError (List Nat)
  | [] => .ok []
  | [p] =>
    match fromHexChar p with
    | none => .error (GoError.hexInvalidByteError p)
    | some _ => .error GoError.hexErrLength
  | p :: q :: rest =>
    match fromHexChar p with
    | none => .error (GoError.hexInvalidByteError p)
    | some a =>
      match fromHexChar q with
      | none => .error (GoError.hexInvalidByteError q)
      | some b =>
        match hexDecode rest with
        | .ok bytes => .ok ((a * 16 + b) :: bytes)
        | .error err => .error err

/-- `hex.DecodeString` of the Go library. -/
def hexDecodeString (str : String) : Except GoError (List Nat) :=
  hexDecode str.toList

/-- `parseIP(str)`: the address, or the error. After the length check the
slice has four bytes, so the last case of the match is never taken. -/
def parseIP (str : String) : Except GoError (List Nat) :=
  if str = "" then
    .error (GoError.errorString "input is nil")
  else
    match hexDecodeString str with
    | .error err => .error err
    | .ok bytes =>
      if bytes.length ≠ 4 then
        .error (GoError.errorString "only IPv4 is supported")
      else
        match bytes with
        | [b0, b1, b2, b3] => .ok [b3, b2, b1, b0]
        | _ => .error (GoError.errorString "only IPv4 is supported")

/-- The upper-case hexadecimal digit of a value below 16. -/
def toHexChar (n : Nat) : Char :=
  if n < 10 then Char.ofNat ('0'.toNat + n) else Char.ofNat ('A'.toNat + (n - 10))

/-- The text of a list of bytes in hexadecimal, two upper-case digits a byte. -/
def hexEncode : List Nat → List Char
  | [] => []
  | b :: bytes => toHexChar (b / 16) :: toHexChar (b % 16) :: hexEncode bytes

/-- The Go string `hex(b0 b1 b2 b3)` of four bytes. -/
def hexOfBytes (bytes : List Nat) : String :=
  String.mk (hexEncode bytes)


/-- The Go struct `Route`. -/
structure Route where
  Interface : String
  Destination : List Nat
  Gateway : List Nat
  deriving DecidableEq

/-- The fields of `net.Interface` that the tests set. -/
structure NetInterface where
  Index : Nat
  MTU : Nat
  Name : String
  Flags : Nat
  deriving DecidableEq

/-- The lines that the calls `scanner.ReadString('\n')` of `getRoutes` return
before `io.EOF`, each with its newline; `cur` holds the characters of the
current line, last one first. Text after the last newline comes with `io.EOF`
and is dropped by the `break`. -/
def readLines : List Char → List Char → List (List Char)
  | [], _ => []
  | c :: cs, cur =>
    if c = '\n' then (cur.reverse ++ ['\n']) :: readLines cs []
    else readLines cs (c :: cur)

/-- `unicode.IsSpace` of the Go library. -/
def isSpace (c : Char) : Bool :=
  c = '\t' || c = '\n' || c.toNat = 11 || c.toNat = 12 || c = '\r' || c = ' '
    || c.toNat = 0x85 || c.toNat = 0xA0 || c.toNat = 0x1680
    || (0x2000 ≤ c.toNat && c.toNat ≤ 0x200A)
    || c.toNat = 0x2028 || c.toNat = 0x2029 || c.toNat = 0x202F || c.toNat = 0x205F
    || c.toNat = 0x3000

/-- `strings.Fields` of the Go library: the maximal runs of characters that are
no white space; `cur` holds the current run, last character first. -/
def Fields : List Char → List Char → List String
  | [], cur => if cur = [] then [] else [String.mk cur.reverse]
  | c :: cs, cur =>
    if isSpace c then
      if cur = [] then Fields cs [] else String.mk cur.reverse :: Fields cs []
    else Fields cs (c :: cur)

/-- The `for` loop of `getRoutes` over the lines read. The result is `none`
when Go panics on `fields[0]`, `fields[1]` or `fields[2]` of a line with fewer
fields. -/
def getRoutes.loop : List (List Char) → List Route → Option (Except GoError (List Route))
  | [], routes => some (.ok routes)
  | line :: rest, routes =>
    if "Iface".toList.isPrefixOf line then
      getRoutes.loop rest routes
    else
      let fields := Fields line []
      match fields[0]? with
      | none => none
      | some iface =>
        match fields[1]? with
        | none => none
        | some dst =>
          match parseIP dst with
          | .error err => some (.error err)
          | .ok ip1 =>
            match fields[2]? with
            | none => none
            | some gw =>
              match parseIP gw with
              | .error err => some (.error err)
              | .ok ip2 =>
                getRoutes.loop rest
                  (routes ++ [{ Interface := iface, Destination := ip1, Gateway := ip2 }])

/-- `getRoutes(input)`; the reader is the text it delivers, `none` for a nil
reader. -/
def getRoutes (input : Option String) : Option (Except GoError (List Route)) :=
  match input with
  | none => some (.error (GoError.errorString "input is nil"))
  | some text => getRoutes.loop (readLines text.toList []) []

/-- The `for i := range routes` loop of `chooseHostInterfaceFromRoute`. -/
def chooseHostInterfaceFromRoute.loop
    (InterfaceByName : String → Option NetInterface × Option GoError) :
    List Route → Option NetInterface × Option GoError
  | [] => (none, none)
  | route :: rest =>
    if route.Destination = [0, 0, 0, 0] then
      match InterfaceByName route.Interface with
      | (_, some err) => (none, some err)
      | (some intf, none) => (some intf, none)
      | (none, none) => chooseHostInterfaceFromRoute.loop InterfaceByName rest
    else chooseHostInterfaceFromRoute.loop InterfaceByName rest

/-- `chooseHostInterfaceFromRoute(inFile, nw)`; `InterfaceByName` is the method
of `nw`. The result is `none` when Go panics. -/
def chooseHostInterfaceFromRoute (inFile : Option String)
    (InterfaceByName : String → Option NetInterface × Option GoError) :
    Option (Option NetInterface × Option GoError) :=
  match getRoutes inFile with
  | none => none
  | some (.error err) => some (none, some err)
  | some (.ok routes) => some (chooseHostInterfaceFromRoute.loop InterfaceByName routes)

/-- `ChooseHostInterface()`. `procNetRoute` is the outcome of
`os.Open("/proc/net/route")`: the text of the file, or the error with the
answer of `os.IsNotExist`; `nativeGo` is the result of
`chooseHostInterfaceNativeGo()`; `InterfaceByName` is `net.InterfaceByName`. -/
def ChooseHostInterface (procNetRoute : Except (GoError × Bool) String)
    (nativeGo : Option NetInterface × Option GoError)
    (InterfaceByName : String → Option NetInterface × Option GoError) :
    Option (Option NetInterface × Option GoError) :=
  match procNetRoute with
  | .error (err, isNotExist) =>
    if isNotExist then some nativeGo else some (none, some err)
  | .ok text => chooseHostInterfaceFromRoute (some text) InterfaceByName

/-- The route lines of a text: the lines read that do not start with `Iface`. -/
def routeLines (text : String) : List (List Char) :=
  (readLines text.toList []).filter (fun line => !"Iface".toList.isPrefixOf line)

/-- The route that a line stands for: its first field is the interface, its
second and third fields are the destination and the gateway in the hexadecimal
form that `parseIP` reads; `none` for any other line. -/
def routeOfLine (line : List Char) : Option Route :=
  match Fields line [] with
  | iface :: dst :: gw :: _ =>
    match parseIP dst, parseIP gw with
    | .ok ip1, .ok ip2 => some { Interface := iface, Destination := ip1, Gateway := ip2 }
    | _, _ => none
  | _ => none

/-- A route table text is well formed: every route line stands for a route. -/
def WellFormedRoutes (text : String) : Prop :=
  ∀ line ∈ routeLines text, (routeOfLine line).isSome = true

/-- The test text `noInternetConnection`: no default route. -/
def noInternetConnection : String :=
  "Iface\tDestination\tGateway \tFlags\tRefCnt\tUse\tMetric\tMask\t\tMTU\tWindow\tIRTT\n" ++
    "docker0\t000011AC\t00000000\t0001\t0\t0\t0\t0000FFFF\t0\t0\t0\n" ++
    "virbr0\t007AA8C0\t00000000\t0001\t0\t0\t0\t00FFFFFF\t0\t0\t0\n"

/-- The test text `nothing`: the header line only. -/
def nothing : String :=
  "Iface\tDestination\tGateway \tFlags\tRefCnt\tUse\tMetric\tMask\t\tMTU\tWindow\tIRTT\n"


/-! ## `ovs.go`: the network configuration -/

/-- `DefaultOvsBridgeName`, the default name for the bridge interface managed
by the driver. -/
def DefaultOvsBridgeName : String := "ovs0"

/-- The constant `networkType`. -/
def networkType : String := "ovs"

/-- The label `BridgeName` of `labels.go`. -/
def BridgeName : String := "com.docker.network.ovs.bridge.name"

/-- The label `DefaultBridge` of `labels.go`. -/
def DefaultBridge : String := "com.docker.network.ovs.default_bridge"

/-- `netlabel.Prefix`. -/
def netlabel.Prefix : String := "com.docker.network"

/-- `netlabel.DriverPrefix`. -/
def netlabel.DriverPrefix : String := netlabel.Prefix ++ ".driver"

/-- `netlabel.DriverMTU`. -/
def netlabel.DriverMTU : String := netlabel.DriverPrefix ++ ".mtu"

/-- The Go struct `networkConfiguration`; the default of a field is its Go
zero value. -/
structure networkConfiguration where
  ID : String := ""
  BridgeName : String := ""
  Mtu : Int := 0
  DefaultBridge : Bool := false
  dbIndex : Nat := 0
  dbExists : Bool := false
  deriving DecidableEq

/-- `validate` performs a static validation on the network configuration
parameters. -/
def networkConfiguration.validate (c : networkConfiguration) : Option GoError :=
  if c.Mtu < 0 then some (GoError.ErrInvalidMtu c.Mtu) else none

/-- `parseErr(label, value, errString)`. -/
def parseErr (label value errString : String) : GoError :=
  GoError.BadRequestErrorf
    ("failed to parse " ++ label ++ " value: " ++ value ++ " (" ++ errString ++ ")")

/-- `fromLabels`: `labels` is the map in the order in which the `range` visits
it. `Atoi` and `ParseBool` are the functions of `strconv`, each giving the value
it returns and the text of its error, `none` for the nil error. Go assigns the
value returned to the field before it tests the error. -/
def networkConfiguration.fromLabels (Atoi : String → Int × Option String)
    (ParseBool : String → Bool × Option String) :
    List (String × String) → networkConfiguration → Option GoError × networkConfiguration
  | [], c => (none, c)
  | (label, value) :: rest, c =>
    if label = Libnetwork.BridgeName then
      networkConfiguration.fromLabels Atoi ParseBool rest { c with BridgeName := value }
    else if label = netlabel.DriverMTU then
      match Atoi value with
      | (mtu, some errString) => (some (parseErr label value errString), { c with Mtu := mtu })
      | (mtu, none) => networkConfiguration.fromLabels Atoi ParseBool rest { c with Mtu := mtu }
    else if label = Libnetwork.DefaultBridge then
      match ParseBool value with
      | (b, some errString) =>
        (some (parseErr label value errString), { c with DefaultBridge := b })
      | (b, none) =>
        networkConfiguration.fromLabels Atoi ParseBool rest { c with DefaultBridge := b }
    else
      networkConfiguration.fromLabels Atoi ParseBool rest c

/-- The datum stored under `netlabel.GenericData`, by the dynamic types that
the type switch of `parseNetworkGenericOptions` tells apart: a pointer
`*networkConfiguration` (`none` for the nil pointer), a `map[string]string`, an
`options.Generic` of a type `G`, or a value of another type, of which the name
of the type is kept. -/
inductive GenericDatum (G : Type) where
  | pointer (opt : Option networkConfiguration)
  | labels (opt : List (String × String))
  | generic (opt : G)
  | other (typeName : String)

/-- `parseNetworkGenericOptions`. `GenerateFromModel` is the function of the
package `options` applied to the nil model `config`; `Except.ok` is a nil error
with the generated `*networkConfiguration`. -/
def parseNetworkGenericOptions {G : Type}
    (GenerateFromModel : G → Except GoError networkConfiguration)
    (Atoi : String → Int × Option String) (ParseBool : String → Bool × Option String)
    (data : GenericDatum G) : Option networkConfiguration × Option GoError :=
  match data with
  | GenericDatum.pointer opt => (opt, none)
  | GenericDatum.labels opt =>
    match networkConfiguration.fromLabels Atoi ParseBool opt {} with
    | (err, config) => (some config, err)
  | GenericDatum.generic opt =>
    match GenerateFromModel opt with
    | .ok config => (some config, none)
    | .error err => (none, some err)
  | GenericDatum.other typeName =>
    (none, some (GoError.BadRequestErrorf
      ("do not recognize network configuration format: " ++ typeName)))

/-- The bytes of a character in a Go string, its UTF-8 encoding. -/
def runeBytes (c : Char) : List Nat :=
  (String.utf8EncodeChar c).map UInt8.toNat

/-- The bytes of the Go string with the text `s`; `len(s)` is their number. -/
def goBytes (s : String) : List Nat :=
  s.toList.flatMap runeBytes

/-- The characters whose bytes are the first `n` bytes of the characters `cs`:
`none` when the text has fewer than `n` bytes or byte `n` lies within a
character. -/
def textOfBytePrefix : List Char → Nat → Option (List Char)
  | _, 0 => some []
  | [], _ + 1 => none
  | c :: cs, n + 1 =>
    if c.utf8Size ≤ n + 1 then
      (textOfBytePrefix cs (n + 1 - c.utf8Size)).map (fun head => c :: head)
    else none

/-- A Go string that is a slice of a string: `text head` is the string with the
text `head`; `raw bytes` is the string of the bytes `bytes` when these end
within a character and so are the bytes of no text. -/
inductive GoSlice where
  | text (head : String)
  | raw (bytes : List Nat)
  deriving DecidableEq

/-- The bytes of a slice. -/
def GoSlice.bytes : GoSlice → List Nat
  | GoSlice.text head => goBytes head
  | GoSlice.raw bytes => bytes

/-- The Go slice expression `s[:n]` on a string: the string of its first `n`
bytes, and `none` for the run-time panic when `n` is larger than `len(s)`. -/
def sliceTo (s : String) (n : Nat) : Option GoSlice :=
  if n ≤ (goBytes s).length then
    match textOfBytePrefix s.toList n with
    | some head => some (GoSlice.text (String.mk head))
    | none => some (GoSlice.raw ((goBytes s).take n))
  else none

/-- The configuration that `parseNetworkOptions` returns with a nil error:
`config c` is the configuration `c`; `rawBridgeName c bytes` is the
configuration with the fields of `c` except `BridgeName`, which is the Go string
of the bytes `bytes`, the bytes of no text. -/
inductive ParsedOptions where
  | config (c : networkConfiguration)
  | rawBridgeName (c : networkConfiguration) (bytes : List Nat)
  deriving DecidableEq

/-- `parseNetworkOptions(id, option)`. Of the map `option` the function reads
the key `netlabel.GenericData` only: `genData` is the value under it, `none`
when the key is absent or its value is nil. The result is `none` when Go
panics: on `config.validate()` with a nil `config`, or on `id[:12]`. -/
def parseNetworkOptions {G : Type}
    (GenerateFromModel : G → Except GoError networkConfiguration)
    (Atoi : String → Int × Option String) (ParseBool : String → Bool × Option String)
    (id : String) (genData : Option (GenericDatum G)) :
    Option (Except GoError ParsedOptions) :=
  let parsed : Option networkConfiguration × Option GoError :=
    match genData with
    | none => (some {}, none)
    | some data => parseNetworkGenericOptions GenerateFromModel Atoi ParseBool data
  match parsed with
  | (_, some err) => some (.error err)
  | (none, none) => none
  | (some config, none) =>
    match config.validate with
    | some err => some (.error err)
    | none =>
      if config.BridgeName = "" ∧ config.DefaultBridge = false then
        match sliceTo id 12 with
        | none => none
        | some (GoSlice.text head) =>
          some (.ok (ParsedOptions.config { config with BridgeName := "br-" ++ head, ID := id }))
        | some (GoSlice.raw bytes) =>
          some (.ok (ParsedOptions.rawBridgeName { config with ID := id }
            (goBytes "br-" ++ bytes)))
      else
        some (.ok (ParsedOptions.config { config with ID := id }))

/-! ## `setup_device.go` -/

/-- `kernel.VersionInfo`, of which `setupDevice` reads `Kernel` and `Major`. -/
structure VersionInfo where
  Kernel : Int
  Major : Int
  Minor : Int
  deriving DecidableEq

/-- `ovsctlCreateBridge(bridgeName, setMacAddr)` of the package `ovs`. `exec`
is `exec.Command(argv...).Output()` with its output dropped, and `hwAddr` the
text of `netutils.GenerateRandomMAC()`. -/
def ovs.ovsctlCreateBridge {σ : Type} (exec : List String → σ → Option GoError × σ)
    (hwAddr : String) (bridgeName : String) (setMacAddr : Bool) (s : σ) : Option GoError × σ :=
  match exec ["ovs-vsctl", "add-br", bridgeName] s with
  | (some err, s1) => (some err, s1)
  | (none, s1) =>
    if setMacAddr then
      let hwAddrArg := "other-config:hwaddr=" ++ hwAddr
      match exec ["ovs-vsctl", "set", "bridge", bridgeName, hwAddrArg] s1 with
      | (some err, s2) =>
        (some (GoError.Errorf ("Failed to set bridge mac-address " ++ hwAddr ++ " : %s") err), s2)
      | (none, s2) => (none, s2)
    else
      (none, s1)

/-- `setupDevice` creates a new ovs bridge interface if necessary.
`GetKernelVersion` is the result of `kernel.GetKernelVersion()`, `rootTable` and
`mac` are what `AddOvsBridge` reads from the cache and draws at random. -/
def setupDevice {σ : Type} (ovsdber : OvsdbDriver (OvsdbClient σ))
    (exec : List String → σ → Option GoError × σ)
    (GetKernelVersion : Except GoError VersionInfo)
    (rootTable : List (String × Row)) (mac hwAddr : String)
    (config : networkConfiguration) (s : σ) : Option GoError × σ :=
  if config.BridgeName ≠ DefaultOvsBridgeName ∧ config.DefaultBridge = true then
    (some (GoError.NonDefaultBridgeExistError config.BridgeName), s)
  else
    let setMac : Bool :=
      match GetKernelVersion with
      | .error _ => false
      | .ok kv => decide (kv.Kernel > 3) || (kv.Kernel == 3 && decide (kv.Major ≥ 3))
    match AddOvsBridge ovsdber rootTable mac config.BridgeName false s with
    | (some err, s1) =>
      match err with
      | GoError.ErrBridgeAlreadyExists _ => (none, s1)
      | _ => ovs.ovsctlCreateBridge exec hwAddr config.BridgeName setMac s1
    | (none, s1) => (none, s1)

/-! ## `ovs.go`: the driver and its networks

The map `d.networks` is read and written by key and ranged over: it is the
list of its entries in the order in which a `range` visits them, with one entry
per key. -/

/-- The Go assignment `m[key] = value` on a map held as its entries. -/
def goAssign {β : Type} (m : List (String × β)) (key : String) (value : β) :
    List (String × β) :=
  if (m.lookup key).isSome then
    m.map (fun p => if p.1 = key then (key, value) else p)
  else
    m ++ [(key, value)]

/-- The Go statement `delete(m, key)` on a map held as its entries. -/
def goDelete {β : Type} (m : List (String × β)) (key : String) : List (String × β) :=
  m.filter (fun p => p.1 ≠ key)

/-- The Go struct `configuration` of the driver. -/
structure configuration where
  EnableIPForwarding : Bool := false
  EnableUserlandProxy : Bool := false
  OvsHost : String := ""
  OvsPort : Int := 0
  NetworkControllerUrl : String := ""
  deriving DecidableEq

/-- The Go struct `bridgeInterface`. A `netlink.Link` is held by the name of
the device, `none` is the nil link. -/
structure bridgeInterface where
  Link : Option String
  gatewayIPv4 : List Nat := []
  deriving DecidableEq

/-- The method `exists` of `bridgeInterface`, which indicates if the bridge
interface exists on the system. -/
def bridgeInterface.linkExists (i : bridgeInterface) : Bool :=
  i.Link.isSome

/-- The Go struct `ovsNetwork`, without its map of endpoints, its pointer back
to the driver and its mutex, which no function embedded here reads. `bridge` is
`none` for the nil pointer; `config` is what the pointer `config` points to. -/
structure ovsNetwork where
  id : String
  bridge : Option bridgeInterface := none
  config : networkConfiguration
  deriving DecidableEq

/-- The methods of `datastore.DataStore` that `storeDelete` calls, over the
state `τ` of the store. `GetObject` receives the parts of the key and the
object, and gives the object that it has brought up to date. -/
structure DataStore (τ : Type) where
  DeleteObjectAtomic : networkConfiguration → τ → Option GoError × τ
  GetObject : List String → networkConfiguration → τ →
    (Option GoError × networkConfiguration) × τ

/-- The Go struct `driver`: its configuration, the map `networks`, whose
values are pointers that may be nil (`none`), and the `store`, `none` when it
is nil. -/
structure driver (τ : Type) where
  config : configuration := {}
  networks : List (String × Option ovsNetwork) := []
  store : Option (DataStore τ) := none

/-- The constant `ovsPrefix`. -/
def ovsPrefix : String := "ovs"

/-- The method `Key` of `networkConfiguration`. -/
def networkConfiguration.Key (ncfg : networkConfiguration) : List String :=
  [ovsPrefix, ncfg.ID]

/-- `getNetworks`: `make([]*ovsNetwork, len(d.networks))` is a slice of
`len(d.networks)` nil pointers, to which the loop appends the networks. -/
def driver.getNetworks {τ : Type} (d : driver τ) : List (Option ovsNetwork) :=
  let ls : List (Option ovsNetwork) := List.replicate d.networks.length none
  d.networks.foldl (fun ls entry => ls ++ [entry.2]) ls

/-- The `retry:` loop of `storeDelete` on a store that is not nil. The result
is `none` when the loop has not ended after `fuel` rounds. The object is given
back as `GetObject` has left it. -/
def driver.storeDelete.retry {τ : Type} (store : DataStore τ) :
    Nat → networkConfiguration → τ → Option ((Option GoError × networkConfiguration) × τ)
  | 0, _, _ => none
  | fuel + 1, kvObject, kv =>
    match store.DeleteObjectAtomic kvObject kv with
    | (some err, kv1) =>
      match err with
      | GoError.ErrKeyModified =>
        match store.GetObject kvObject.Key kvObject kv1 with
        | ((some err2, kvObject1), kv2) =>
          some ((some (GoError.Errorf
            "could not update the kvObject to latest when trying to delete: %v" err2),
            kvObject1), kv2)
        | ((none, kvObject1), kv2) => driver.storeDelete.retry store fuel kvObject1 kv2
      | _ => some ((some err, kvObject), kv1)
    | (none, kv1) => some ((none, kvObject), kv1)

/-- `storeDelete(kvObject)`. -/
def driver.storeDelete {τ : Type} (d : driver τ) (kvObject : networkConfiguration)
    (fuel : Nat) (kv : τ) : Option ((Option GoError × networkConfiguration) × τ) :=
  match d.store with
  | none => some ((none, kvObject), kv)
  | some store => driver.storeDelete.retry store fuel kvObject kv

/-- The function that `DeleteNetwork` defers, run when `DeleteNetwork` returns;
`err` is the value that the local variable `err` of `DeleteNetwork` then holds. -/
def driver.DeleteNetwork.deferred {τ : Type} (nid : String) (n : Option ovsNetwork)
    (err : Option GoError) (d : driver τ) : driver τ :=
  if err.isSome then
    if (d.networks.lookup nid).isNone then
      { d with networks := goAssign d.networks nid n }
    else d
  else d

/-- `DeleteNetwork(nid)`: the error returned, the driver and the store
afterwards. The function declares `var err error` and its result has no name:
`return x` does not assign `err`, and only the branch `n == nil` assigns it.
The result is `none` when Go panics on `n.Lock()` with a nil `n`, or when the
loop of `storeDelete` has not ended after `fuel` rounds. -/
def driver.DeleteNetwork {τ : Type} (d : driver τ) (nid : String) (fuel : Nat) (kv : τ) :
    Option ((Option GoError × driver τ) × τ) :=
  match d.networks.lookup nid with
  | none =>
    some ((some (GoError.InternalMaskableErrorf ("network " ++ nid ++ " does not exist")), d), kv)
  | some n =>
    match n with
    | none => none
    | some nw =>
      let config := nw.config
      let d1 : driver τ := { d with networks := goDelete d.networks nid }
      if n.isNone then
        let err := some (GoError.ErrNoNetwork nid)
        some ((err, driver.DeleteNetwork.deferred nid n err d1), kv)
      else if config.DefaultBridge then
        some ((some (GoError.ForbiddenErrorf
          ("default network of type \"" ++ networkType ++ "\" cannot be deleted")),
          driver.DeleteNetwork.deferred nid n none d1), kv)
      else
        match d1.storeDelete config fuel kv with
        | none => none
        | some ((r, _), kv1) => some ((r, driver.DeleteNetwork.deferred nid n none d1), kv1)

/-- What the steps of a bridge setup work on: what the pointer `config` points
to, and the host with its devices and its database. -/
structure SetupWorld (η : Type) where
  config : networkConfiguration
  host : η

/-- `newInterface(config)`: the bridge interface, and the world with the
bridge name that it has set in `config`. `LinkByName` is `netlink.LinkByName`
without its error, which `newInterface` drops. -/
def newInterface {η : Type} (LinkByName : String → η → Option String) (w : SetupWorld η) :
    bridgeInterface × SetupWorld η :=
  let config : networkConfiguration :=
    if w.config.BridgeName = "" then { w.config with BridgeName := DefaultOvsBridgeName }
    else w.config
  ({ Link := LinkByName config.BridgeName w.host }, { w with config := config })

/-- The five functions of type `setupStep` that `createNetwork` queues. -/
structure StepFunctions (σ : Type) where
  setupDevice : setupStep σ
  setupVerifyInterface : setupStep σ
  setupLoopbackAddressRouting : setupStep σ
  setupDeviceUp : setupStep σ
  setupAttachNIC : setupStep σ

/-- The part of `createNetwork` from `newBridgeSetup` to the last `queueStep`:
the setup with the steps queued. -/
def driver.createNetwork.queue {σ : Type} (fns : StepFunctions σ)
    (bridgeAlreadyExists EnableUserlandProxy : Bool) : bridgeSetup σ :=
  let bridgeSetup0 : bridgeSetup σ := newBridgeSetup
  let bridgeSetup1 :=
    if !bridgeAlreadyExists then bridgeSetup0.queueStep fns.setupDevice else bridgeSetup0
  let bridgeSetup2 := bridgeSetup1.queueStep fns.setupVerifyInterface
  let bridgeSetup3 :=
    if !EnableUserlandProxy then bridgeSetup2.queueStep fns.setupLoopbackAddressRouting
    else bridgeSetup2
  let bridgeSetup4 := bridgeSetup3.queueStep fns.setupDeviceUp
  if !bridgeAlreadyExists then bridgeSetup4.queueStep fns.setupAttachNIC else bridgeSetup4

/-- `createNetwork(config)`: the error returned, the driver and the world
afterwards. The network registered holds the pointers `bridgeIface` and
`config`, so that the entry of the map is the network with the bridge
interface and with the configuration as the steps have left it. The deferred
function deletes the entry when the local variable `err`, which here is
assigned the error of `apply`, is not nil. -/
def driver.createNetwork {τ η : Type} (d : driver τ) (fns : StepFunctions (SetupWorld η))
    (LinkByName : String → η → Option String) (w : SetupWorld η) :
    Option GoError × driver τ × SetupWorld η :=
  let id := w.config.ID
  let d1 : driver τ :=
    { d with networks := goAssign d.networks id (some { id := id, config := w.config }) }
  match newInterface LinkByName w with
  | (bridgeIface, w1) =>
    let bridgeAlreadyExists := bridgeIface.linkExists
    let bridgeSetup :=
      driver.createNetwork.queue fns bridgeAlreadyExists d.config.EnableUserlandProxy
    match bridgeSetup.apply w1 with
    | (err, w2) =>
      let network : ovsNetwork := { id := id, bridge := some bridgeIface, config := w2.config }
      let d2 : driver τ := { d1 with networks := goAssign d1.networks id (some network) }
      if err.isSome then
        (err, { d2 with networks := goDelete d2.networks w2.config.ID }, w2)
      else
        (none, d2, w2)

/-- The names of the five steps, for the log of the steps run. -/
inductive StepName where
  | setupDevice
  | setupVerifyInterface
  | setupLoopbackAddressRouting
  | setupDeviceUp
  | setupAttachNIC
  deriving DecidableEq

/-- The step that does what `fn` does and writes `name` to a log kept beside
the host. -/
def namedStep {η : Type} (name : StepName) (fn : setupStep (SetupWorld η)) :
    setupStep (SetupWorld (η × List StepName)) :=
  fun w =>
    match fn { config := w.config, host := w.host.1 } with
    | (r, w1) => (r, { config := w1.config, host := (w1.host, w.host.2 ++ [name]) })

/-- The five functions, each writing its name to the log when it runs. -/
def StepFunctions.named {η : Type} (fns : StepFunctions (SetupWorld η)) :
    StepFunctions (SetupWorld (η × List StepName)) :=
  { setupDevice := namedStep StepName.setupDevice fns.setupDevice
    setupVerifyInterface := namedStep StepName.setupVerifyInterface fns.setupVerifyInterface
    setupLoopbackAddressRouting :=
      namedStep StepName.setupLoopbackAddressRouting fns.setupLoopbackAddressRouting
    setupDeviceUp := namedStep StepName.setupDeviceUp fns.setupDeviceUp
    setupAttachNIC := namedStep StepName.setupAttachNIC fns.setupAttachNIC }

/-- The log of the steps that `createNetwork` runs on the world `w`. -/
def driver.createNetwork.stepsRun {τ η : Type} (d : driver τ)
    (fns : StepFunctions (SetupWorld η)) (LinkByName : String → η → Option String)
    (w : SetupWorld η) : List StepName :=
  (d.createNetwork fns.named (fun name h => LinkByName name h.1)
    { config := w.config, host := (w.host, []) }).2.2.host.2

/-- A host that is the list of the names of its devices. -/
def sampleLinkByName (name : String) (links : List String) : Option String :=
  if name ∈ links then some name else none

/-- Steps on the sample host: `setupDevice` creates the bridge device, the
other steps succeed when the bridge device is there. -/
def sampleSteps : StepFunctions (SetupWorld (List String)) :=
  let needsBridge : setupStep (SetupWorld (List String)) := fun w =>
    if w.config.BridgeName ∈ w.host then (none, w)
    else (some (GoError.errorString "Link not found"), w)
  { setupDevice := fun w => (none, { w with host := w.host ++ [w.config.BridgeName] })
    setupVerifyInterface := needsBridge
    setupLoopbackAddressRouting := needsBridge
    setupDeviceUp := needsBridge
    setupAttachNIC := needsBridge }

/-- A network of the sample driver, on the default bridge. -/
def sampleNetwork : ovsNetwork :=
  { id := "net1", config := { ID := "net1", BridgeName := "ovs0", DefaultBridge := true } }

/-- A driver with the one network `sampleNetwork` and no store. -/
def sampleDriver : driver Unit :=
  { networks := [("net1", some sampleNetwork)] }

/-- A store whose `DeleteObjectAtomic` fails. -/
def failingStore : DataStore Nat :=
  { DeleteObjectAtomic := fun _ n => (some (GoError.errorString "store unreachable"), n + 1)
    GetObject := fun _ kvObject n => ((none, kvObject), n) }

/-- A driver with a network `net2` that is not on the default bridge, and with
the store `failingStore`. -/
def sampleStoreDriver : driver Nat :=
  { networks := [("net2", some { id := "net2", config := { ID := "net2", BridgeName := "br0" } })]
    store := some failingStore }

/-- The function of `fns` that a step name stands for. -/
def StepFunctions.get {σ : Type} (fns : StepFunctions σ) : StepName → setupStep σ
  | StepName.setupDevice => fns.setupDevice
  | StepName.setupVerifyInterface => fns.setupVerifyInterface
  | StepName.setupLoopbackAddressRouting => fns.setupLoopbackAddressRouting
  | StepName.setupDeviceUp => fns.setupDeviceUp
  | StepName.setupAttachNIC => fns.setupAttachNIC

/-- The plan for bringing up a bridge in the words of the specification:
create the device unless the bridge existed before, verify the interface,
enable the loopback address routing unless the userland proxy is configured,
bring the device up, and attach the host interface unless the bridge existed
before. -/
def createNetworkPlan (bridgePreExisted enableUserlandProxy : Bool) : List StepName :=
  (if bridgePreExisted then [] else [StepName.setupDevice])
    ++ [StepName.setupVerifyInterface]
    ++ (if enableUserlandProxy then [] else [StepName.setupLoopbackAddressRouting])
    ++ [StepName.setupDeviceUp]
    ++ (if bridgePreExisted then [] else [StepName.setupAttachNIC])

/-! ## Lemmas on the command pipeline -/

theorem CommandStack.Pop_nil {σ : Type} :
    (CommandStack.mk ([] : List (UndoableCommand σ))).Pop
      = (.error GoError.ErrEmptyStack, CommandStack.mk []) := by
  simp [CommandStack.Pop, CommandStack.Len]

theorem CommandStack.Pop_snoc {σ : Type} (l : List (UndoableCommand σ)) (c : UndoableCommand σ) :
    (CommandStack.mk (l ++ [c])).Pop = (.ok c, CommandStack.mk l) := by
  simp [CommandStack.Pop, CommandStack.Len]

theorem CommandManager.undoLoop_eq_runUndos {σ : Type} (l : List (UndoableCommand σ)) :
    ∀ (w : σ) (errs : List GoError),
      CommandManager.undoLoop (CommandStack.mk l) w errs
        = ((runUndos l.reverse w errs).1, CommandStack.mk [], (runUndos l.reverse w errs).2) := by
  induction l using List.reverseRecOn with
  | nil =>
    intro w errs
    unfold CommandManager.undoLoop
    split
    · rename_i h
      rw [CommandStack.Pop_nil] at h
      simp only [Prod.mk.injEq] at h
      simp [runUndos, ← h.2]
    · rename_i h
      rw [CommandStack.Pop_nil] at h
      simp at h
  | append_singleton l c ih =>
    intro w errs
    unfold CommandManager.undoLoop
    split
    · rename_i h
      rw [CommandStack.Pop_snoc] at h
      simp at h
    · rename_i uc rest h
      rw [CommandStack.Pop_snoc] at h
      simp only [Prod.mk.injEq, Except.ok.injEq] at h
      obtain ⟨h1, h2⟩ := h
      subst h1
      subst h2
      simp only [List.reverse_append, List.reverse_cons, List.reverse_nil, List.nil_append,
        List.singleton_append, runUndos]
      cases hu : c.Undo w with
      | mk r w1 =>
        cases r with
        | none => simp [ih]
        | some err => simp [ih]

theorem managerOf_commands {σ : Type} (cs : List (UndoableCommand σ)) :
    managerOf cs = { commands := cs, undoCommands := CommandStack.mk [] } := by
  have h : ∀ (l : List (UndoableCommand σ)) (cm : CommandManager σ),
      l.foldl CommandManager.AddCommand cm
        = { commands := cm.commands ++ l, undoCommands := cm.undoCommands } := by
    intro l
    induction l with
    | nil => intro cm; simp
    | cons c l ih => intro cm; simp [ih, CommandManager.AddCommand]
  simp [managerOf, h, NewCommandManager, NewStack]

theorem CommandManager.executeLoop_ok {σ : Type} (cs : List (UndoableCommand σ)) :
    ∀ (cm : CommandManager σ) (w w1 : σ), runExecutes cs w = some w1 →
      CommandManager.executeLoop cs cm w
        = (none, { cm with undoCommands := CommandStack.mk (cm.undoCommands.commands ++ cs) },
            w1) := by
  induction cs with
  | nil =>
    intro cm w w1 h
    simp only [runExecutes, Option.some.injEq] at h
    simp [CommandManager.executeLoop, h]
  | cons c cs ih =>
    intro cm w w1 h
    cases hc : c.Execute w with
    | mk r w2 =>
      cases r with
      | some err => simp [runExecutes, hc] at h
      | none =>
        simp only [runExecutes, hc] at h
        simp [CommandManager.executeLoop, hc, ih _ _ _ h, CommandStack.Push]

theorem CommandManager.executeLoop_fail {σ : Type} (pre : List (UndoableCommand σ))
    (c : UndoableCommand σ) (post : List (UndoableCommand σ)) :
    ∀ (cm : CommandManager σ) (w wk w2 : σ) (e : GoError), runExecutes pre w = some wk →
      c.Execute wk = (some e, w2) → cm.undoCommands.commands ++ pre ≠ [] →
      CommandManager.executeLoop (pre ++ c :: post) cm w
        = (NewAggregate (runUndos (cm.undoCommands.commands ++ pre).reverse w2 []).1,
            { cm with undoCommands := CommandStack.mk [] },
            (runUndos (cm.undoCommands.commands ++ pre).reverse w2 []).2) := by
  induction pre with
  | nil =>
    intro cm w wk w2 e h hc hne
    simp only [runExecutes, Option.some.injEq] at h
    subst h
    have hlen : cm.undoCommands.commands.length ≠ 0 := by
      intro h0
      exact hne (by simpa using List.eq_nil_of_length_eq_zero h0)
    have hu := CommandManager.undoLoop_eq_runUndos cm.undoCommands.commands w2 []
    simp [CommandManager.executeLoop, hc, CommandStack.IsEmpty, CommandStack.Len, hlen, hu]
  | cons p pre ih =>
    intro cm w wk w2 e h hc _
    cases hp : p.Execute w with
    | mk r w3 =>
      cases r with
      | some err => simp [runExecutes, hp] at h
      | none =>
        simp only [runExecutes, hp] at h
        have := ih { cm with undoCommands := cm.undoCommands.Push p } w3 wk w2 e h hc
          (by simp [CommandStack.Push])
        simp only [CommandStack.Push, List.append_assoc, List.singleton_append] at this
        simp only [List.cons_append, CommandManager.executeLoop, hp]
        exact this

theorem CommandManager.executeLoop_fail_first {σ : Type} (c : UndoableCommand σ)
    (post : List (UndoableCommand σ)) (cm : CommandManager σ) (w w2 : σ) (e : GoError)
    (hc : c.Execute w = (some e, w2)) (hempty : cm.undoCommands.commands = []) :
    CommandManager.executeLoop (c :: post) cm w
      = (some (GoError.Errorf "get error when undo command stack is empty %v" e), cm, w2) := by
  simp [CommandManager.executeLoop, hc, CommandStack.IsEmpty, CommandStack.Len, hempty]

theorem tracedFrom_append {σ : Type} (a : List (UndoableCommand σ)) :
    ∀ (i : Nat) (b : List (UndoableCommand σ)),
      tracedFrom i (a ++ b) = tracedFrom i a ++ tracedFrom (i + a.length) b := by
  induction a with
  | nil => intro i b; simp [tracedFrom]
  | cons c a ih =>
    intro i b
    simp [tracedFrom, ih, Nat.add_assoc, Nat.add_comm 1]

theorem tracedFrom_ne_nil {σ : Type} (i : Nat) (a : List (UndoableCommand σ)) (h : a ≠ []) :
    tracedFrom i a ≠ [] := by
  cases a with
  | nil => exact absurd rfl h
  | cons c a => simp [tracedFrom]

theorem runUndos_append {σ : Type} (a : List (UndoableCommand σ)) :
    ∀ (b : List (UndoableCommand σ)) (w : σ) (errs : List GoError),
      runUndos (a ++ b) w errs = runUndos b (runUndos a w errs).2 (runUndos a w errs).1 := by
  induction a with
  | nil => intro b w errs; simp [runUndos]
  | cons c a ih =>
    intro b w errs
    cases hu : c.Undo w with
    | mk r w1 =>
      cases r with
      | none => simp [runUndos, hu, ih]
      | some err => simp [runUndos, hu, ih]

theorem runUndos_errs {σ : Type} (a : List (UndoableCommand σ)) :
    ∀ (w : σ) (errs : List GoError),
      runUndos a w errs = (errs ++ (runUndos a w []).1, (runUndos a w []).2) := by
  induction a with
  | nil => intro w errs; simp [runUndos]
  | cons c a ih =>
    intro w errs
    cases hu : c.Undo w with
    | mk r w1 =>
      cases r with
      | none => simp only [runUndos, hu]; rw [ih]
      | some err =>
        simp only [runUndos, hu]
        rw [ih w1 (errs ++ [err]), ih w1 ([] ++ [err])]
        simp

theorem undoErrors_append (a b : List Call) :
    undoErrors (a ++ b) = undoErrors a ++ undoErrors b := by
  simp [undoErrors, List.filterMap_append]

theorem undoErrors_executes (l : List Nat) (f : Nat → Option GoError) :
    undoErrors (l.map (fun j => { kind := CallKind.Execute, index := j, result := f j })) = [] := by
  induction l with
  | nil => simp [undoErrors]
  | cons a l ih =>
    simp only [undoErrors, List.map_cons, List.filterMap_cons] at ih ⊢
    exact ih

theorem runExecutes_traced {σ : Type} (cs : List (UndoableCommand σ)) :
    ∀ (i : Nat) (w w1 : σ) (t : List Call), runExecutes cs w = some w1 →
      runExecutes (tracedFrom i cs) (w, t)
        = some (w1, t ++ (List.range' i cs.length).map
            (fun j => { kind := CallKind.Execute, index := j, result := none })) := by
  induction cs with
  | nil =>
    intro i w w1 t h
    simp only [runExecutes, Option.some.injEq] at h
    simp [tracedFrom, runExecutes, h]
  | cons c cs ih =>
    intro i w w1 t h
    cases hc : c.Execute w with
    | mk r w2 =>
      cases r with
      | some err => simp [runExecutes, hc] at h
      | none =>
        simp only [runExecutes, hc] at h
        simp [tracedFrom, runExecutes, UndoableCommand.traced, hc, ih _ _ _ _ h,
          List.range'_succ]

theorem runUndos_traced {σ : Type} (cs : List (UndoableCommand σ)) :
    ∀ (i : Nat) (w : σ) (t : List Call) (errs : List GoError),
      ∃ evs : List Call,
        runUndos (tracedFrom i cs).reverse (w, t) errs
          = (errs ++ undoErrors evs, ((runUndos cs.reverse w []).2, t ++ evs))
        ∧ evs.map Call.target
          = (List.range' i cs.length).reverse.map (fun j => (CallKind.Undo, j))
        ∧ undoErrors evs = (runUndos cs.reverse w []).1 := by
  induction cs with
  | nil =>
    intro i w t errs
    exact ⟨[], by simp [tracedFrom, runUndos, undoErrors]⟩
  | cons c cs ih =>
    intro i w t errs
    obtain ⟨evs, h1, h2, h3⟩ := ih (i + 1) w t errs
    cases hu : c.Undo (runUndos cs.reverse w []).2 with
    | mk r w1 =>
      refine ⟨evs ++ [{ kind := CallKind.Undo, index := i, result := r }], ?_, ?_, ?_⟩
      · simp only [tracedFrom, List.reverse_cons, runUndos_append, h1]
        cases r with
        | none =>
          simp [runUndos, UndoableCommand.traced, hu, undoErrors_append, undoErrors]
        | some err =>
          simp [runUndos, UndoableCommand.traced, hu, undoErrors_append, undoErrors]
      · simp [h2, List.range'_succ, Call.target]
      · simp only [List.reverse_cons, runUndos_append, undoErrors_append, h3]
        rw [runUndos_errs [c]]
        cases r with
        | none => simp [runUndos, hu, undoErrors]
        | some err => simp [runUndos, hu, undoErrors]

theorem observedExecute_rollback {σ : Type} (pre : List (UndoableCommand σ))
    (c : UndoableCommand σ) (post : List (UndoableCommand σ)) (w wk : σ) (e : GoError)
    (hne : pre ≠ []) (hpre : runExecutes pre w = some wk) (hc : (c.Execute wk).1 = some e) :
    ∃ evs : List Call,
      observedExecute (pre ++ c :: post) w
        = (NewAggregate (undoErrors evs),
            { commands := tracedFrom 0 (pre ++ c :: post), undoCommands := CommandStack.mk [] },
            (runUndos pre.reverse (c.Execute wk).2 []).2,
            (List.range' 0 pre.length).map
                (fun j => { kind := CallKind.Execute, index := j, result := none })
              ++ [{ kind := CallKind.Execute, index := pre.length, result := some e }] ++ evs)
      ∧ evs.map Call.target
          = (List.range' 0 pre.length).reverse.map (fun j => (CallKind.Undo, j))
      ∧ undoErrors evs = (runUndos pre.reverse (c.Execute wk).2 []).1 := by
  obtain ⟨evs, h1, h2, h3⟩ := runUndos_traced pre 0 (c.Execute wk).2
    ((List.range' 0 pre.length).map
        (fun j => { kind := CallKind.Execute, index := j, result := none })
      ++ [{ kind := CallKind.Execute, index := pre.length, result := some e }]) []
  refine ⟨evs, ?_, h2, h3⟩
  have hexec : (c.traced pre.length).Execute
      (wk, [] ++ (List.range' 0 pre.length).map
        (fun j => { kind := CallKind.Execute, index := j, result := none }))
      = (some e, ((c.Execute wk).2, (List.range' 0 pre.length).map
          (fun j => { kind := CallKind.Execute, index := j, result := none })
        ++ [{ kind := CallKind.Execute, index := pre.length, result := some e }])) := by
    cases hcw : c.Execute wk with
    | mk r w2 =>
      rw [hcw] at hc
      simp only at hc
      subst hc
      simp [UndoableCommand.traced, hcw]
  have hfail := CommandManager.executeLoop_fail (tracedFrom 0 pre) (c.traced pre.length)
    (tracedFrom (pre.length + 1) post)
    { commands := tracedFrom 0 (pre ++ c :: post), undoCommands := CommandStack.mk [] }
    (w, []) _ _ e (runExecutes_traced pre 0 w wk [] hpre) hexec
  have hfail2 := hfail (by simpa using tracedFrom_ne_nil 0 pre hne)
  simp only [List.nil_append, h1] at hfail2
  simp only [observedExecute, managerOf_commands, CommandManager.Execute]
  rw [← hfail2, tracedFrom_append]
  simp [tracedFrom]

theorem managerOf_Execute_rollback {σ : Type} (pre : List (UndoableCommand σ))
    (c : UndoableCommand σ) (post : List (UndoableCommand σ)) (w wk : σ) (e : GoError)
    (hne : pre ≠ []) (hpre : runExecutes pre w = some wk) (hc : (c.Execute wk).1 = some e) :
    (managerOf (pre ++ c :: post)).Execute w
      = (NewAggregate (runUndos pre.reverse (c.Execute wk).2 []).1,
          { commands := pre ++ c :: post, undoCommands := CommandStack.mk [] },
          (runUndos pre.reverse (c.Execute wk).2 []).2) := by
  have hcw : c.Execute wk = (some e, (c.Execute wk).2) := by
    rw [← hc]
  have h := CommandManager.executeLoop_fail pre c post
    { commands := pre ++ c :: post, undoCommands := CommandStack.mk [] } w wk _ e hpre hcw
    (by simpa using hne)
  simpa [managerOf_commands, CommandManager.Execute] using h

theorem managerOf_Execute_fail_first {σ : Type} (c : UndoableCommand σ)
    (post : List (UndoableCommand σ)) (w : σ) (e : GoError) (hc : (c.Execute w).1 = some e) :
    (managerOf (c :: post)).Execute w
      = (some (GoError.Errorf "get error when undo command stack is empty %v" e),
          { commands := c :: post, undoCommands := CommandStack.mk [] }, (c.Execute w).2) := by
  have hcw : c.Execute w = (some e, (c.Execute w).2) := by
    rw [← hc]
  have h := CommandManager.executeLoop_fail_first c post
    { commands := c :: post, undoCommands := CommandStack.mk [] } w _ e hcw rfl
  simpa [managerOf_commands, CommandManager.Execute] using h

theorem GoError.Errorf_ne_arg (format : String) (e : GoError) : GoError.Errorf format e ≠ e := by
  intro h
  have hs := congrArg sizeOf h
  simp at hs

theorem undoErrors_eq_nil_iff (l : List Call) :
    undoErrors l = [] ↔ ∀ ev ∈ l, ev.kind = CallKind.Undo → ev.result = none := by
  induction l with
  | nil => simp [undoErrors]
  | cons a l ih =>
    obtain ⟨k, i, r⟩ := a
    cases k with
    | Execute =>
      have : undoErrors ({ kind := CallKind.Execute, index := i, result := r } :: l)
          = undoErrors l := by
        simp [undoErrors]
      simp [this, ih]
    | Undo =>
      cases r with
      | none =>
        have : undoErrors ({ kind := CallKind.Undo, index := i, result := none } :: l)
            = undoErrors l := by
          simp [undoErrors]
        simp [this, ih]
      | some err =>
        have : undoErrors ({ kind := CallKind.Undo, index := i, result := some err } :: l)
            = err :: undoErrors l := by
          simp [undoErrors]
        simp [this]

theorem NewAggregate_eq_none_iff (errs : List GoError) : NewAggregate errs = none ↔ errs = [] := by
  cases errs <;> simp [NewAggregate]

theorem NewAggregate_eq_some (errs : List GoError) (err : GoError)
    (h : NewAggregate errs = some err) : err = GoError.aggregate errs := by
  cases errs with
  | nil => simp [NewAggregate] at h
  | cons a l =>
    simp only [NewAggregate, Option.some.injEq] at h
    exact h.symm

theorem observedExecute_log_undoErrors {σ : Type} (pre : List (UndoableCommand σ))
    (c : UndoableCommand σ) (post : List (UndoableCommand σ)) (w wk : σ) (e : GoError)
    (hne : pre ≠ []) (hpre : runExecutes pre w = some wk) (hc : (c.Execute wk).1 = some e) :
    (observedExecute (pre ++ c :: post) w).1
      = NewAggregate (undoErrors (observedExecute (pre ++ c :: post) w).2.2.2) := by
  obtain ⟨evs, h1, _, _⟩ := observedExecute_rollback pre c post w wk e hne hpre hc
  rw [h1]
  simp only [undoErrors_append, undoErrors_executes]
  simp [undoErrors]

theorem observedExecute_fail_first {σ : Type} (c : UndoableCommand σ)
    (post : List (UndoableCommand σ)) (w : σ) (e : GoError) (hc : (c.Execute w).1 = some e) :
    observedExecute (c :: post) w
      = (some (GoError.Errorf "get error when undo command stack is empty %v" e),
          { commands := tracedFrom 0 (c :: post), undoCommands := CommandStack.mk [] },
          (c.Execute w).2, [{ kind := CallKind.Execute, index := 0, result := some e }]) := by
  have ht : ((c.traced 0).Execute (w, [])).1 = some e := by
    simp [UndoableCommand.traced, hc]
  have h := managerOf_Execute_fail_first (c.traced 0) (tracedFrom 1 post) (w, []) e ht
  simp only [observedExecute, tracedFrom, Nat.zero_add]
  rw [h]
  simp [UndoableCommand.traced, hc]

theorem observedExecute_ok {σ : Type} (cs : List (UndoableCommand σ)) (w w1 : σ)
    (h : runExecutes cs w = some w1) :
    observedExecute cs w
      = (none, { commands := tracedFrom 0 cs, undoCommands := CommandStack.mk (tracedFrom 0 cs) },
          w1, (List.range cs.length).map
            (fun j => { kind := CallKind.Execute, index := j, result := none })) := by
  have h1 := CommandManager.executeLoop_ok (tracedFrom 0 cs)
    { commands := tracedFrom 0 cs, undoCommands := CommandStack.mk [] } (w, []) _
    (runExecutes_traced cs 0 w w1 [] h)
  simp only [observedExecute, managerOf_commands, CommandManager.Execute, h1]
  simp [List.range_eq_range']

theorem runTestRemoveIpFail_eq (ParseAddr : String → Option Addr) :
    (runTestRemoveIpFail ParseAddr).1 = none
      ∧ (runTestRemoveIpFail ParseAddr).2.2
        = { testRemoveIpFailState with
            fBridgeCmd := { bridgeName := "br0", ip := "10.10.101.92/24",
                            link := some { Name := "br0", addr := none }, addr := none } } := by
  have hpre : runExecutes [fBridgeCmd ParseAddr] testRemoveIpFailState
      = some { testRemoveIpFailState with
          fBridgeCmd := { bridgeName := "br0", ip := "10.10.101.92/24",
                          link := some { Name := "br0", addr := ParseAddr "10.10.101.92/24" },
                          addr := ParseAddr "10.10.101.92/24" } } := by
    simp [runExecutes, fBridgeCmd, TestState.call, fakeBridgeAddIpCommand.Execute, bridgeAddIp,
      testRemoveIpFailState]
  have h := managerOf_Execute_rollback [fBridgeCmd ParseAddr] (fRemoveCmd ParseAddr) []
    testRemoveIpFailState _
    (GoError.errorString "could not find device named \"non-device\"") (by simp) hpre
    (by simp [fRemoveCmd, TestState.call, fakeRemoveIpCommand.Execute, testRemoveIpFailState])
  rw [runTestRemoveIpFail, h]
  simp [runUndos, fBridgeCmd, fRemoveCmd, TestState.call, fakeBridgeAddIpCommand.Undo,
    fakeRemoveIpCommand.Execute, bridgeRemoveIp, testRemoveIpFailState, NewAggregate]

theorem testBridgeAddIntfFail_executes (ParseAddr : String → Option Addr) :
    runExecutes [fBridgeCmd ParseAddr, fRemoveCmd ParseAddr] testBridgeAddIntfFailState
      = some { testBridgeAddIntfFailState with
          fBridgeCmd := { bridgeName := "br0", ip := "10.10.101.92/24",
                          link := some { Name := "br0", addr := ParseAddr "10.10.101.92/24" },
                          addr := ParseAddr "10.10.101.92/24" }
          fRemoveCmd := { deviceName := "eth0", ip := "10.10.101.92/24",
                          link := some { Name := "eth0", addr := none },
                          addr := ParseAddr "10.10.101.92/24" } } := by
  simp [runExecutes, fBridgeCmd, fRemoveCmd, TestState.call, fakeBridgeAddIpCommand.Execute,
    fakeRemoveIpCommand.Execute, bridgeAddIp, deviceRemoveIp, testBridgeAddIntfFailState]

theorem runTestBridgeAddIntfFail_eq (ParseAddr : String → Option Addr) :
    (runTestBridgeAddIntfFail ParseAddr).1 = none
      ∧ (runTestBridgeAddIntfFail ParseAddr).2.2
        = { testBridgeAddIntfFailState with
            fBridgeCmd := { bridgeName := "br0", ip := "10.10.101.92/24",
                            link := some { Name := "br0", addr := none }, addr := none }
            fRemoveCmd := { deviceName := "eth0", ip := "10.10.101.92/24",
                            link := some { Name := "eth0", addr := ParseAddr "10.10.101.92/24" },
                            addr := ParseAddr "10.10.101.92/24" } } := by
  have h := managerOf_Execute_rollback [fBridgeCmd ParseAddr, fRemoveCmd ParseAddr]
    fBridgeAddIntfCmd [] testBridgeAddIntfFailState _
    (GoError.errorString "could not find device named \"non-device\"") (by simp)
    (testBridgeAddIntfFail_executes ParseAddr)
    (by simp [fBridgeAddIntfCmd, TestState.call, fakeBridgeAddIntfCommand.Execute,
      testBridgeAddIntfFailState])
  rw [runTestBridgeAddIntfFail, h]
  simp [runUndos, fBridgeCmd, fRemoveCmd, fBridgeAddIntfCmd, TestState.call,
    fakeBridgeAddIpCommand.Undo, fakeRemoveIpCommand.Undo, fakeBridgeAddIntfCommand.Execute,
    bridgeRemoveIp, deviceAddIp, testBridgeAddIntfFailState, NewAggregate]

/-! ## The claims on `CommandManager.Execute` -/

/-- C1: when command `k = pre.length`, with `k ≥ 1`, is the first command whose
`Execute` fails, the calls that `CommandManager.Execute` makes are `Execute` on
the commands `0, ..., k` followed by `Undo` on the commands `k-1, ..., 0`, once
each and in that order, and no other call: no `Undo` on command `k` or on a
later command. -/
theorem C1_Execute_undoes_in_reverse_order {σ : Type} (pre : List (UndoableCommand σ))
    (c : UndoableCommand σ) (post : List (UndoableCommand σ)) (w wk : σ) (e : GoError)
    (hk : pre ≠ []) (hpre : runExecutes pre w = some wk) (hfail : (c.Execute wk).1 = some e) :
    (observedExecute (pre ++ c :: post) w).2.2.2.map Call.target
      = (List.range (pre.length + 1)).map (fun j => (CallKind.Execute, j))
        ++ (List.range pre.length).reverse.map (fun j => (CallKind.Undo, j)) := by
  obtain ⟨evs, h1, h2, _⟩ := observedExecute_rollback pre c post w wk e hk hpre hfail
  rw [h1]
  simp only [List.map_append, h2, List.range_eq_range', List.range'_concat, List.map_map]
  simp [Call.target, Function.comp_def]

/-- C1, instantiated: two succeeding commands, a failing one, one more. -/
theorem C1_Execute_undoes_in_reverse_order_witness :
    [cmdOk, cmdOk] ≠ [] ∧ runExecutes [cmdOk, cmdOk] 0 = some 2
      ∧ (cmdFails.Execute 2).1 = some (GoError.errorString "execute failed")
      ∧ (observedExecute ([cmdOk, cmdOk] ++ cmdFails :: [cmdOk]) 0).2.2.2.map Call.target
          = [(CallKind.Execute, 0), (CallKind.Execute, 1), (CallKind.Execute, 2),
              (CallKind.Undo, 1), (CallKind.Undo, 0)] :=
  ⟨by simp, rfl, rfl,
    C1_Execute_undoes_in_reverse_order [cmdOk, cmdOk] cmdFails [cmdOk] 0 2
      (GoError.errorString "execute failed") (by simp) rfl rfl⟩

/-- C2, as stated, fails: a command succeeds, the next one fails with an error,
the `Undo` succeeds, and `CommandManager.Execute` returns the nil error. -/
theorem C2_counterexample :
    runExecutes [cmdOk] 0 = some 1
      ∧ (cmdFails.Execute 1).1 = some (GoError.errorString "execute failed")
      ∧ ((managerOf ([cmdOk] ++ cmdFails :: [])).Execute 0).1 = none := by
  refine ⟨rfl, rfl, ?_⟩
  rw [managerOf_Execute_rollback [cmdOk] cmdFails [] 0 1 (GoError.errorString "execute failed")
    (by simp) rfl rfl]
  rfl

/-- C2, amended: when a command's `Execute` fails with `e` after at least one
earlier command succeeded, `CommandManager.Execute` returns nil exactly when
every `Undo` call returned nil, and otherwise the aggregate of the errors that
the `Undo` calls returned; `e` is not what it returns, and a command failing
with another error in the same state gives the same result. -/
theorem C2_Execute_returns_undo_aggregate {σ : Type} (pre : List (UndoableCommand σ))
    (c : UndoableCommand σ) (post : List (UndoableCommand σ)) (w wk : σ) (e : GoError)
    (hk : pre ≠ []) (hpre : runExecutes pre w = some wk) (hfail : (c.Execute wk).1 = some e) :
    ((observedExecute (pre ++ c :: post) w).1 = none
        ↔ ∀ ev ∈ (observedExecute (pre ++ c :: post) w).2.2.2,
            ev.kind = CallKind.Undo → ev.result = none)
      ∧ (∀ err, (observedExecute (pre ++ c :: post) w).1 = some err →
          err = GoError.aggregate (undoErrors (observedExecute (pre ++ c :: post) w).2.2.2))
      ∧ (∀ (c1 : UndoableCommand σ) (e1 : GoError), (c1.Execute wk).1 = some e1 →
          (c1.Execute wk).2 = (c.Execute wk).2 →
          ((managerOf (pre ++ c1 :: post)).Execute w).1
            = ((managerOf (pre ++ c :: post)).Execute w).1) := by
  have hagg := observedExecute_log_undoErrors pre c post w wk e hk hpre hfail
  refine ⟨?_, ?_, ?_⟩
  · rw [hagg, NewAggregate_eq_none_iff, undoErrors_eq_nil_iff]
  · intro err herr
    rw [hagg] at herr
    exact NewAggregate_eq_some _ _ herr
  · intro c1 e1 h1 h2
    rw [managerOf_Execute_rollback pre c1 post w wk e1 hk hpre h1,
      managerOf_Execute_rollback pre c post w wk e hk hpre hfail, h2]

/-- C2 amended, instantiated: the `Undo` of the first command fails. -/
theorem C2_Execute_returns_undo_aggregate_witness :
    [cmdUndoFails, cmdOk] ≠ [] ∧ runExecutes [cmdUndoFails, cmdOk] 0 = some 2
      ∧ (cmdFails.Execute 2).1 = some (GoError.errorString "execute failed")
      ∧ (((observedExecute ([cmdUndoFails, cmdOk] ++ cmdFails :: []) 0).1 = none
          ↔ ∀ ev ∈ (observedExecute ([cmdUndoFails, cmdOk] ++ cmdFails :: []) 0).2.2.2,
              ev.kind = CallKind.Undo → ev.result = none)
        ∧ (∀ err, (observedExecute ([cmdUndoFails, cmdOk] ++ cmdFails :: []) 0).1 = some err →
            err = GoError.aggregate
              (undoErrors (observedExecute ([cmdUndoFails, cmdOk] ++ cmdFails :: []) 0).2.2.2))
        ∧ (∀ (c1 : UndoableCommand Nat) (e1 : GoError), (c1.Execute 2).1 = some e1 →
            (c1.Execute 2).2 = (cmdFails.Execute 2).2 →
            ((managerOf ([cmdUndoFails, cmdOk] ++ c1 :: [])).Execute 0).1
              = ((managerOf ([cmdUndoFails, cmdOk] ++ cmdFails :: [])).Execute 0).1)) :=
  ⟨by simp, rfl, rfl,
    C2_Execute_returns_undo_aggregate [cmdUndoFails, cmdOk] cmdFails [] 0 2
      (GoError.errorString "execute failed") (by simp) rfl rfl⟩

/-- C3: when a command fails after earlier ones succeeded, the error that
`CommandManager.Execute` returns is the aggregate of the errors that the `Undo`
calls returned, all of them and in call order, and `Undo` has been called on
every command `k-1, ..., 0` whether or not an earlier `Undo` failed. -/
theorem C3_Execute_aggregates_every_undo_error {σ : Type} (pre : List (UndoableCommand σ))
    (c : UndoableCommand σ) (post : List (UndoableCommand σ)) (w wk : σ) (e : GoError)
    (hk : pre ≠ []) (hpre : runExecutes pre w = some wk) (hfail : (c.Execute wk).1 = some e) :
    (observedExecute (pre ++ c :: post) w).1
        = NewAggregate (undoErrors (observedExecute (pre ++ c :: post) w).2.2.2)
      ∧ (∀ err ∈ undoErrors (observedExecute (pre ++ c :: post) w).2.2.2,
          ∃ errs, (observedExecute (pre ++ c :: post) w).1 = some (GoError.aggregate errs)
            ∧ err ∈ errs)
      ∧ ((observedExecute (pre ++ c :: post) w).2.2.2.map Call.target).filter
            (fun t => decide (t.1 = CallKind.Undo))
          = (List.range pre.length).reverse.map (fun j => (CallKind.Undo, j)) := by
  have hagg := observedExecute_log_undoErrors pre c post w wk e hk hpre hfail
  refine ⟨hagg, ?_, ?_⟩
  · intro err herr
    refine ⟨undoErrors (observedExecute (pre ++ c :: post) w).2.2.2, ?_, herr⟩
    rw [hagg]
    cases hl : undoErrors (observedExecute (pre ++ c :: post) w).2.2.2 with
    | nil => rw [hl] at herr; simp at herr
    | cons a l => rfl
  · obtain ⟨evs, h1, h2, _⟩ := observedExecute_rollback pre c post w wk e hk hpre hfail
    rw [h1]
    simp only [List.map_append, h2, List.filter_append, List.map_map, List.filter_map]
    simp [Call.target, Function.comp_def, List.range_eq_range']

/-- C3, instantiated: the first `Undo` call succeeds, the second one fails. -/
theorem C3_Execute_aggregates_every_undo_error_witness :
    [cmdUndoFails, cmdOk] ≠ [] ∧ runExecutes [cmdUndoFails, cmdOk] 0 = some 2
      ∧ (cmdFails.Execute 2).1 = some (GoError.errorString "execute failed")
      ∧ ((observedExecute ([cmdUndoFails, cmdOk] ++ cmdFails :: [cmdOk]) 0).1
          = NewAggregate
              (undoErrors (observedExecute ([cmdUndoFails, cmdOk] ++ cmdFails :: [cmdOk]) 0).2.2.2)
        ∧ (∀ err ∈ undoErrors
              (observedExecute ([cmdUndoFails, cmdOk] ++ cmdFails :: [cmdOk]) 0).2.2.2,
            ∃ errs, (observedExecute ([cmdUndoFails, cmdOk] ++ cmdFails :: [cmdOk]) 0).1
                = some (GoError.aggregate errs)
              ∧ err ∈ errs)
        ∧ ((observedExecute ([cmdUndoFails, cmdOk] ++ cmdFails :: [cmdOk]) 0).2.2.2.map
              Call.target).filter (fun t => decide (t.1 = CallKind.Undo))
            = (List.range [cmdUndoFails, cmdOk].length).reverse.map
                (fun j => (CallKind.Undo, j))) :=
  ⟨by simp, rfl, rfl,
    C3_Execute_aggregates_every_undo_error [cmdUndoFails, cmdOk] cmdFails [cmdOk] 0 2
      (GoError.errorString "execute failed") (by simp) rfl rfl⟩

/-- C4: when a command's `Execute` fails after earlier commands succeeded and
every `Undo` call returns nil, `CommandManager.Execute` returns the nil error
and leaves the state that the `Undo` calls, run in reverse order, produce. In
`TestBridgeAddIntfFail` the first two commands give the bridge the address and
take it from the device, and after `Execute` the bridge has no address and the
device has its address again; in `TestRemoveIpFail` the bridge has no address. -/
theorem C4_Execute_nil_when_undos_succeed {σ : Type} (pre : List (UndoableCommand σ))
    (c : UndoableCommand σ) (post : List (UndoableCommand σ)) (w wk : σ) (e : GoError)
    (ParseAddr : String → Option Addr) (a : Addr)
    (hk : pre ≠ []) (hpre : runExecutes pre w = some wk) (hfail : (c.Execute wk).1 = some e)
    (hundo : ∀ ev ∈ (observedExecute (pre ++ c :: post) w).2.2.2,
      ev.kind = CallKind.Undo → ev.result = none) :
    (observedExecute (pre ++ c :: post) w).1 = none
      ∧ (observedExecute (pre ++ c :: post) w).2.2.1 = (runUndos pre.reverse (c.Execute wk).2 []).2
      ∧ (ParseAddr "10.10.101.92/24" = some a →
          (∃ s, runExecutes [fBridgeCmd ParseAddr, fRemoveCmd ParseAddr]
                testBridgeAddIntfFailState = some s
              ∧ s.fBridgeCmd.link = some { Name := "br0", addr := some a }
              ∧ s.fRemoveCmd.link = some { Name := "eth0", addr := none })
          ∧ (runTestBridgeAddIntfFail ParseAddr).1 = none
          ∧ (runTestBridgeAddIntfFail ParseAddr).2.2.fBridgeCmd.link
              = some { Name := "br0", addr := none }
          ∧ (runTestBridgeAddIntfFail ParseAddr).2.2.fBridgeCmd.addr = none
          ∧ (runTestBridgeAddIntfFail ParseAddr).2.2.fRemoveCmd.link
              = some { Name := "eth0", addr := some a }
          ∧ (runTestBridgeAddIntfFail ParseAddr).2.2.fRemoveCmd.addr = some a
          ∧ (runTestBridgeAddIntfFail ParseAddr).2.2.panicked = false)
      ∧ (runTestRemoveIpFail ParseAddr).1 = none
      ∧ (runTestRemoveIpFail ParseAddr).2.2.fBridgeCmd.link = some { Name := "br0", addr := none }
      ∧ (runTestRemoveIpFail ParseAddr).2.2.fBridgeCmd.addr = none
      ∧ (runTestRemoveIpFail ParseAddr).2.2.panicked = false := by
  have hagg := observedExecute_log_undoErrors pre c post w wk e hk hpre hfail
  obtain ⟨evs, h1, _, _⟩ := observedExecute_rollback pre c post w wk e hk hpre hfail
  obtain ⟨hb1, hb2⟩ := runTestBridgeAddIntfFail_eq ParseAddr
  obtain ⟨hr1, hr2⟩ := runTestRemoveIpFail_eq ParseAddr
  refine ⟨?_, ?_, ?_, hr1, ?_, ?_, ?_⟩
  · rw [hagg, NewAggregate_eq_none_iff, undoErrors_eq_nil_iff]
    exact hundo
  · rw [h1]
  · intro hparse
    refine ⟨⟨_, testBridgeAddIntfFail_executes ParseAddr, ?_, ?_⟩, hb1, ?_, ?_, ?_, ?_, ?_⟩
    · simp [hparse]
    · simp
    · rw [hb2]
    · rw [hb2]
    · rw [hb2, hparse]
    · rw [hb2, hparse]
    · rw [hb2]; rfl
  · rw [hr2]
  · rw [hr2]
  · rw [hr2]; rfl

/-- C4, instantiated: two succeeding commands, then a failing one. -/
theorem C4_Execute_nil_when_undos_succeed_witness :
    [cmdOk, cmdOk] ≠ [] ∧ runExecutes [cmdOk, cmdOk] 5 = some 7
      ∧ (cmdFails.Execute 7).1 = some (GoError.errorString "execute failed")
      ∧ (∀ ev ∈ (observedExecute ([cmdOk, cmdOk] ++ cmdFails :: []) 5).2.2.2,
          ev.kind = CallKind.Undo → ev.result = none)
      ∧ sampleParseAddr "10.10.101.92/24" = some { cidr := "10.10.101.92/24" }
      ∧ (observedExecute ([cmdOk, cmdOk] ++ cmdFails :: []) 5).1 = none
      ∧ (observedExecute ([cmdOk, cmdOk] ++ cmdFails :: []) 5).2.2.1 = 5
      ∧ (runTestBridgeAddIntfFail sampleParseAddr).2.2.fRemoveCmd.link
          = some { Name := "eth0", addr := some { cidr := "10.10.101.92/24" } } := by
  have hundo : ∀ ev ∈ (observedExecute ([cmdOk, cmdOk] ++ cmdFails :: []) 5).2.2.2,
      ev.kind = CallKind.Undo → ev.result = none := by
    obtain ⟨evs, h1, _, h3⟩ := observedExecute_rollback [cmdOk, cmdOk] cmdFails [] 5 7
      (GoError.errorString "execute failed") (by simp) rfl rfl
    rw [← undoErrors_eq_nil_iff, h1]
    simp only [undoErrors_append, undoErrors_executes, h3]
    simp [undoErrors, runUndos, cmdOk, cmdFails]
  have h := C4_Execute_nil_when_undos_succeed [cmdOk, cmdOk] cmdFails [] 5 7
    (GoError.errorString "execute failed") sampleParseAddr { cidr := "10.10.101.92/24" }
    (by simp) rfl rfl hundo
  exact ⟨by simp, rfl, rfl, hundo, by decide, h.1, h.2.1, (h.2.2.1 (by decide)).2.2.2.2.1⟩

/-- C5: if the first command's `Execute` fails, `CommandManager.Execute` returns
a non-nil error, the only call it makes is that `Execute` (no `Undo`, no
`Execute` of a later command), and the undo stack is empty afterwards. -/
theorem C5_first_command_fails {σ : Type} (c : UndoableCommand σ)
    (post : List (UndoableCommand σ)) (w : σ) (e : GoError)
    (hfail : (c.Execute w).1 = some e) :
    (observedExecute (c :: post) w).1 ≠ none
      ∧ (observedExecute (c :: post) w).2.2.2
          = [{ kind := CallKind.Execute, index := 0, result := some e }]
      ∧ (observedExecute (c :: post) w).2.1.undoCommands.IsEmpty = true
      ∧ (observedExecute (c :: post) w).2.1.undoCommands.Len = 0 := by
  rw [observedExecute_fail_first c post w e hfail]
  simp [CommandStack.IsEmpty, CommandStack.Len]

/-- C5, instantiated on `TestBridgeAddIpFail`: the bridge `non-bridge` cannot
get its address, and the command after it is not run. -/
theorem C5_first_command_fails_witness :
    ((fBridgeCmd sampleParseAddr).Execute testBridgeAddIpFailState).1
        = some (GoError.errorString "could not find a bridge named \"no-bridge\"")
      ∧ (observedExecute (fBridgeCmd sampleParseAddr :: [fRemoveCmd sampleParseAddr])
          testBridgeAddIpFailState).1 ≠ none
      ∧ (observedExecute (fBridgeCmd sampleParseAddr :: [fRemoveCmd sampleParseAddr])
          testBridgeAddIpFailState).2.1.undoCommands.IsEmpty = true := by
  have hfail : ((fBridgeCmd sampleParseAddr).Execute testBridgeAddIpFailState).1
      = some (GoError.errorString "could not find a bridge named \"no-bridge\"") := by
    simp [fBridgeCmd, TestState.call, fakeBridgeAddIpCommand.Execute, testBridgeAddIpFailState]
  have h := C5_first_command_fails (fBridgeCmd sampleParseAddr) [fRemoveCmd sampleParseAddr]
    testBridgeAddIpFailState _ hfail
  exact ⟨hfail, h.1, h.2.2.1⟩

/-- C6, as stated, fails: the only command fails with an error, and the error
that `CommandManager.Execute` returns is another error, formatted from it. -/
theorem C6_counterexample :
    (cmdFails.Execute 0).1 = some (GoError.errorString "execute failed")
      ∧ ((managerOf [cmdFails]).Execute 0).1
          = some (GoError.Errorf "get error when undo command stack is empty %v"
              (GoError.errorString "execute failed"))
      ∧ ((managerOf [cmdFails]).Execute 0).1 ≠ some (GoError.errorString "execute failed") := by
  have h := managerOf_Execute_fail_first cmdFails [] 0 (GoError.errorString "execute failed") rfl
  refine ⟨rfl, ?_, ?_⟩
  · rw [h]
  · rw [h]
    simp

/-- C6, amended: if the very first command's `Execute` fails with error `e`,
`CommandManager.Execute` returns a new error made by `fmt.Errorf` from the text
`get error when undo command stack is empty %v` and `e`; that error is not `e`. -/
theorem C6_first_failure_is_reformatted {σ : Type} (c : UndoableCommand σ)
    (post : List (UndoableCommand σ)) (w : σ) (e : GoError)
    (hfail : (c.Execute w).1 = some e) :
    ((managerOf (c :: post)).Execute w).1
        = some (GoError.Errorf "get error when undo command stack is empty %v" e)
      ∧ ((managerOf (c :: post)).Execute w).1 ≠ some e := by
  rw [managerOf_Execute_fail_first c post w e hfail]
  refine ⟨rfl, ?_⟩
  intro h
  exact GoError.Errorf_ne_arg _ e (Option.some.inj h)

/-- C6 amended, instantiated. -/
theorem C6_first_failure_is_reformatted_witness :
    (cmdFails.Execute 3).1 = some (GoError.errorString "execute failed")
      ∧ ((managerOf (cmdFails :: [cmdOk])).Execute 3).1
          = some (GoError.Errorf "get error when undo command stack is empty %v"
              (GoError.errorString "execute failed"))
      ∧ ((managerOf (cmdFails :: [cmdOk])).Execute 3).1
          ≠ some (GoError.errorString "execute failed") :=
  ⟨rfl, C6_first_failure_is_reformatted cmdFails [cmdOk] 3
    (GoError.errorString "execute failed") rfl⟩

/-- C7: if every command's `Execute` succeeds, `CommandManager.Execute` returns
nil, the calls it makes are `Execute` on the commands `0, ..., n-1`, once each
and in the order of `AddCommand`, with no `Undo`, and the state is the one the
executes produce; with no command at all it returns nil and makes no call. -/
theorem C7_all_succeed {σ : Type} (cs : List (UndoableCommand σ)) (w w1 : σ)
    (hok : runExecutes cs w = some w1) :
    (observedExecute cs w).1 = none
      ∧ (observedExecute cs w).2.2.2
          = (List.range cs.length).map
              (fun j => { kind := CallKind.Execute, index := j, result := none })
      ∧ (observedExecute cs w).2.2.1 = w1
      ∧ (managerOf cs).commands = cs
      ∧ (observedExecute ([] : List (UndoableCommand σ)) w).1 = none
      ∧ (observedExecute ([] : List (UndoableCommand σ)) w).2.2.2 = [] := by
  rw [observedExecute_ok cs w w1 hok, observedExecute_ok [] w w rfl, managerOf_commands]
  simp

/-- C7, instantiated on three succeeding commands. -/
theorem C7_all_succeed_witness :
    runExecutes [cmdOk, cmdUndoFails, cmdOk] 0 = some 3
      ∧ (observedExecute [cmdOk, cmdUndoFails, cmdOk] 0).1 = none
      ∧ (observedExecute [cmdOk, cmdUndoFails, cmdOk] 0).2.2.2
          = [{ kind := CallKind.Execute, index := 0, result := none },
              { kind := CallKind.Execute, index := 1, result := none },
              { kind := CallKind.Execute, index := 2, result := none }] := by
  have h := C7_all_succeed [cmdOk, cmdUndoFails, cmdOk] 0 3 rfl
  exact ⟨rfl, h.1, h.2.1⟩

/-! ## The step pipeline of `setup.go` -/

theorem setupOf_steps {σ : Type} (steps : List (setupStep σ)) :
    setupOf steps = { steps := steps } := by
  have h : ∀ (l : List (setupStep σ)) (b : bridgeSetup σ),
      l.foldl bridgeSetup.queueStep b = { steps := b.steps ++ l } := by
    intro l
    induction l with
    | nil => intro b; simp
    | cons fn l ih => intro b; simp [ih, bridgeSetup.queueStep]
  simp [setupOf, h, newBridgeSetup]

theorem tracedStepsFrom_append {σ : Type} (a : List (setupStep σ)) :
    ∀ (i : Nat) (b : List (setupStep σ)),
      tracedStepsFrom i (a ++ b) = tracedStepsFrom i a ++ tracedStepsFrom (i + a.length) b := by
  induction a with
  | nil => intro i b; simp [tracedStepsFrom]
  | cons fn a ih =>
    intro i b
    simp [tracedStepsFrom, ih, Nat.add_assoc, Nat.add_comm 1]

theorem bridgeSetup.applyLoop_traced_ok {σ : Type} (steps : List (setupStep σ)) :
    ∀ (i : Nat) (rest : List (setupStep (σ × List (Nat × Option GoError)))) (w w1 : σ)
      (t : List (Nat × Option GoError)), runSteps steps w = some w1 →
      bridgeSetup.applyLoop (tracedStepsFrom i steps ++ rest) (w, t)
        = bridgeSetup.applyLoop rest
            (w1, t ++ (List.range' i steps.length).map (fun j => (j, none))) := by
  induction steps with
  | nil =>
    intro i rest w w1 t h
    simp only [runSteps, Option.some.injEq] at h
    simp [tracedStepsFrom, h]
  | cons fn steps ih =>
    intro i rest w w1 t h
    cases hf : fn w with
    | mk r w2 =>
      cases r with
      | some err => simp [runSteps, hf] at h
      | none =>
        simp only [runSteps, hf] at h
        simp [tracedStepsFrom, bridgeSetup.applyLoop, tracedStep, hf, ih _ _ _ _ _ h,
          List.range'_succ]

/-- C8: `apply` invokes the queued steps in queue order. If step `k = pre.length`
is the first to return an error `e`, the invocations are those of the steps
`0, ..., k`, once each and in order, no later step is invoked, and `apply`
returns `e` itself; if no step fails, every step is invoked once, in order, and
`apply` returns nil. For `[S1 ok, S2 fails, S3]` the step `S3` is not invoked
and the error of `S2` is returned. -/
theorem C8_apply_stops_at_first_error {σ : Type} (pre : List (setupStep σ)) (fn : setupStep σ)
    (post : List (setupStep σ)) (steps : List (setupStep σ)) (w wk w1 : σ) (e : GoError)
    (S1 S2 S3 : setupStep σ) (e2 : GoError) :
    (runSteps pre w = some wk → (fn wk).1 = some e →
        observedApply (pre ++ fn :: post) w
          = (some e, (fn wk).2,
              (List.range pre.length).map (fun j => (j, none)) ++ [(pre.length, some e)]))
      ∧ (runSteps steps w = some w1 →
          observedApply steps w
            = (none, w1, (List.range steps.length).map (fun j => (j, none))))
      ∧ (setupOf steps).steps = steps
      ∧ ((S1 w).1 = none → (S2 (S1 w).2).1 = some e2 →
          observedApply [S1, S2, S3] w
            = (some e2, (S2 (S1 w).2).2, [(0, none), (1, some e2)])) := by
  have hmain : ∀ (pre : List (setupStep σ)) (fn : setupStep σ) (post : List (setupStep σ))
      (wk : σ) (e : GoError), runSteps pre w = some wk → (fn wk).1 = some e →
      observedApply (pre ++ fn :: post) w
        = (some e, (fn wk).2,
            (List.range pre.length).map (fun j => (j, none)) ++ [(pre.length, some e)]) := by
    intro pre fn post wk e hpre hfail
    have hfw : fn wk = (some e, (fn wk).2) := by
      rw [← hfail]
    simp only [observedApply, setupOf_steps, bridgeSetup.apply, tracedStepsFrom_append,
      bridgeSetup.applyLoop_traced_ok pre 0 _ w wk [] hpre, tracedStepsFrom, Nat.zero_add,
      List.nil_append, bridgeSetup.applyLoop, tracedStep]
    rw [hfw]
    simp [List.range_eq_range']
  refine ⟨hmain pre fn post wk e, ?_, ?_, ?_⟩
  · intro hok
    have h := bridgeSetup.applyLoop_traced_ok steps 0 [] w w1 [] hok
    simp only [List.append_nil] at h
    simp only [observedApply, setupOf_steps, bridgeSetup.apply, h, bridgeSetup.applyLoop]
    simp [List.range_eq_range']
  · rw [setupOf_steps]
  · intro h1 h2
    have hS1 : S1 w = (none, (S1 w).2) := by
      rw [← h1]
    have h := hmain [S1] S2 [S3] (S1 w).2 e2 (by rw [runSteps, hS1]; rfl) h2
    simpa using h

/-- C8, instantiated: a succeeding step, a failing step, a third step. -/
theorem C8_apply_stops_at_first_error_witness :
    runSteps [stepOk] 0 = some 1 ∧ (stepFails 1).1 = some (GoError.errorString "step failed")
      ∧ runSteps [stepOk, stepOk] 0 = some 2
      ∧ (stepOk 0).1 = none ∧ (stepFails (stepOk 0).2).1 = some (GoError.errorString "step failed")
      ∧ observedApply ([stepOk] ++ stepFails :: [stepOk]) 0
          = (some (GoError.errorString "step failed"), 1,
              [(0, none), (1, some (GoError.errorString "step failed"))])
      ∧ observedApply [stepOk, stepOk] 0 = (none, 2, [(0, none), (1, none)])
      ∧ observedApply [stepOk, stepFails, stepOk] 0
          = (some (GoError.errorString "step failed"), 1,
              [(0, none), (1, some (GoError.errorString "step failed"))]) := by
  have h := C8_apply_stops_at_first_error [stepOk] stepFails [stepOk] [stepOk, stepOk] 0 1 2
    (GoError.errorString "step failed") stepOk stepFails stepOk
    (GoError.errorString "step failed")
  exact ⟨rfl, rfl, rfl, rfl, rfl, h.1 rfl rfl, h.2.1 rfl, h.2.2.2 rfl rfl⟩

/-! ## The table cache of `ovsdbdriver/ovsdb.go` -/

theorem lookup_eq_none_of_not_mem_keys {β : Type} (l : List (String × β)) (k : String)
    (h : k ∉ l.map Prod.fst) : l.lookup k = none := by
  induction l with
  | nil => rfl
  | cons p l ih =>
    obtain ⟨k1, v1⟩ := p
    simp only [List.map_cons, List.mem_cons, not_or] at h
    have hne : (k == k1) = false := by simpa using h.1
    simp [List.lookup, hne, ih h.2]

theorem lookup_eq_some_of_mem {β : Type} (l : List (String × β)) (k : String) (v : β)
    (hnd : (l.map Prod.fst).Nodup) (h : (k, v) ∈ l) : l.lookup k = some v := by
  induction l with
  | nil => simp at h
  | cons p l ih =>
    obtain ⟨k1, v1⟩ := p
    simp only [List.map_cons, List.nodup_cons] at hnd
    simp only [List.mem_cons, Prod.mk.injEq] at h
    rcases h with ⟨hk, hv⟩ | h
    · subst hk
      subst hv
      simp [List.lookup]
    · have hne : (k == k1) = false := by
        have : k ≠ k1 := by
          intro hk
          subst hk
          exact hnd.1 (List.mem_map_of_mem Prod.fst h)
        simpa using this
      simp [List.lookup, hne, ih hnd.2 h]

theorem OvsdbCache.row?_setRow (cache : OvsdbCache) (table uuid : String) (row : Row)
    (h : (cache table).isSome) (t u : String) :
    (cache.setRow table uuid row).row? t u
      = if t = table ∧ u = uuid then some row else cache.row? t u := by
  cases hc : cache table with
  | none => simp [hc] at h
  | some rows =>
    by_cases ht : t = table
    · subst ht
      by_cases hu : u = uuid
      · simp [OvsdbCache.row?, OvsdbCache.setRow, hc, hu]
      · simp [OvsdbCache.row?, OvsdbCache.setRow, hc, hu]
    · simp [OvsdbCache.row?, OvsdbCache.setRow, ht]

theorem OvsdbCache.row?_deleteRow (cache : OvsdbCache) (table uuid : String) (t u : String) :
    (cache.deleteRow table uuid).row? t u
      = if t = table ∧ u = uuid then none else cache.row? t u := by
  by_cases ht : t = table
  · subst ht
    cases hc : cache t with
    | none => simp [OvsdbCache.row?, OvsdbCache.deleteRow, hc]
    | some rows =>
      by_cases hu : u = uuid
      · simp [OvsdbCache.row?, OvsdbCache.deleteRow, hc, hu]
      · simp [OvsdbCache.row?, OvsdbCache.deleteRow, hc, hu]
  · simp [OvsdbCache.row?, OvsdbCache.deleteRow, ht]

theorem OvsdbCache.isSome_setRow (cache : OvsdbCache) (table uuid : String) (row : Row)
    (h : (cache table).isSome) : ((cache.setRow table uuid row) table).isSome := by
  cases hc : cache table with
  | none => simp [hc] at h
  | some rows => simp [OvsdbCache.setRow, hc]

theorem OvsdbCache.isSome_deleteRow (cache : OvsdbCache) (table uuid : String)
    (h : (cache table).isSome) : ((cache.deleteRow table uuid) table).isSome := by
  cases hc : cache table with
  | none => simp [hc] at h
  | some rows => simp [OvsdbCache.deleteRow, hc]

theorem populateRows_row? (table : String) (rows : List (String × RowUpdate)) :
    (rows.map Prod.fst).Nodup → ∀ (cache : OvsdbCache), (cache table).isSome →
      ∀ (t u : String),
        (populateRows table rows cache).row? t u
          = if t = table then
              (match rows.lookup u with
                | some r => cachedAfter r
                | none => cache.row? t u)
            else cache.row? t u := by
  induction rows with
  | nil =>
    intro _ cache _ t u
    simp [populateRows, List.lookup]
  | cons p rows ih =>
    obtain ⟨uuid, row⟩ := p
    intro hnd cache hc t u
    simp only [List.map_cons, List.nodup_cons] at hnd
    by_cases hnew : row.New = Row.empty
    · simp only [populateRows, hnew, not_true_eq_false, if_false]
      rw [ih hnd.2 _ (OvsdbCache.isSome_deleteRow cache table uuid hc) t u]
      by_cases ht : t = table
      · by_cases hu : u = uuid
        · subst hu
          simp [ht, List.lookup, lookup_eq_none_of_not_mem_keys rows u hnd.1,
            OvsdbCache.row?_deleteRow, cachedAfter, hnew]
        · have hne : (u == uuid) = false := by simpa using hu
          simp [ht, List.lookup, hne, OvsdbCache.row?_deleteRow, hu]
      · simp [ht, OvsdbCache.row?_deleteRow]
    · simp only [populateRows, hnew, not_false_eq_true, if_true]
      rw [ih hnd.2 _ (OvsdbCache.isSome_setRow cache table uuid row.New hc) t u]
      by_cases ht : t = table
      · by_cases hu : u = uuid
        · subst hu
          simp [ht, List.lookup, lookup_eq_none_of_not_mem_keys rows u hnd.1,
            OvsdbCache.row?_setRow _ _ _ _ hc, cachedAfter, hnew]
        · have hne : (u == uuid) = false := by simpa using hu
          simp [ht, List.lookup, hne, OvsdbCache.row?_setRow _ _ _ _ hc, hu]
      · simp [ht, OvsdbCache.row?_setRow _ _ _ _ hc]

theorem populateTables_row? (ups : List (String × TableUpdate)) :
    (ups.map Prod.fst).Nodup → (∀ p ∈ ups, (p.2.Rows.map Prod.fst).Nodup) →
      ∀ (cache : OvsdbCache) (t u : String),
        (populateTables ups cache).row? t u
          = (match (match ups.lookup t with
                    | some tableUpdate => tableUpdate.Rows.lookup u
                    | none => none) with
              | some r => cachedAfter r
              | none => cache.row? t u) := by
  induction ups with
  | nil =>
    intro _ _ cache t u
    simp [populateTables, List.lookup]
  | cons p ups ih =>
    obtain ⟨table, tableUpdate⟩ := p
    intro hnd hrows cache t u
    simp only [List.map_cons, List.nodup_cons] at hnd
    have hr0 : (tableUpdate.Rows.map Prod.fst).Nodup := hrows (table, tableUpdate) (by simp)
    have hrest : ∀ p ∈ ups, (p.2.Rows.map Prod.fst).Nodup := fun p hp =>
      hrows p (List.mem_cons_of_mem _ hp)
    simp only [populateTables]
    rw [ih hnd.2 hrest]
    have hcache1 : ∀ (c1 : OvsdbCache), (c1 table).isSome →
        (∀ t u, c1.row? t u = cache.row? t u) →
        (match (match ups.lookup t with
                | some tableUpdate => tableUpdate.Rows.lookup u
                | none => none) with
          | some r => cachedAfter r
          | none => (populateRows table tableUpdate.Rows c1).row? t u)
        = (match (match List.lookup t ((table, tableUpdate) :: ups) with
                  | some tableUpdate => tableUpdate.Rows.lookup u
                  | none => none) with
            | some r => cachedAfter r
            | none => cache.row? t u) := by
      intro c1 hsome hsame
      rw [populateRows_row? table tableUpdate.Rows hr0 c1 hsome t u]
      by_cases ht : t = table
      · subst ht
        simp only [List.lookup, beq_self_eq_true, lookup_eq_none_of_not_mem_keys ups t hnd.1,
          if_true, hsame]
      · have hne : (t == table) = false := by simpa using ht
        simp only [List.lookup, hne, ht, if_false, hsame]
    cases hct : cache table with
    | none =>
      simp only [Option.isNone_none, if_true]
      apply hcache1
      · simp
      · intro t1 u1
        by_cases ht1 : t1 = table
        · subst ht1
          simp [OvsdbCache.row?, hct]
        · simp [OvsdbCache.row?, ht1]
    | some rows =>
      simp only [Option.isNone_some, Bool.false_eq_true, if_false]
      exact hcache1 cache (by simp [hct]) (fun _ _ => rfl)

theorem populateCache_row? (n : TableUpdates) (hwf : n.WellFormed) (cache : OvsdbCache)
    (t u : String) :
    (populateCache n cache).row? t u
      = (match n.mention? t u with
          | some r => cachedAfter r
          | none => cache.row? t u) := by
  rw [populateCache, populateTables_row? n.Updates hwf.1 hwf.2 cache t u]
  rfl

theorem applyUpdates_row? (ns : List TableUpdates) :
    (∀ n ∈ ns, n.WellFormed) → ∀ (cache : OvsdbCache) (t u : String),
      (applyUpdates ns cache).row? t u
        = (match latestMention? ns t u with
            | some r => cachedAfter r
            | none => cache.row? t u) := by
  induction ns with
  | nil =>
    intro _ cache t u
    simp [applyUpdates, latestMention?]
  | cons n ns ih =>
    intro hwf cache t u
    have h := ih (fun m hm => hwf m (List.mem_cons_of_mem _ hm)) (populateCache n cache) t u
    simp only [applyUpdates, List.foldl_cons] at h ⊢
    rw [h, latestMention?]
    cases hl : latestMention? ns t u with
    | some r => rfl
    | none =>
      simp only []
      exact populateCache_row? n (hwf n (List.mem_cons_self _ _)) cache t u

theorem TableUpdates.mention?_of_mem (n : TableUpdates) (hwf : n.WellFormed) (t u : String)
    (tableUpdate : TableUpdate) (r : RowUpdate) (ht : (t, tableUpdate) ∈ n.Updates)
    (hu : (u, r) ∈ tableUpdate.Rows) : n.mention? t u = some r := by
  rw [TableUpdates.mention?, lookup_eq_some_of_mem n.Updates t tableUpdate hwf.1 ht]
  exact lookup_eq_some_of_mem tableUpdate.Rows u r (hwf.2 (t, tableUpdate) ht) hu

/-- C9: after any sequence of notifications applied in order with
`populateCache` to an empty cache, the cache holds for a table and row UUID the
new row of the latest notification that mentions that key when that row is not
the empty row, and holds no entry when that row is empty or when no
notification mentions the key; later notifications override earlier ones per
key. `Notifier.Update` applies each notification in just this way. -/
theorem C9_cache_is_fold_of_notifications (ns : List TableUpdates)
    (hwf : ∀ n ∈ ns, n.WellFormed) (t u : String) :
    (applyUpdates ns OvsdbCache.make).row? t u
        = (match latestMention? ns t u with
            | some r => if r.New = Row.empty then none else some r.New
            | none => none)
      ∧ applyUpdates ns OvsdbCache.make
          = ns.foldl (fun c n => Notifier.Update n c) OvsdbCache.make := by
  refine ⟨?_, rfl⟩
  rw [applyUpdates_row? ns hwf OvsdbCache.make t u]
  cases latestMention? ns t u with
  | some r => rfl
  | none => rfl

/-- C9, instantiated: a port is inserted by one notification and deleted by the
next one. -/
theorem C9_cache_is_fold_of_notifications_witness :
    (∀ n ∈ [sampleInsert, sampleDelete], n.WellFormed)
      ∧ latestMention? [sampleInsert, sampleDelete] "Port" "u1"
          = some { New := Row.empty, Old := sampleRow "p1" }
      ∧ (applyUpdates [sampleInsert, sampleDelete] OvsdbCache.make).row? "Port" "u1"
          = (match latestMention? [sampleInsert, sampleDelete] "Port" "u1" with
              | some r => if r.New = Row.empty then none else some r.New
              | none => none) := by
  have hwf : ∀ n ∈ [sampleInsert, sampleDelete], n.WellFormed := by
    intro n hn
    simp only [List.mem_cons, List.mem_singleton, List.not_mem_nil, or_false] at hn
    rcases hn with rfl | rfl
    · simp [TableUpdates.WellFormed, sampleInsert]
    · simp [TableUpdates.WellFormed, sampleDelete]
  exact ⟨hwf, by decide,
    (C9_cache_is_fold_of_notifications [sampleInsert, sampleDelete] hwf "Port" "u1").1⟩

/-- C10: for every cache and every update, after `populateCache` the cache
holds, for every table and row UUID of the update, the new row of the update
when that row is not the empty row, and no entry for the UUID when it is; the
cache that `initDBCache` seeds from the first snapshot follows the same rule. -/
theorem C10_populateCache_merges_one_update (cache : OvsdbCache) (n : TableUpdates)
    (hwf : n.WellFormed) (t u : String) (tableUpdate : TableUpdate) (r : RowUpdate)
    (ht : (t, tableUpdate) ∈ n.Updates) (hu : (u, r) ∈ tableUpdate.Rows) :
    (populateCache n cache).row? t u = (if r.New = Row.empty then none else some r.New)
      ∧ (initDBCache n).row? t u = (if r.New = Row.empty then none else some r.New) := by
  have hm := TableUpdates.mention?_of_mem n hwf t u tableUpdate r ht hu
  constructor
  · rw [populateCache_row? n hwf cache t u, hm]
    rfl
  · rw [initDBCache, populateCache_row? n hwf OvsdbCache.make t u, hm]
    rfl

/-- C10, instantiated: the update deletes the cached port `u1`. -/
theorem C10_populateCache_merges_one_update_witness :
    sampleDelete.WellFormed
      ∧ ("Port", ({ Rows := [("u1", { New := Row.empty, Old := sampleRow "p1" })] } : TableUpdate))
          ∈ sampleDelete.Updates
      ∧ (initDBCache sampleInsert).row? "Port" "u1" = some (sampleRow "p1")
      ∧ (populateCache sampleDelete (initDBCache sampleInsert)).row? "Port" "u1" = none := by
  have hwf : sampleDelete.WellFormed := by
    simp [TableUpdates.WellFormed, sampleDelete]
  have hmem : ("Port",
      ({ Rows := [("u1", { New := Row.empty, Old := sampleRow "p1" })] } : TableUpdate))
      ∈ sampleDelete.Updates := by
    simp [sampleDelete]
  have h := C10_populateCache_merges_one_update (initDBCache sampleInsert) sampleDelete hwf
    "Port" "u1" _ { New := Row.empty, Old := sampleRow "p1" } hmem (by simp)
  exact ⟨hwf, hmem, by decide, by simpa using h.1⟩

/-! ## Transactions of `ovsdbdriver` -/

theorem performOvsdbOps_of_ne_nil {σ : Type} (client : OvsdbClient σ) (ops : List Operation)
    (s : σ) (hops : ops ≠ []) :
    performOvsdbOps client ops s
      = (if (client.Transact OvsDatabase ops s).1.1.length < ops.length then
          some GoError.ErrReplyDisMatchOps
        else
          NewAggregate (((client.Transact OvsDatabase ops s).1.1.filter
              (fun o => decide (o.Error ≠ ""))).map
            (fun o => GoError.errorString (o.Error ++ "(" ++ o.Details ++ ")"))),
        (client.Transact OvsDatabase ops s).2) := by
  have hlen : ops.length ≠ 0 := by
    intro h
    exact hops (List.eq_nil_of_length_eq_zero h)
  have hfm : ∀ l : List OperationResult,
      l.filterMap (fun o =>
          if o.Error ≠ "" then some (GoError.errorString (o.Error ++ "(" ++ o.Details ++ ")"))
          else none)
        = (l.filter (fun o => decide (o.Error ≠ ""))).map
            (fun o => GoError.errorString (o.Error ++ "(" ++ o.Details ++ ")")) := by
    intro l
    induction l with
    | nil => rfl
    | cons o l ih =>
      by_cases ho : o.Error = ""
      · rw [List.filterMap_cons, List.filter_cons]
        simp only [ho, ne_eq, not_true_eq_false, if_false, decide_False, Bool.false_eq_true]
        exact ih
      · rw [List.filterMap_cons, List.filter_cons]
        simp only [ho, ne_eq, not_false_eq_true, if_true, decide_True, List.map_cons]
        rw [ih]
  unfold performOvsdbOps
  rw [if_neg hlen]
  cases ht : client.Transact OvsDatabase ops s with
  | mk r s1 =>
    obtain ⟨reply, err⟩ := r
    simp only []
    by_cases hshort : reply.length < ops.length
    · simp [hshort]
    · simp only [hshort, if_false, hfm]

theorem performOvsdbOps_logged {σ : Type} (client : OvsdbClient σ) (ops : List Operation)
    (s : σ) (log : List Request) (hops : ops ≠ []) :
    performOvsdbOps client.logged ops (s, log)
      = ((performOvsdbOps client ops s).1,
          ((performOvsdbOps client ops s).2, log ++ [Request.transact OvsDatabase ops])) := by
  rw [performOvsdbOps_of_ne_nil _ _ _ hops, performOvsdbOps_of_ne_nil _ _ _ hops]
  simp [OvsdbClient.logged]

theorem bridgeExists_eq {σ : Type} (client : OvsdbClient σ) (name : String) (s : σ) :
    bridgeExists client name s
      = (existsAnswer (client.Transact OvsDatabase [selectByName BridgeTable name] s).1.1,
          (client.Transact OvsDatabase [selectByName BridgeTable name] s).2) := by
  have hunfold : bridgeExists client name s
      = (match client.Transact OvsDatabase [selectByName BridgeTable name] s with
        | ((reply, _), s1) =>
          if reply.length < 1 then ((false, some GoError.ErrReplyDisMatchOps), s1)
          else
            match reply with
            | [] => ((false, some GoError.ErrReplyDisMatchOps), s1)
            | reply0 :: _ =>
              if reply0.Error ≠ "" then
                ((false, some (GoError.ErrTransactionError reply0.Error)), s1)
              else if reply0.Rows.length = 0 then ((false, none), s1)
              else ((true, none), s1)) := rfl
  rw [hunfold]
  rcases client.Transact OvsDatabase [selectByName BridgeTable name] s with ⟨⟨reply, err⟩, s1⟩
  cases reply with
  | nil => simp [existsAnswer]
  | cons r0 rest =>
    by_cases he : r0.Error = ""
    · by_cases hr : r0.Rows = []
      · simp [existsAnswer, he, hr]
      · simp [existsAnswer, he, hr]
    · simp [existsAnswer, he]

theorem portExists_eq {σ : Type} (client : OvsdbClient σ) (name : String) (s : σ) :
    portExists client name s
      = (existsAnswer (client.Transact OvsDatabase [selectByName PortTable name] s).1.1,
          (client.Transact OvsDatabase [selectByName PortTable name] s).2) := by
  have hunfold : portExists client name s
      = (match client.Transact OvsDatabase [selectByName PortTable name] s with
        | ((reply, _), s1) =>
          if reply.length < 1 then ((false, some GoError.ErrReplyDisMatchOps), s1)
          else
            match reply with
            | [] => ((false, some GoError.ErrReplyDisMatchOps), s1)
            | reply0 :: _ =>
              if reply0.Error ≠ "" then
                ((false, some (GoError.ErrTransactionError reply0.Error)), s1)
              else if reply0.Rows.length = 0 then ((false, none), s1)
              else ((true, none), s1)) := rfl
  rw [hunfold]
  rcases client.Transact OvsDatabase [selectByName PortTable name] s with ⟨⟨reply, err⟩, s1⟩
  cases reply with
  | nil => simp [existsAnswer]
  | cons r0 rest =>
    by_cases he : r0.Error = ""
    · by_cases hr : r0.Rows = []
      · simp [existsAnswer, he, hr]
      · simp [existsAnswer, he, hr]
    · simp [existsAnswer, he]

theorem bridgeExists_logged {σ : Type} (client : OvsdbClient σ) (name : String) (s : σ)
    (log : List Request) :
    bridgeExists client.logged name (s, log)
      = ((bridgeExists client name s).1,
          ((bridgeExists client name s).2,
            log ++ [Request.transact OvsDatabase [selectByName BridgeTable name]])) := by
  rw [bridgeExists_eq, bridgeExists_eq]
  simp [OvsdbClient.logged]

theorem portExists_logged {σ : Type} (client : OvsdbClient σ) (name : String) (s : σ)
    (log : List Request) :
    portExists client.logged name (s, log)
      = ((portExists client name s).1,
          ((portExists client name s).2,
            log ++ [Request.transact OvsDatabase [selectByName PortTable name]])) := by
  rw [portExists_eq, portExists_eq]
  simp [OvsdbClient.logged]

/-- C11: for a transaction of `N ≥ 1` operations, `performOvsdbOps` returns
`ErrReplyDisMatchOps` whenever the reply has fewer than `N` results, whatever
the results hold; the empty reply is such a reply. -/
theorem C11_short_reply_is_mismatch {σ : Type} (client : OvsdbClient σ) (ops : List Operation)
    (s : σ) (hN : 1 ≤ ops.length)
    (hshort : (client.Transact OvsDatabase ops s).1.1.length < ops.length) :
    (performOvsdbOps client ops s).1 = some GoError.ErrReplyDisMatchOps
      ∧ ((client.Transact OvsDatabase ops s).1.1 = [] →
          (performOvsdbOps client ops s).1 = some GoError.ErrReplyDisMatchOps) := by
  have hops : ops ≠ [] := by
    intro h
    rw [h] at hN
    simp at hN
  rw [performOvsdbOps_of_ne_nil client ops s hops]
  simp [hshort]

/-- C11, instantiated: two operations, and a reply of one result that carries
no error. -/
theorem C11_short_reply_is_mismatch_witness :
    1 ≤ [selectByName "Bridge" "br0", selectByName "Port" "p0"].length
      ∧ ((OvsdbClient.mk (fun _ _ (n : Nat) => (([({} : OperationResult)], none), n))).Transact
            OvsDatabase [selectByName "Bridge" "br0", selectByName "Port" "p0"] 0).1.1.length
          < [selectByName "Bridge" "br0", selectByName "Port" "p0"].length
      ∧ (performOvsdbOps (OvsdbClient.mk (fun _ _ (n : Nat) => (([({} : OperationResult)], none), n)))
            [selectByName "Bridge" "br0", selectByName "Port" "p0"] 0).1
          = some GoError.ErrReplyDisMatchOps :=
  ⟨by decide, by decide,
    (C11_short_reply_is_mismatch
      (OvsdbClient.mk (fun _ _ (n : Nat) => (([({} : OperationResult)], none), n)))
      [selectByName "Bridge" "br0", selectByName "Port" "p0"] 0 (by decide) (by decide)).1⟩

/-- C12, as stated, fails: the reply has one result per operation and two of
them carry an error; `performOvsdbOps` fails, with the aggregate of one
formatted error per failed result, which is no `ErrTransactionError`. -/
theorem C12_counterexample :
    (failingClient.Transact OvsDatabase
        [selectByName "Bridge" "a", selectByName "Bridge" "b", selectByName "Bridge" "c"]
        0).1.1.length = 3
      ∧ (performOvsdbOps failingClient
          [selectByName "Bridge" "a", selectByName "Bridge" "b", selectByName "Bridge" "c"] 0).1
        = some (GoError.aggregate
            [GoError.errorString "constraint violation(no such row)",
             GoError.errorString "referential integrity violation(ports)"])
      ∧ ∀ errMsg, (performOvsdbOps failingClient
          [selectByName "Bridge" "a", selectByName "Bridge" "b", selectByName "Bridge" "c"] 0).1
        ≠ some (GoError.ErrTransactionError errMsg) := by
  have h : (performOvsdbOps failingClient
      [selectByName "Bridge" "a", selectByName "Bridge" "b", selectByName "Bridge" "c"] 0).1
      = some (GoError.aggregate
          [GoError.errorString "constraint violation(no such row)",
           GoError.errorString "referential integrity violation(ports)"]) := by
    rw [performOvsdbOps_of_ne_nil _ _ _ (by simp)]
    rfl
  refine ⟨rfl, h, ?_⟩
  intro errMsg
  rw [h]
  simp

/-- C12, amended: for a transaction of at least one operation and a reply that
has at least as many results as operations, `performOvsdbOps` returns nil
exactly when no result carries an error, and otherwise the aggregate made by
`util.NewAggregate` of one error per result with a non-empty error field, all
of them and in reply order, each with the text `Error(Details)` of its result;
the error is not an `ErrTransactionError`. -/
theorem C12_errors_of_all_results_aggregated {σ : Type} (client : OvsdbClient σ)
    (ops : List Operation) (s : σ) (hN : 1 ≤ ops.length)
    (hlen : ops.length ≤ (client.Transact OvsDatabase ops s).1.1.length) :
    ((performOvsdbOps client ops s).1 = none
        ↔ ∀ o ∈ (client.Transact OvsDatabase ops s).1.1, o.Error = "")
      ∧ (∀ err, (performOvsdbOps client ops s).1 = some err →
          err = GoError.aggregate
            (((client.Transact OvsDatabase ops s).1.1.filter (fun o => decide (o.Error ≠ ""))).map
              (fun o => GoError.errorString (o.Error ++ "(" ++ o.Details ++ ")"))))
      ∧ (∀ errMsg, (performOvsdbOps client ops s).1 ≠ some (GoError.ErrTransactionError errMsg)) := by
  have hops : ops ≠ [] := by
    intro h
    rw [h] at hN
    simp at hN
  have hnot : ¬ (client.Transact OvsDatabase ops s).1.1.length < ops.length := by omega
  rw [performOvsdbOps_of_ne_nil client ops s hops]
  simp only [hnot, if_false]
  refine ⟨?_, ?_, ?_⟩
  · rw [NewAggregate_eq_none_iff]
    simp [List.filter_eq_nil_iff]
  · intro err herr
    exact NewAggregate_eq_some _ _ herr
  · intro errMsg herr
    have := NewAggregate_eq_some _ _ herr
    simp at this

/-- C12 amended, instantiated on three operations and a reply with two errors. -/
theorem C12_errors_of_all_results_aggregated_witness :
    1 ≤ [selectByName "Bridge" "a", selectByName "Bridge" "b", selectByName "Bridge" "c"].length
      ∧ [selectByName "Bridge" "a", selectByName "Bridge" "b", selectByName "Bridge" "c"].length
          ≤ (failingClient.Transact OvsDatabase
              [selectByName "Bridge" "a", selectByName "Bridge" "b", selectByName "Bridge" "c"]
              0).1.1.length
      ∧ ∀ err, (performOvsdbOps failingClient
            [selectByName "Bridge" "a", selectByName "Bridge" "b", selectByName "Bridge" "c"]
            0).1 = some err →
          err = GoError.aggregate
            (((failingClient.Transact OvsDatabase
                [selectByName "Bridge" "a", selectByName "Bridge" "b", selectByName "Bridge" "c"]
                0).1.1.filter (fun o => decide (o.Error ≠ ""))).map
              (fun o => GoError.errorString (o.Error ++ "(" ++ o.Details ++ ")"))) :=
  ⟨by decide, by decide,
    (C12_errors_of_all_results_aggregated failingClient
      [selectByName "Bridge" "a", selectByName "Bridge" "b", selectByName "Bridge" "c"] 0
      (by decide) (by decide)).2.1⟩

/-- C13: `bridgeExists(name)` submits one transaction of one operation, the
`select` on the `Bridge` table with the single condition `name == name`, and
`portExists(name)` the same on the `Port` table. Each answers by the reply: an
error with `false` for a reply without a result, which is what a failed
transport leaves, and for a first result with a non-empty error field;
`(false, nil)` for a result without rows and `(true, nil)` for a result with
one or more rows. -/
theorem C13_exists_checks {σ : Type} (client : OvsdbClient σ) (name : String) (s : σ)
    (log : List Request) (reply0 : OperationResult) (rest : List OperationResult) :
    (bridgeExists client.logged name (s, log)).2.2
        = log ++ [Request.transact "Open_vSwitch"
            [{ Op := "select", Table := "Bridge",
               Where := [{ column := "name", function := "==", value := OvsValue.str name }] }]]
      ∧ (portExists client.logged name (s, log)).2.2
        = log ++ [Request.transact "Open_vSwitch"
            [{ Op := "select", Table := "Port",
               Where := [{ column := "name", function := "==", value := OvsValue.str name }] }]]
      ∧ (bridgeExists client.logged name (s, log)).1 = (bridgeExists client name s).1
      ∧ (portExists client.logged name (s, log)).1 = (portExists client name s).1
      ∧ (bridgeExists client name s).1
          = existsAnswer (client.Transact OvsDatabase [selectByName BridgeTable name] s).1.1
      ∧ (portExists client name s).1
          = existsAnswer (client.Transact OvsDatabase [selectByName PortTable name] s).1.1
      ∧ ((client.Transact OvsDatabase [selectByName BridgeTable name] s).1.2 ≠ none →
          (client.Transact OvsDatabase [selectByName BridgeTable name] s).1.1 = [] →
          (bridgeExists client name s).1 = (false, some GoError.ErrReplyDisMatchOps))
      ∧ ((client.Transact OvsDatabase [selectByName PortTable name] s).1.2 ≠ none →
          (client.Transact OvsDatabase [selectByName PortTable name] s).1.1 = [] →
          (portExists client name s).1 = (false, some GoError.ErrReplyDisMatchOps))
      ∧ existsAnswer [] = (false, some GoError.ErrReplyDisMatchOps)
      ∧ (reply0.Error ≠ "" →
          existsAnswer (reply0 :: rest) = (false, some (GoError.ErrTransactionError reply0.Error)))
      ∧ (reply0.Error = "" → reply0.Rows.length = 0 →
          existsAnswer (reply0 :: rest) = (false, none))
      ∧ (reply0.Error = "" → 1 ≤ reply0.Rows.length →
          existsAnswer (reply0 :: rest) = (true, none)) := by
  refine ⟨?_, ?_, ?_, ?_, ?_, ?_, ?_, ?_, rfl, ?_, ?_, ?_⟩
  · rw [bridgeExists_logged]; rfl
  · rw [portExists_logged]; rfl
  · rw [bridgeExists_logged]
  · rw [portExists_logged]
  · rw [bridgeExists_eq]
  · rw [portExists_eq]
  · intro _ hnil
    rw [bridgeExists_eq, hnil]
    rfl
  · intro _ hnil
    rw [portExists_eq, hnil]
    rfl
  · intro he
    simp [existsAnswer, he]
  · intro he hr
    have : reply0.Rows = [] := List.eq_nil_of_length_eq_zero hr
    simp [existsAnswer, he, this]
  · intro he hr
    have : reply0.Rows ≠ [] := by
      intro h
      rw [h] at hr
      simp at hr
    simp [existsAnswer, he, this]

/-- C13, instantiated: the sample database holds `br0`; a silent database
gives an error. -/
theorem C13_exists_checks_witness :
    (bridgeExists sampleClient "br0" ["br0"]).1 = (true, none)
      ∧ (bridgeExists sampleClient "br1" ["br0"]).1 = (false, none)
      ∧ (silentClient.Transact OvsDatabase [selectByName BridgeTable "br0"] 0).1.2 ≠ none
      ∧ (silentClient.Transact OvsDatabase [selectByName BridgeTable "br0"] 0).1.1 = []
      ∧ (bridgeExists silentClient "br0" 0).1 = (false, some GoError.ErrReplyDisMatchOps) := by
  have h := C13_exists_checks silentClient "br0" 0 [] {} []
  have h2 : (silentClient.Transact OvsDatabase [selectByName BridgeTable "br0"] 0).1.2 ≠ none := by
    simp [silentClient]
  exact ⟨rfl, rfl, h2, rfl, h.2.2.2.2.2.2.1 h2 rfl⟩

theorem existsAnswer_cases (reply : List OperationResult) :
    (∃ err, existsAnswer reply = (false, some err)) ∨ existsAnswer reply = (false, none)
      ∨ existsAnswer reply = (true, none) := by
  cases reply with
  | nil => exact Or.inl ⟨_, rfl⟩
  | cons r0 rest =>
    by_cases he : r0.Error = ""
    · by_cases hr : r0.Rows = []
      · exact Or.inr (Or.inl (by simp [existsAnswer, he, hr]))
      · exact Or.inr (Or.inr (by simp [existsAnswer, he, hr]))
    · exact Or.inl ⟨GoError.ErrTransactionError r0.Error, by simp [existsAnswer, he]⟩

theorem bridgeExists_cases {σ : Type} (client : OvsdbClient σ) (name : String) (s : σ) :
    (∃ err, (bridgeExists client name s).1 = (false, some err))
      ∨ (bridgeExists client name s).1 = (false, none)
      ∨ (bridgeExists client name s).1 = (true, none) := by
  rw [bridgeExists_eq]
  exact existsAnswer_cases _

theorem bridgeExists_stable {σ : Type} (client : OvsdbClient σ) (name : String) (s : σ)
    (hstable : (client.Transact OvsDatabase [selectByName BridgeTable name]
        (client.Transact OvsDatabase [selectByName BridgeTable name] s).2).1.1
      = (client.Transact OvsDatabase [selectByName BridgeTable name] s).1.1) :
    (bridgeExists client name (bridgeExists client name s).2).1 = (bridgeExists client name s).1 := by
  simp only [bridgeExists_eq, hstable]

theorem AddOvsBridge_of_exists {σ : Type} (client : OvsdbClient σ)
    (rootTable : List (String × Row)) (mac name : String) (setMacAddr : Bool) (s : σ)
    (h : (bridgeExists client name s).1 = (true, none)) :
    AddOvsBridge { client := some client } rootTable mac name setMacAddr s
      = (some (GoError.ErrBridgeAlreadyExists name), (bridgeExists client name s).2) := by
  have hb : bridgeExists client name s = ((true, none), (bridgeExists client name s).2) := by
    rw [← h]
  simp only [AddOvsBridge]
  rw [hb]
  simp

theorem AddOvsBridge_of_check_error {σ : Type} (client : OvsdbClient σ)
    (rootTable : List (String × Row)) (mac name : String) (setMacAddr : Bool) (s : σ)
    (b : Bool) (err : GoError) (h : (bridgeExists client name s).1 = (b, some err)) :
    AddOvsBridge { client := some client } rootTable mac name setMacAddr s
      = (some err, (bridgeExists client name s).2) := by
  have hb : bridgeExists client name s = ((b, some err), (bridgeExists client name s).2) := by
    rw [← h]
  simp only [AddOvsBridge]
  rw [hb]

theorem AddOvsBridge_of_absent {σ : Type} (client : OvsdbClient σ)
    (rootTable : List (String × Row)) (mac name : String) (setMacAddr : Bool) (s : σ)
    (h : (bridgeExists client name s).1 = (false, none)) :
    AddOvsBridge { client := some client } rootTable mac name setMacAddr s
      = (match createOvsBridge client rootTable mac name setMacAddr
            (bridgeExists client name s).2 with
        | (some err, s2) => (some err, s2)
        | (none, s2) =>
          match bridgeExists client name s2 with
          | ((_, some err), s3) => (some err, s3)
          | ((exist2, none), s3) =>
            if !exist2 then (some (GoError.errorString "Error creating ovs bridge"), s3)
            else (none, s3)) := by
  have hb : bridgeExists client name s = ((false, none), (bridgeExists client name s).2) := by
    rw [← h]
  simp only [AddOvsBridge]
  rw [hb]
  simp

theorem AddOvsBridge_success {σ : Type} (client : OvsdbClient σ)
    (rootTable : List (String × Row)) (mac name : String) (setMacAddr : Bool) (s : σ)
    (h : (AddOvsBridge { client := some client } rootTable mac name setMacAddr s).1 = none) :
    (bridgeExists client name s).1 = (false, none)
      ∧ (createOvsBridge client rootTable mac name setMacAddr (bridgeExists client name s).2).1
          = none
      ∧ (bridgeExists client name
          (createOvsBridge client rootTable mac name setMacAddr
            (bridgeExists client name s).2).2).1 = (true, none)
      ∧ (AddOvsBridge { client := some client } rootTable mac name setMacAddr s).2
          = (bridgeExists client name
              (createOvsBridge client rootTable mac name setMacAddr
                (bridgeExists client name s).2).2).2 := by
  rcases bridgeExists_cases client name s with ⟨err, h1⟩ | h1 | h1
  · rw [AddOvsBridge_of_check_error client rootTable mac name setMacAddr s _ err h1] at h
    simp at h
  · rw [AddOvsBridge_of_absent client rootTable mac name setMacAddr s h1] at h ⊢
    refine ⟨h1, ?_⟩
    cases hc : createOvsBridge client rootTable mac name setMacAddr (bridgeExists client name s).2 with
    | mk r s2 =>
      rw [hc] at h
      cases r with
      | some err => simp at h
      | none =>
        simp only [] at h ⊢
        rcases bridgeExists_cases client name s2 with ⟨err, h2⟩ | h2 | h2
        · have hb : bridgeExists client name s2 = ((false, some err), (bridgeExists client name s2).2) := by
            rw [← h2]
          rw [hb] at h
          simp at h
        · have hb : bridgeExists client name s2 = ((false, none), (bridgeExists client name s2).2) := by
            rw [← h2]
          rw [hb] at h
          simp at h
        · have hb : bridgeExists client name s2 = ((true, none), (bridgeExists client name s2).2) := by
            rw [← h2]
          refine ⟨trivial, h2, ?_⟩
          rw [hb]
          simp
  · rw [AddOvsBridge_of_exists client rootTable mac name setMacAddr s h1] at h
    simp at h

theorem sampleTransact_select (name : String) (bridges : List String) :
    (sampleClient.Transact OvsDatabase [selectByName BridgeTable name] bridges).2 = bridges := by
  by_cases h : name ∈ bridges
  · simp [sampleClient, sampleTransact, sampleOperation, selectByName, NewCondition, SelectOp,
      InsertOp, BridgeTable, h]
  · simp [sampleClient, sampleTransact, sampleOperation, selectByName, NewCondition, SelectOp,
      InsertOp, BridgeTable, h]

/-- C14: if the existence check reports that the bridge exists, `AddOvsBridge`
returns `ErrBridgeAlreadyExists(name)` and the existence `select` is the only
transaction it submits. Hence, when `AddOvsBridge(name)` has returned nil and
is called again with nothing in between, so that the database answers the
existence `select` as it did at the end of the first call, the second call
returns `ErrBridgeAlreadyExists(name)`. -/
theorem C14_add_existing_bridge {σ : Type} (client : OvsdbClient σ)
    (rootTable rootTable2 : List (String × Row)) (mac mac2 name : String)
    (setMacAddr setMacAddr2 : Bool) (s : σ) (log : List Request) :
    ((bridgeExists client name s).1 = (true, none) →
        AddOvsBridge { client := some client.logged } rootTable mac name setMacAddr (s, log)
          = (some (GoError.ErrBridgeAlreadyExists name),
              ((bridgeExists client name s).2,
                log ++ [Request.transact OvsDatabase [selectByName BridgeTable name]])))
      ∧ ((∀ s1, (client.Transact OvsDatabase [selectByName BridgeTable name]
              (client.Transact OvsDatabase [selectByName BridgeTable name] s1).2).1.1
            = (client.Transact OvsDatabase [selectByName BridgeTable name] s1).1.1) →
          (AddOvsBridge { client := some client } rootTable mac name setMacAddr s).1 = none →
          (AddOvsBridge { client := some client } rootTable2 mac2 name setMacAddr2
              (AddOvsBridge { client := some client } rootTable mac name setMacAddr s).2).1
            = some (GoError.ErrBridgeAlreadyExists name)) := by
  constructor
  · intro h
    have hl : (bridgeExists client.logged name (s, log)).1 = (true, none) := by
      rw [bridgeExists_logged]
      exact h
    rw [AddOvsBridge_of_exists client.logged rootTable mac name setMacAddr (s, log) hl,
      bridgeExists_logged]
  · intro hstable h
    obtain ⟨_, _, h3, h4⟩ := AddOvsBridge_success client rootTable mac name setMacAddr s h
    rw [h4]
    have hst := bridgeExists_stable client name _ (hstable
      (createOvsBridge client rootTable mac name setMacAddr (bridgeExists client name s).2).2)
    rw [AddOvsBridge_of_exists client rootTable2 mac2 name setMacAddr2 _ (by rw [hst, h3])]

/-- C14, instantiated on the sample database: `br0` is added twice. -/
theorem C14_add_existing_bridge_witness :
    (∀ s1, (sampleClient.Transact OvsDatabase [selectByName BridgeTable "br0"]
            (sampleClient.Transact OvsDatabase [selectByName BridgeTable "br0"] s1).2).1.1
          = (sampleClient.Transact OvsDatabase [selectByName BridgeTable "br0"] s1).1.1)
      ∧ (AddOvsBridge { client := some sampleClient } [("root", Row.empty)] "" "br0" false []).1
          = none
      ∧ (AddOvsBridge { client := some sampleClient } [("root", Row.empty)] "" "br0" false
            (AddOvsBridge { client := some sampleClient } [("root", Row.empty)] "" "br0" false
              []).2).1
          = some (GoError.ErrBridgeAlreadyExists "br0") := by
  have hstable : ∀ s1, (sampleClient.Transact OvsDatabase [selectByName BridgeTable "br0"]
      (sampleClient.Transact OvsDatabase [selectByName BridgeTable "br0"] s1).2).1.1
      = (sampleClient.Transact OvsDatabase [selectByName BridgeTable "br0"] s1).1.1 := by
    intro s1
    rw [sampleTransact_select]
  exact ⟨hstable, rfl,
    (C14_add_existing_bridge sampleClient [("root", Row.empty)] [("root", Row.empty)] "" ""
      "br0" false false [] []).2 hstable rfl⟩

/-- C15: when the first existence check reports the bridge absent,
`AddOvsBridge` returns the error of the create transaction if it fails, the
error of the second existence check if that fails, the error
`Error creating ovs bridge` if the second check reports the bridge absent, and
nil if it reports it present; so it returns nil only if the create transaction
succeeded and the second check reported the bridge present, and the existence
check that follows a successful `AddOvsBridge` with nothing in between returns
true. An error of the first existence check is returned as the result. -/
theorem C15_add_absent_bridge {σ : Type} (client : OvsdbClient σ)
    (rootTable : List (String × Row)) (mac name : String) (setMacAddr : Bool) (s : σ)
    (b : Bool) (err : GoError) :
    ((bridgeExists client name s).1 = (b, some err) →
        (AddOvsBridge { client := some client } rootTable mac name setMacAddr s).1 = some err)
      ∧ ((bridgeExists client name s).1 = (false, none) →
          ((createOvsBridge client rootTable mac name setMacAddr
                (bridgeExists client name s).2).1 = some err →
              (AddOvsBridge { client := some client } rootTable mac name setMacAddr s).1
                = some err)
          ∧ ((createOvsBridge client rootTable mac name setMacAddr
                (bridgeExists client name s).2).1 = none →
              ((bridgeExists client name (createOvsBridge client rootTable mac name setMacAddr
                    (bridgeExists client name s).2).2).1 = (b, some err) →
                (AddOvsBridge { client := some client } rootTable mac name setMacAddr s).1
                  = some err)
              ∧ ((bridgeExists client name (createOvsBridge client rootTable mac name setMacAddr
                    (bridgeExists client name s).2).2).1 = (false, none) →
                (AddOvsBridge { client := some client } rootTable mac name setMacAddr s).1
                  = some (GoError.errorString "Error creating ovs bridge"))
              ∧ ((bridgeExists client name (createOvsBridge client rootTable mac name setMacAddr
                    (bridgeExists client name s).2).2).1 = (true, none) →
                (AddOvsBridge { client := some client } rootTable mac name setMacAddr s).1
                  = none)))
      ∧ ((AddOvsBridge { client := some client } rootTable mac name setMacAddr s).1 = none →
          (bridgeExists client name s).1 = (false, none)
          ∧ (createOvsBridge client rootTable mac name setMacAddr
              (bridgeExists client name s).2).1 = none
          ∧ (bridgeExists client name (createOvsBridge client rootTable mac name setMacAddr
              (bridgeExists client name s).2).2).1 = (true, none))
      ∧ ((∀ s1, (client.Transact OvsDatabase [selectByName BridgeTable name]
              (client.Transact OvsDatabase [selectByName BridgeTable name] s1).2).1.1
            = (client.Transact OvsDatabase [selectByName BridgeTable name] s1).1.1) →
          (AddOvsBridge { client := some client } rootTable mac name setMacAddr s).1 = none →
          (bridgeExists client name
              (AddOvsBridge { client := some client } rootTable mac name setMacAddr s).2).1
            = (true, none)) := by
  refine ⟨?_, ?_, ?_, ?_⟩
  · intro h
    rw [AddOvsBridge_of_check_error client rootTable mac name setMacAddr s b err h]
  · intro h
    rw [AddOvsBridge_of_absent client rootTable mac name setMacAddr s h]
    cases hc : createOvsBridge client rootTable mac name setMacAddr (bridgeExists client name s).2 with
    | mk r s2 =>
      cases r with
      | some e1 =>
        refine ⟨?_, ?_⟩
        · intro he
          simp only [Option.some.injEq] at he
          simp [he]
        · intro he
          simp at he
      | none =>
        refine ⟨?_, ?_⟩
        · intro he
          simp at he
        · intro _
          simp only []
          refine ⟨?_, ?_, ?_⟩
          · intro h2
            have hb : bridgeExists client name s2 = ((b, some err), (bridgeExists client name s2).2) := by
              rw [← h2]
            rw [hb]
          · intro h2
            have hb : bridgeExists client name s2 = ((false, none), (bridgeExists client name s2).2) := by
              rw [← h2]
            rw [hb]
            simp
          · intro h2
            have hb : bridgeExists client name s2 = ((true, none), (bridgeExists client name s2).2) := by
              rw [← h2]
            rw [hb]
            simp
  · intro h
    obtain ⟨h1, h2, h3, _⟩ := AddOvsBridge_success client rootTable mac name setMacAddr s h
    exact ⟨h1, h2, h3⟩
  · intro hstable h
    obtain ⟨_, _, h3, h4⟩ := AddOvsBridge_success client rootTable mac name setMacAddr s h
    rw [h4, bridgeExists_stable client name _ (hstable _), h3]

/-- C15, instantiated on the sample database: `br0` is absent, is created, and
is then reported present. -/
theorem C15_add_absent_bridge_witness :
    (bridgeExists sampleClient "br0" []).1 = (false, none)
      ∧ (createOvsBridge sampleClient [("root", Row.empty)] "" "br0" false
          (bridgeExists sampleClient "br0" []).2).1 = none
      ∧ (bridgeExists sampleClient "br0" (createOvsBridge sampleClient [("root", Row.empty)] ""
          "br0" false (bridgeExists sampleClient "br0" []).2).2).1 = (true, none)
      ∧ (AddOvsBridge { client := some sampleClient } [("root", Row.empty)] "" "br0" false []).1
          = none
      ∧ (bridgeExists sampleClient "br0"
          (AddOvsBridge { client := some sampleClient } [("root", Row.empty)] "" "br0" false
            []).2).1 = (true, none) := by
  have h := C15_add_absent_bridge sampleClient [("root", Row.empty)] "" "br0" false [] false
    GoError.ErrReplyDisMatchOps
  have hstable : ∀ s1, (sampleClient.Transact OvsDatabase [selectByName BridgeTable "br0"]
      (sampleClient.Transact OvsDatabase [selectByName BridgeTable "br0"] s1).2).1.1
      = (sampleClient.Transact OvsDatabase [selectByName BridgeTable "br0"] s1).1.1 := by
    intro s1
    rw [sampleTransact_select]
  exact ⟨rfl, rfl, rfl, ((h.2.1 rfl).2 rfl).2.2 rfl, h.2.2.2 hstable rfl⟩

theorem deleteOvsBridge_logged {σ : Type} (exec : List String → σ → Option GoError × σ)
    (name : String) (s : σ) (log : List Request) :
    deleteOvsBridge (loggedExec exec) name (s, log)
      = ((deleteOvsBridge exec name s).1,
          ((deleteOvsBridge exec name s).2,
            log ++ [Request.exec ["ovs-vsctl", "del-br", name]])) := by
  simp only [deleteOvsBridge, ovsctlDeleteBridge, loggedExec]
  rcases exec ["ovs-vsctl", "del-br", name] s with ⟨r, s1⟩
  cases r <;> rfl

theorem RemoveOvsBridge_of_absent {σ : Type} (client : OvsdbClient σ)
    (exec : List String → σ → Option GoError × σ) (name : String) (s : σ)
    (h : (bridgeExists client name s).1 = (false, none)) :
    RemoveOvsBridge { client := some client } exec name s
      = (some (GoError.ErrBridgeNotExists name), (bridgeExists client name s).2) := by
  have hb : bridgeExists client name s = ((false, none), (bridgeExists client name s).2) := by
    rw [← h]
  simp only [RemoveOvsBridge]
  rw [hb]
  simp

theorem RemoveOvsBridge_of_check_error {σ : Type} (client : OvsdbClient σ)
    (exec : List String → σ → Option GoError × σ) (name : String) (s : σ)
    (b : Bool) (err : GoError) (h : (bridgeExists client name s).1 = (b, some err)) :
    RemoveOvsBridge { client := some client } exec name s
      = (some err, (bridgeExists client name s).2) := by
  have hb : bridgeExists client name s = ((b, some err), (bridgeExists client name s).2) := by
    rw [← h]
  simp only [RemoveOvsBridge]
  rw [hb]

theorem RemoveOvsBridge_of_present {σ : Type} (client : OvsdbClient σ)
    (exec : List String → σ → Option GoError × σ) (name : String) (s : σ)
    (h : (bridgeExists client name s).1 = (true, none)) :
    RemoveOvsBridge { client := some client } exec name s
      = (match deleteOvsBridge exec name (bridgeExists client name s).2 with
        | (some err, s2) => (some err, s2)
        | (none, s2) =>
          match bridgeExists client name s2 with
          | ((_, some err), s3) => (some err, s3)
          | ((exist2, none), s3) =>
            if exist2 then (some (GoError.errorString "Error deleting ovs bridge"), s3)
            else (none, s3)) := by
  have hb : bridgeExists client name s = ((true, none), (bridgeExists client name s).2) := by
    rw [← h]
  simp only [RemoveOvsBridge]
  rw [hb]
  simp

theorem RemoveOvsBridge_of_deleted {σ : Type} (client : OvsdbClient σ)
    (exec : List String → σ → Option GoError × σ) (name : String) (s : σ)
    (h : (bridgeExists client name s).1 = (true, none))
    (hd : (deleteOvsBridge exec name (bridgeExists client name s).2).1 = none) :
    RemoveOvsBridge { client := some client } exec name s
      = (match (bridgeExists client name
            (deleteOvsBridge exec name (bridgeExists client name s).2).2).1 with
          | (_, some err) => some err
          | (true, none) => some (GoError.errorString "Error deleting ovs bridge")
          | (false, none) => none,
          (bridgeExists client name
            (deleteOvsBridge exec name (bridgeExists client name s).2).2).2) := by
  rw [RemoveOvsBridge_of_present client exec name s h]
  have hdel : deleteOvsBridge exec name (bridgeExists client name s).2
      = (none, (deleteOvsBridge exec name (bridgeExists client name s).2).2) := by
    rw [← hd]
  rw [hdel]
  simp only []
  rcases bridgeExists client name (deleteOvsBridge exec name (bridgeExists client name s).2).2
    with ⟨⟨b, e⟩, s3⟩
  cases e with
  | some err => cases b <;> rfl
  | none => cases b <;> rfl

theorem RemoveOvsBridge_success {σ : Type} (client : OvsdbClient σ)
    (exec : List String → σ → Option GoError × σ) (name : String) (s : σ)
    (h : (RemoveOvsBridge { client := some client } exec name s).1 = none) :
    (bridgeExists client name s).1 = (true, none)
      ∧ (deleteOvsBridge exec name (bridgeExists client name s).2).1 = none
      ∧ (bridgeExists client name
          (deleteOvsBridge exec name (bridgeExists client name s).2).2).1 = (false, none)
      ∧ (RemoveOvsBridge { client := some client } exec name s).2
          = (bridgeExists client name
              (deleteOvsBridge exec name (bridgeExists client name s).2).2).2 := by
  rcases bridgeExists_cases client name s with ⟨err, h1⟩ | h1 | h1
  · rw [RemoveOvsBridge_of_check_error client exec name s _ err h1] at h
    simp at h
  · rw [RemoveOvsBridge_of_absent client exec name s h1] at h
    simp at h
  · refine ⟨h1, ?_⟩
    cases hd : (deleteOvsBridge exec name (bridgeExists client name s).2).1 with
    | some err =>
      rw [RemoveOvsBridge_of_present client exec name s h1] at h
      have hdel : deleteOvsBridge exec name (bridgeExists client name s).2
          = (some err, (deleteOvsBridge exec name (bridgeExists client name s).2).2) := by
        rw [← hd]
      rw [hdel] at h
      simp at h
    | none =>
      rw [RemoveOvsBridge_of_deleted client exec name s h1 hd] at h ⊢
      refine ⟨rfl, ?_, rfl⟩
      rcases bridgeExists_cases client name
        (deleteOvsBridge exec name (bridgeExists client name s).2).2 with ⟨err, h2⟩ | h2 | h2
      · rw [h2] at h
        simp at h
      · exact h2
      · rw [h2] at h
        simp at h

/-- C16: when the existence check reports the bridge absent, `RemoveOvsBridge`
returns `ErrBridgeNotExists(name)` and the existence `select` is all it asks of
the database and the host: no deletion is attempted. When the check reports the
bridge present it runs the deletion and, once that has succeeded, checks
again: it returns nil if the bridge is then reported absent and the error
`Error deleting ovs bridge` if it is still reported present. It returns nil in
no other case, so the existence check that follows a successful
`RemoveOvsBridge` with nothing in between returns false. -/
theorem C16_remove_bridge {σ : Type} (client : OvsdbClient σ)
    (exec : List String → σ → Option GoError × σ) (name : String) (s : σ)
    (log : List Request) :
    ((bridgeExists client name s).1 = (false, none) →
        RemoveOvsBridge { client := some client.logged } (loggedExec exec) name (s, log)
          = (some (GoError.ErrBridgeNotExists name),
              ((bridgeExists client name s).2,
                log ++ [Request.transact OvsDatabase [selectByName BridgeTable name]])))
      ∧ ((bridgeExists client name s).1 = (true, none) →
          (deleteOvsBridge exec name (bridgeExists client name s).2).1 = none →
          (RemoveOvsBridge { client := some client.logged } (loggedExec exec) name (s, log)).2.2
              = log ++ [Request.transact OvsDatabase [selectByName BridgeTable name],
                  Request.exec ["ovs-vsctl", "del-br", name],
                  Request.transact OvsDatabase [selectByName BridgeTable name]]
          ∧ ((bridgeExists client name
                (deleteOvsBridge exec name (bridgeExists client name s).2).2).1 = (false, none) →
              (RemoveOvsBridge { client := some client } exec name s).1 = none)
          ∧ ((bridgeExists client name
                (deleteOvsBridge exec name (bridgeExists client name s).2).2).1 = (true, none) →
              (RemoveOvsBridge { client := some client } exec name s).1
                = some (GoError.errorString "Error deleting ovs bridge")))
      ∧ ((RemoveOvsBridge { client := some client } exec name s).1 = none →
          (bridgeExists client name s).1 = (true, none)
          ∧ (deleteOvsBridge exec name (bridgeExists client name s).2).1 = none
          ∧ (bridgeExists client name
              (deleteOvsBridge exec name (bridgeExists client name s).2).2).1 = (false, none))
      ∧ ((∀ s1, (client.Transact OvsDatabase [selectByName BridgeTable name]
              (client.Transact OvsDatabase [selectByName BridgeTable name] s1).2).1.1
            = (client.Transact OvsDatabase [selectByName BridgeTable name] s1).1.1) →
          (RemoveOvsBridge { client := some client } exec name s).1 = none →
          (bridgeExists client name
              (RemoveOvsBridge { client := some client } exec name s).2).1 = (false, none)) := by
  refine ⟨?_, ?_, ?_, ?_⟩
  · intro h
    have hl : (bridgeExists client.logged name (s, log)).1 = (false, none) := by
      rw [bridgeExists_logged]
      exact h
    rw [RemoveOvsBridge_of_absent client.logged (loggedExec exec) name (s, log) hl,
      bridgeExists_logged]
  · intro h hd
    refine ⟨?_, ?_, ?_⟩
    · have hl : (bridgeExists client.logged name (s, log)).1 = (true, none) := by
        rw [bridgeExists_logged]
        exact h
      have hdl : (deleteOvsBridge (loggedExec exec) name
          (bridgeExists client.logged name (s, log)).2).1 = none := by
        rw [bridgeExists_logged, deleteOvsBridge_logged]
        exact hd
      rw [RemoveOvsBridge_of_deleted client.logged (loggedExec exec) name (s, log) hl hdl]
      simp only [bridgeExists_logged, deleteOvsBridge_logged, List.append_assoc]
      rfl
    · intro h2
      rw [RemoveOvsBridge_of_deleted client exec name s h hd, h2]
    · intro h2
      rw [RemoveOvsBridge_of_deleted client exec name s h hd, h2]
  · intro h
    obtain ⟨h1, h2, h3, _⟩ := RemoveOvsBridge_success client exec name s h
    exact ⟨h1, h2, h3⟩
  · intro hstable h
    obtain ⟨_, _, h3, h4⟩ := RemoveOvsBridge_success client exec name s h
    rw [h4, bridgeExists_stable client name _ (hstable _), h3]

/-- C16, instantiated on the sample database: `nonexist` is not held, `br0` is. -/
theorem C16_remove_bridge_witness :
    (bridgeExists sampleClient "nonexist" ["br0"]).1 = (false, none)
      ∧ (RemoveOvsBridge { client := some sampleClient.logged } (loggedExec sampleExec) "nonexist"
          (["br0"], [])).1 = some (GoError.ErrBridgeNotExists "nonexist")
      ∧ (bridgeExists sampleClient "br0" ["br0"]).1 = (true, none)
      ∧ (deleteOvsBridge sampleExec "br0" (bridgeExists sampleClient "br0" ["br0"]).2).1 = none
      ∧ (RemoveOvsBridge { client := some sampleClient } sampleExec "br0" ["br0"]).1 = none
      ∧ (bridgeExists sampleClient "br0"
          (RemoveOvsBridge { client := some sampleClient } sampleExec "br0" ["br0"]).2).1
          = (false, none) := by
  have h1 := C16_remove_bridge sampleClient sampleExec "nonexist" ["br0"] []
  have h2 := C16_remove_bridge sampleClient sampleExec "br0" ["br0"] []
  have hstable : ∀ s1, (sampleClient.Transact OvsDatabase [selectByName BridgeTable "br0"]
      (sampleClient.Transact OvsDatabase [selectByName BridgeTable "br0"] s1).2).1.1
      = (sampleClient.Transact OvsDatabase [selectByName BridgeTable "br0"] s1).1.1 := by
    intro s1
    rw [sampleTransact_select]
  refine ⟨rfl, ?_, rfl, rfl, (h2.2.1 rfl rfl).2.1 rfl, h2.2.2.2 hstable rfl⟩
  rw [h1.1 rfl]

/-- C17: `createOvsBridge(name, setMac)` submits one transaction of four
operations, in this order: the insert of the `Interface` row with the name and
the type `internal` under the placeholder `intf`; the insert of the `Port` row
with the name and `interfaces` set to the placeholder `intf`, under the
placeholder `port`; the insert of the `Bridge` row with the name, `stp_enable`,
`protocols` and `ports` set to the placeholder `port`, under the placeholder
`bridge`, with the column `other_config:hwaddr` exactly when `setMac` is true;
and the mutate of the root table, on the condition `_uuid ==` the root UUID of
the cache (the first key that the `range` over the cached root table visits),
that inserts the placeholder `bridge` into `bridges`. Every
placeholder that the row or the mutation of an operation refers to is the name
of an earlier insert of the transaction. -/
theorem C17_createOvsBridge_operations {σ : Type} (client : OvsdbClient σ)
    (rootTable : List (String × Row)) (mac name : String) (setMacAddr : Bool) (s : σ)
    (log : List Request) :
    createOvsBridgeOps rootTable mac name setMacAddr
        = [{ Op := "insert", Table := "Interface",
             Row := [("name", OvsValue.str name), ("type", OvsValue.str "internal")],
             UUIDName := "intf" },
           { Op := "insert", Table := "Port",
             Row := [("name", OvsValue.str name), ("interfaces", OvsValue.uuid "intf")],
             UUIDName := "port" },
           { Op := "insert", Table := "Bridge",
             Row := [("name", OvsValue.str name), ("stp_enable", OvsValue.bool false),
                     ("protocols", OvsValue.stringSet
                        ["OpenFlow10", "OpenFlow11", "OpenFlow12", "OpenFlow13"]),
                     ("ports", OvsValue.uuid "port")]
                    ++ (if setMacAddr then [("other_config:hwaddr", OvsValue.str mac)] else []),
             UUIDName := "bridge" },
           { Op := "mutate", Table := "Open_vSwitch",
             Mutations := [{ column := "bridges", mutator := "insert",
                             value := OvsValue.uuidSet ["bridge"] }],
             Where := [{ column := "_uuid", function := "==",
                         value := OvsValue.uuid (getRootUUID rootTable) }] }]
      ∧ (createOvsBridge client.logged rootTable mac name setMacAddr (s, log)).2.2
          = log ++ [Request.transact "Open_vSwitch"
              (createOvsBridgeOps rootTable mac name setMacAddr)]
      ∧ (∀ op, (createOvsBridgeOps rootTable mac name setMacAddr)[2]? = some op →
          ((op.Row.lookup "other_config:hwaddr").isSome = true ↔ setMacAddr = true))
      ∧ (∀ uuid row rest, rootTable = (uuid, row) :: rest → getRootUUID rootTable = uuid)
      ∧ (∀ cache : OvsdbCache, IsRangeOf rootTable cache OvsDatabase → rootTable ≠ [] →
          ∃ row, cache.row? OvsDatabase (getRootUUID rootTable) = some row)
      ∧ (∀ (i : Nat) (op : Operation) (u : String),
          (createOvsBridgeOps rootTable mac name setMacAddr)[i]? = some op →
          u ∈ op.references →
          ∃ (j : Nat) (opj : Operation), j < i ∧ (createOvsBridgeOps rootTable mac name setMacAddr)[j]? = some opj
            ∧ opj.Op = InsertOp ∧ opj.UUIDName = u) := by
  have hops : createOvsBridgeOps rootTable mac name setMacAddr
      = [{ Op := "insert", Table := "Interface",
           Row := [("name", OvsValue.str name), ("type", OvsValue.str "internal")],
           UUIDName := "intf" },
         { Op := "insert", Table := "Port",
           Row := [("name", OvsValue.str name), ("interfaces", OvsValue.uuid "intf")],
           UUIDName := "port" },
         { Op := "insert", Table := "Bridge",
           Row := [("name", OvsValue.str name), ("stp_enable", OvsValue.bool false),
                   ("protocols", OvsValue.stringSet
                      ["OpenFlow10", "OpenFlow11", "OpenFlow12", "OpenFlow13"]),
                   ("ports", OvsValue.uuid "port")]
                  ++ (if setMacAddr then [("other_config:hwaddr", OvsValue.str mac)] else []),
           UUIDName := "bridge" },
         { Op := "mutate", Table := "Open_vSwitch",
           Mutations := [{ column := "bridges", mutator := "insert",
                           value := OvsValue.uuidSet ["bridge"] }],
           Where := [{ column := "_uuid", function := "==",
                       value := OvsValue.uuid (getRootUUID rootTable) }] }] := by
    cases setMacAddr <;> rfl
  refine ⟨hops, ?_, ?_, ?_, ?_, ?_⟩
  · rw [createOvsBridge, performOvsdbOps_logged _ _ _ _ (by rw [hops]; simp)]
    rfl
  · intro op hop
    rw [hops] at hop
    simp only [List.getElem?_cons_succ, List.getElem?_cons_zero, Option.some.injEq] at hop
    subst hop
    cases setMacAddr <;> simp [List.lookup]
  · intro uuid row rest h
    rw [h]
    rfl
  · intro cache hrange hne
    cases rootTable with
    | nil => exact absurd rfl hne
    | cons p rest =>
      obtain ⟨uuid, row⟩ := p
      exact ⟨row, (hrange.2 uuid row).1 (List.mem_cons_self _ _)⟩
  · intro i op u hop hu
    rw [hops] at hop ⊢
    rcases i with _ | _ | _ | _ | n
    · simp only [List.getElem?_cons_zero, Option.some.injEq] at hop
      subst hop
      simp [Operation.references, OvsValue.uuids] at hu
    · simp only [List.getElem?_cons_succ, List.getElem?_cons_zero, Option.some.injEq] at hop
      subst hop
      simp [Operation.references, OvsValue.uuids] at hu
      exact ⟨0, _, by decide, rfl, rfl, hu.symm⟩
    · simp only [List.getElem?_cons_succ, List.getElem?_cons_zero, Option.some.injEq] at hop
      subst hop
      have hu2 : u = "port" := by
        cases setMacAddr <;> simpa [Operation.references, OvsValue.uuids] using hu
      exact ⟨1, _, by decide, rfl, rfl, hu2.symm⟩
    · simp only [List.getElem?_cons_succ, List.getElem?_cons_zero, Option.some.injEq] at hop
      subst hop
      simp [Operation.references, OvsValue.uuids] at hu
      exact ⟨2, _, by decide, rfl, rfl, hu.symm⟩
    · simp at hop

/-- C18: `addPort(bridge, port, kind, tag)` submits one transaction of three
operations, in this order: the insert of the `Interface` row with `name = port`
and `type = kind`; the insert of the `Port` row with `name = port` and
`interfaces` set to the placeholder of the interface; and the mutate of the
`Bridge` row with `name == bridge` that inserts the placeholder of the port
into `ports`. The `Port` row holds `vlan_mode = "access"` and `tag = tag`
exactly when `tag` is not 0, and neither column when it is 0.
`AddOvsInternalPort` calls it with the kind `internal` and `AddOvsVethPort`
with the empty kind. -/
theorem C18_addPort_operations {σ : Type} (client : OvsdbClient σ)
    (bridgeName portName portType : String) (tag : Nat) (s : σ) (log : List Request) :
    addPortOps bridgeName portName portType tag
        = .ok [{ Op := "insert", Table := "Interface",
                 Row := [("name", OvsValue.str portName), ("type", OvsValue.str portType)],
                 UUIDName := "Intf" ++ portName },
               { Op := "insert", Table := "Port",
                 Row := [("name", OvsValue.str portName)]
                   ++ (if tag ≠ 0 then
                        [("vlan_mode", OvsValue.str "access"), ("tag", OvsValue.uint tag)]
                       else [])
                   ++ [("interfaces", OvsValue.uuidSet ["Intf" ++ portName])],
                 UUIDName := portName },
               { Op := "mutate", Table := "Bridge",
                 Mutations := [{ column := "ports", mutator := "insert",
                                 value := OvsValue.uuidSet [portName] }],
                 Where := [{ column := "name", function := "==",
                             value := OvsValue.str bridgeName }] }]
      ∧ (∀ ops, addPortOps bridgeName portName portType tag = .ok ops →
          (addPort client.logged bridgeName portName portType tag (s, log)).2.2
            = log ++ [Request.transact "Open_vSwitch" ops])
      ∧ (∀ ops op, addPortOps bridgeName portName portType tag = .ok ops → ops[1]? = some op →
          (tag ≠ 0 → op.Row.lookup "vlan_mode" = some (OvsValue.str "access")
            ∧ op.Row.lookup "tag" = some (OvsValue.uint tag))
          ∧ (tag = 0 → op.Row.lookup "vlan_mode" = none ∧ op.Row.lookup "tag" = none))
      ∧ AddOvsInternalPort client bridgeName portName tag s
          = addPort client bridgeName portName "internal" tag s
      ∧ AddOvsVethPort client bridgeName portName tag s
          = addPort client bridgeName portName "" tag s := by
  have hops : addPortOps bridgeName portName portType tag
      = .ok [{ Op := "insert", Table := "Interface",
               Row := [("name", OvsValue.str portName), ("type", OvsValue.str portType)],
               UUIDName := "Intf" ++ portName },
             { Op := "insert", Table := "Port",
               Row := [("name", OvsValue.str portName)]
                 ++ (if tag ≠ 0 then
                      [("vlan_mode", OvsValue.str "access"), ("tag", OvsValue.uint tag)]
                     else [])
                 ++ [("interfaces", OvsValue.uuidSet ["Intf" ++ portName])],
               UUIDName := portName },
             { Op := "mutate", Table := "Bridge",
               Mutations := [{ column := "ports", mutator := "insert",
                               value := OvsValue.uuidSet [portName] }],
               Where := [{ column := "name", function := "==",
                           value := OvsValue.str bridgeName }] }] := by
    by_cases ht : tag = 0
    · subst ht
      rfl
    · simp only [addPortOps, ht, ne_eq, not_false_eq_true, if_true]
      rfl
  refine ⟨hops, ?_, ?_, rfl, rfl⟩
  · intro ops h
    rw [addPort, h]
    simp only []
    have hne : ops ≠ [] := by
      rw [hops] at h
      simp only [Except.ok.injEq] at h
      rw [← h]
      simp
    rw [performOvsdbOps_logged _ _ _ _ hne]
    rfl
  · intro ops op h hop
    rw [hops] at h
    simp only [Except.ok.injEq] at h
    rw [← h] at hop
    simp only [List.getElem?_cons_succ, List.getElem?_cons_zero, Option.some.injEq] at hop
    subst hop
    constructor
    · intro ht
      simp [List.lookup, ht]
    · intro ht
      simp [List.lookup, ht]

theorem findPortUUID_spec (portName portUUID : String) (portTable : List (String × Row))
    (hnames : ∀ p ∈ portTable, p.2.name?.isSome = true) :
    ∃ u, findPortUUID portName portUUID portTable = some u
      ∧ ((∃ p ∈ portTable, p.2.name? = some portName) →
          ∃ row, (u, row) ∈ portTable ∧ row.name? = some portName)
      ∧ ((¬ ∃ p ∈ portTable, p.2.name? = some portName) → u = portUUID) := by
  induction portTable with
  | nil => exact ⟨portUUID, rfl, by simp, fun _ => rfl⟩
  | cons p rest ih =>
    obtain ⟨uuid, row⟩ := p
    have hrow : row.name?.isSome = true := hnames (uuid, row) (by simp)
    obtain ⟨u, hu1, hu2, hu3⟩ := ih (fun q hq => hnames q (List.mem_cons_of_mem _ hq))
    cases hn : row.name? with
    | none => simp [hn] at hrow
    | some n =>
      by_cases hmatch : n = portName
      · subst hmatch
        refine ⟨uuid, by simp [findPortUUID, hn], ?_, ?_⟩
        · intro _
          exact ⟨row, by simp, hn⟩
        · intro hno
          exact absurd ⟨(uuid, row), by simp, hn⟩ hno
      · refine ⟨u, by simp [findPortUUID, hn, hmatch, hu1], ?_, ?_⟩
        · rintro ⟨q, hq, hqn⟩
          simp only [List.mem_cons] at hq
          rcases hq with rfl | hq
          · rw [hn] at hqn
            exact absurd (Option.some.inj hqn) hmatch
          · obtain ⟨row2, hmem, hname⟩ := hu2 ⟨q, hq, hqn⟩
            exact ⟨row2, List.mem_cons_of_mem _ hmem, hname⟩
        · intro hno
          apply hu3
          rintro ⟨q, hq, hqn⟩
          exact hno ⟨q, List.mem_cons_of_mem _ hq, hqn⟩

/-- C19: when every cached `Port` row has a name, `DeletePort(bridge, port)`
submits one transaction of three operations, in this order: the delete from
`Interface` where `name == port`, the delete from `Port` where `name == port`,
and the mutate of the `Bridge` row with `name == bridge` that deletes one UUID
from `ports`. That UUID is the cache key of a cached `Port` row whose name is
`port` when the cache holds such a row, and the UUID made of the port name
itself when it holds none. -/
theorem C19_DeletePort_operations {σ : Type} (client : OvsdbClient σ)
    (cache : OvsdbCache) (portTable : List (String × Row)) (bridgeName portName : String)
    (s : σ) (log : List Request)
    (hrange : IsRangeOf portTable cache PortTable)
    (hnames : ∀ p ∈ portTable, p.2.name?.isSome = true) :
    ∃ u : String,
      (DeletePort client.logged portTable bridgeName portName (s, log)).map (fun r => r.2.2)
          = some (log ++ [Request.transact "Open_vSwitch"
              [{ Op := "delete", Table := "Interface",
                 Where := [{ column := "name", function := "==",
                             value := OvsValue.str portName }] },
               { Op := "delete", Table := "Port",
                 Where := [{ column := "name", function := "==",
                             value := OvsValue.str portName }] },
               { Op := "mutate", Table := "Bridge",
                 Mutations := [{ column := "ports", mutator := "delete",
                                 value := OvsValue.uuidSet [u] }],
                 Where := [{ column := "name", function := "==",
                             value := OvsValue.str bridgeName }] }]])
      ∧ ((∃ uuid row, cache.row? PortTable uuid = some row ∧ row.name? = some portName) →
          ∃ row, cache.row? PortTable u = some row ∧ row.name? = some portName)
      ∧ ((¬ ∃ uuid row, cache.row? PortTable uuid = some row ∧ row.name? = some portName) →
          u = portName) := by
  obtain ⟨u, hu1, hu2, hu3⟩ := findPortUUID_spec portName portName portTable hnames
  refine ⟨u, ?_, ?_, ?_⟩
  · simp only [DeletePort, hu1, Option.map_some']
    rw [performOvsdbOps_logged _ _ _ _ (by simp [deletePortOps])]
    rfl
  · rintro ⟨uuid, row, hrow, hname⟩
    obtain ⟨row2, hmem, hname2⟩ := hu2 ⟨(uuid, row), (hrange.2 uuid row).2 hrow, hname⟩
    exact ⟨row2, (hrange.2 u row2).1 hmem, hname2⟩
  · intro hno
    apply hu3
    rintro ⟨q, hq, hqn⟩
    exact hno ⟨q.1, q.2, (hrange.2 q.1 q.2).1 hq, hqn⟩

/-- C19, instantiated: the cache holds the port `TestPort` under `uuid-2`. -/
theorem C19_DeletePort_operations_witness :
    IsRangeOf samplePortTable
        (fun t => if t = "Port" then
          some (fun u => if u = "uuid-1" then some (sampleRow "eth1")
            else if u = "uuid-2" then some (sampleRow "TestPort") else none)
          else none) PortTable
      ∧ (∀ p ∈ samplePortTable, p.2.name?.isSome = true)
      ∧ (DeletePort sampleClient.logged samplePortTable "TestBridge" "TestPort"
            ([], [])).map (fun r => r.2.2)
          = some ([] ++ [Request.transact "Open_vSwitch"
              [{ Op := "delete", Table := "Interface",
                 Where := [{ column := "name", function := "==",
                             value := OvsValue.str "TestPort" }] },
               { Op := "delete", Table := "Port",
                 Where := [{ column := "name", function := "==",
                             value := OvsValue.str "TestPort" }] },
               { Op := "mutate", Table := "Bridge",
                 Mutations := [{ column := "ports", mutator := "delete",
                                 value := OvsValue.uuidSet ["uuid-2"] }],
                 Where := [{ column := "name", function := "==",
                             value := OvsValue.str "TestBridge" }] }]]) := by
  have hrange : IsRangeOf samplePortTable
      (fun t => if t = "Port" then
        some (fun u => if u = "uuid-1" then some (sampleRow "eth1")
          else if u = "uuid-2" then some (sampleRow "TestPort") else none)
        else none) PortTable := by
    constructor
    · decide
    · intro uuid row
      simp only [samplePortTable, List.mem_cons, Prod.mk.injEq, List.mem_singleton,
        List.not_mem_nil, or_false, OvsdbCache.row?, PortTable, if_true]
      by_cases h1 : uuid = "uuid-1"
      · subst h1
        simp [eq_comm]
      · by_cases h2 : uuid = "uuid-2"
        · subst h2
          simp [eq_comm]
        · simp [h1, h2]
  have hnames : ∀ p ∈ samplePortTable, p.2.name?.isSome = true := by decide
  obtain ⟨u, h, hfound, _⟩ := C19_DeletePort_operations sampleClient _ samplePortTable
    "TestBridge" "TestPort" [] [] hrange hnames
  obtain ⟨row, hrow, hname⟩ := hfound ⟨"uuid-2", sampleRow "TestPort", rfl, rfl⟩
  have hu : u = "uuid-2" := by
    simp only [OvsdbCache.row?, PortTable, if_true] at hrow
    by_cases h1 : u = "uuid-1"
    · rw [if_pos h1] at hrow
      rw [← Option.some.inj hrow] at hname
      exact absurd hname (by decide)
    · rw [if_neg h1] at hrow
      by_cases h2 : u = "uuid-2"
      · exact h2
      · rw [if_neg h2] at hrow
        exact absurd hrow (by simp)
  rw [hu] at h
  exact ⟨hrange, hnames, h⟩

theorem pushAll_commands {σ : Type} (cs : List (UndoableCommand σ)) :
    ∀ s : CommandStack σ, pushAll s cs = CommandStack.mk (s.commands ++ cs) := by
  induction cs with
  | nil => intro s; simp [pushAll]
  | cons c cs ih =>
    intro s
    have h := ih (s.Push c)
    simp only [pushAll, List.foldl_cons] at h ⊢
    rw [h]
    simp [CommandStack.Push]

theorem popN_mk {σ : Type} (l : List (UndoableCommand σ)) :
    popN l.length (CommandStack.mk l) = (l.reverse, CommandStack.mk []) := by
  induction l using List.reverseRecOn with
  | nil => rfl
  | append_singleton l c ih =>
    simp only [List.length_append, List.length_singleton, popN, CommandStack.Pop_snoc, ih]
    simp

/-- C22: on an empty `CommandStack`, `Pop` and `Peek` each return no command
together with `ErrEmptyStack`, and the stack is still empty afterwards; both
are total, so there is no out-of-range index. On a non-empty stack each
returns a command and a nil error, never `ErrEmptyStack`. -/
theorem C22_pop_peek_on_empty_stack {σ : Type} (s : CommandStack σ) (num : Nat) :
    (s.commands = [] →
        s.Pop = (.error GoError.ErrEmptyStack, s) ∧ s.Peek = .error GoError.ErrEmptyStack
          ∧ s.Pop.2.IsEmpty = true ∧ s.Pop.2.Len = 0)
      ∧ ((NewStack num : CommandStack σ).Pop = (.error GoError.ErrEmptyStack, NewStack num)
          ∧ (NewStack num : CommandStack σ).Peek = .error GoError.ErrEmptyStack)
      ∧ (s.commands ≠ [] → ∃ c, s.Pop.1 = .ok c ∧ s.Peek = .ok c) := by
  refine ⟨?_, ⟨?_, ?_⟩, ?_⟩
  · intro h
    obtain ⟨l⟩ := s
    simp only at h
    subst h
    simp [CommandStack.Pop, CommandStack.Peek, CommandStack.Len, CommandStack.IsEmpty]
  · simp [NewStack, CommandStack.Pop, CommandStack.Len]
  · simp [NewStack, CommandStack.Peek, CommandStack.Len]
  · intro h
    obtain ⟨l⟩ := s
    simp only at h
    induction l using List.reverseRecOn with
    | nil => exact absurd rfl h
    | append_singleton l c _ =>
      refine ⟨c, ?_, ?_⟩
      · rw [CommandStack.Pop_snoc]
      · simp [CommandStack.Peek, CommandStack.Len]

/-- C22, instantiated: a new stack, and a stack with one command pushed. -/
theorem C22_pop_peek_on_empty_stack_witness :
    (NewStack 5 : CommandStack Nat).commands = []
      ∧ (NewStack 5 : CommandStack Nat).Pop = (.error GoError.ErrEmptyStack, NewStack 5)
      ∧ (NewStack 5 : CommandStack Nat).Peek = .error GoError.ErrEmptyStack
      ∧ ((NewStack 5 : CommandStack Nat).Push cmdOk).commands ≠ []
      ∧ ∃ c, ((NewStack 5 : CommandStack Nat).Push cmdOk).Pop.1 = .ok c
          ∧ ((NewStack 5 : CommandStack Nat).Push cmdOk).Peek = .ok c := by
  have h1 := (C22_pop_peek_on_empty_stack (NewStack 5 : CommandStack Nat) 5).1 rfl
  have h2 := (C22_pop_peek_on_empty_stack ((NewStack 5 : CommandStack Nat).Push cmdOk) 5).2.2
    (by simp [CommandStack.Push])
  exact ⟨rfl, h1.1, h1.2.1, by simp [CommandStack.Push], h2⟩

/-- C29: `CommandStack` is a LIFO stack. After `Push(c)` the length is one
more, `Peek` returns `c`, and `Pop` returns `c` and leaves exactly the stack
from before the push; pushing `c1, ..., cn` on an empty stack and popping `n`
times returns `cn, ..., c1` and leaves the empty stack; `IsEmpty` holds exactly
when `Len` is 0. -/
theorem C29_command_stack_is_lifo {σ : Type} (s : CommandStack σ) (c : UndoableCommand σ)
    (cs : List (UndoableCommand σ)) (num : Nat) :
    (s.Push c).Len = s.Len + 1
      ∧ (s.Push c).Peek = .ok c
      ∧ (s.Push c).Pop = (.ok c, s)
      ∧ popN cs.length (pushAll (NewStack num) cs) = (cs.reverse, NewStack num)
      ∧ (popN cs.length (pushAll (NewStack num) cs)).2.IsEmpty = true
      ∧ (s.IsEmpty = true ↔ s.Len = 0) := by
  have hpop : popN cs.length (pushAll (NewStack num) cs) = (cs.reverse, NewStack num) := by
    rw [pushAll_commands]
    simp only [NewStack, List.nil_append]
    exact popN_mk cs
  refine ⟨?_, ?_, ?_, hpop, ?_, ?_⟩
  · simp [CommandStack.Push, CommandStack.Len]
  · simp [CommandStack.Push, CommandStack.Peek, CommandStack.Len]
  · obtain ⟨l⟩ := s
    exact CommandStack.Pop_snoc l c
  · rw [hpop]
    rfl
  · simp [CommandStack.IsEmpty]

/-! ## Parsing of the route table in `util/utils.go` -/

theorem fromHexChar_toHexChar (n : Nat) (h : n < 16) : fromHexChar (toHexChar n) = some n := by
  interval_cases n <;> decide

theorem hexDecode_hexEncode (bytes : List Nat) (h : ∀ b ∈ bytes, b < 256) :
    hexDecode (hexEncode bytes) = .ok bytes := by
  induction bytes with
  | nil => rfl
  | cons b bytes ih =>
    have hb : b < 256 := h b (List.mem_cons_self _ _)
    have h1 : b / 16 < 16 := by omega
    have h2 : b % 16 < 16 := by omega
    simp only [hexEncode, hexDecode, fromHexChar_toHexChar _ h1, fromHexChar_toHexChar _ h2,
      ih (fun x hx => h x (List.mem_cons_of_mem _ hx))]
    congr 2
    omega

theorem hexDecode_length (cs : List Char) :
    ∀ bytes, hexDecode cs = .ok bytes → cs.length = 2 * bytes.length := by
  induction cs using hexDecode.induct with
  | case1 => intro bytes h; simp only [hexDecode, Except.ok.injEq] at h; subst h; rfl
  | case2 p hp => intro bytes h; simp [hexDecode, hp] at h
  | case3 p x hp => intro bytes h; simp [hexDecode, hp] at h
  | case4 p q rest hp => intro bytes h; simp [hexDecode, hp] at h
  | case5 p q rest a ha hq => intro bytes h; simp [hexDecode, ha, hq] at h
  | case6 p q rest a ha b hb bs hbs ih =>
    intro bytes h
    simp only [hexDecode, ha, hb, hbs, Except.ok.injEq] at h
    subst h
    have := ih bs hbs
    simp only [List.length_cons, this]
    omega
  | case7 p q rest a ha b hb err herr ih =>
    intro bytes h
    simp [hexDecode, ha, hb, herr] at h

theorem hexDecode_of_digits (cs : List Char) :
    (∀ c ∈ cs, (fromHexChar c).isSome = true) → cs.length % 2 = 0 →
      ∃ bytes, hexDecode cs = .ok bytes ∧ 2 * bytes.length = cs.length := by
  induction cs using hexDecode.induct with
  | case1 => intro _ _; exact ⟨[], rfl, rfl⟩
  | case2 p hp => intro _ hl; simp at hl
  | case3 p x hp => intro _ hl; simp at hl
  | case4 p q rest hp =>
    intro hd _
    have := hd p (by simp)
    simp [hp] at this
  | case5 p q rest a ha hq =>
    intro hd _
    have := hd q (by simp)
    simp [hq] at this
  | case6 p q rest a ha b hb bs hbs ih =>
    intro hd hl
    obtain ⟨bytes, h1, h2⟩ := ih (fun c hc => hd c (by simp [hc]))
      (by simp only [List.length_cons] at hl; omega)
    rw [hbs] at h1
    simp only [Except.ok.injEq] at h1
    subst h1
    exact ⟨(a * 16 + b) :: bs, by simp only [hexDecode, ha, hb, hbs],
      by simp only [List.length_cons]; omega⟩
  | case7 p q rest a ha b hb err herr ih =>
    intro hd hl
    obtain ⟨bytes, h1, _⟩ := ih (fun c hc => hd c (by simp [hc]))
      (by simp only [List.length_cons] at hl; omega)
    rw [herr] at h1
    simp at h1

theorem parseIP_eq_ok_iff (str : String) (ip : List Nat) :
    parseIP str = .ok ip
      ↔ ∃ b0 b1 b2 b3, hexDecodeString str = .ok [b0, b1, b2, b3] ∧ ip = [b3, b2, b1, b0] := by
  constructor
  · intro h
    unfold parseIP at h
    by_cases hs : str = ""
    · simp [hs] at h
    · rw [if_neg hs] at h
      cases hd : hexDecodeString str with
      | error err => simp [hd] at h
      | ok bytes =>
        rw [hd] at h
        simp only [] at h
        by_cases hl : bytes.length ≠ 4
        · simp [hl] at h
        · rw [if_neg hl] at h
          match bytes, h with
          | [b0, b1, b2, b3], h =>
            simp only [Except.ok.injEq] at h
            exact ⟨b0, b1, b2, b3, rfl, h.symm⟩
          | [], h => simp at hl
          | [_], h => simp at hl
          | [_, _], h => simp at hl
          | [_, _, _], h => simp at hl
          | _ :: _ :: _ :: _ :: _ :: _, h => simp at hl
  · rintro ⟨b0, b1, b2, b3, hd, hip⟩
    have hs : str ≠ "" := by
      intro hs
      rw [hs] at hd
      simp [hexDecodeString, hexDecode] at hd
    unfold parseIP
    rw [if_neg hs, hd, hip]
    simp

/-- C23: `parseIP` succeeds exactly on the strings that `hex.DecodeString`
decodes to four bytes, which have eight hexadecimal digits, and returns the
four bytes in reversed order: `parseIP(hex(b0 b1 b2 b3))` is the address
`b3.b2.b1.b0`, `12345678` gives `120.86.52.18` and `00000000` gives `0.0.0.0`.
It returns an error for the empty string, for a string that is not valid
hexadecimal, and for one that decodes to fewer or more than four bytes. -/
theorem C23_parseIP (str : String) (ip : List Nat) (b0 b1 b2 b3 : Nat) (bytes : List Nat)
    (err : GoError) (h0 : b0 < 256) (h1 : b1 < 256) (h2 : b2 < 256) (h3 : b3 < 256) :
    (parseIP str = .ok ip
        ↔ ∃ c0 c1 c2 c3, hexDecodeString str = .ok [c0, c1, c2, c3] ∧ ip = [c3, c2, c1, c0])
      ∧ (parseIP str = .ok ip → str.length = 8)
      ∧ (str.length = 8 → (∀ c ∈ str.toList, (fromHexChar c).isSome = true) →
          ∃ a, parseIP str = .ok a)
      ∧ parseIP (hexOfBytes [b0, b1, b2, b3]) = .ok [b3, b2, b1, b0]
      ∧ parseIP "12345678" = .ok [120, 86, 52, 18]
      ∧ parseIP "00000000" = .ok [0, 0, 0, 0]
      ∧ parseIP "FFFFFFFF" = .ok [255, 255, 255, 255]
      ∧ parseIP "" = .error (GoError.errorString "input is nil")
      ∧ (hexDecodeString str = .error err → ∃ e, parseIP str = .error e)
      ∧ (hexDecodeString str = .ok bytes → bytes.length ≠ 4 → ∃ e, parseIP str = .error e)
      ∧ parseIP "AA" = .error (GoError.errorString "only IPv4 is supported")
      ∧ parseIP "0011223344" = .error (GoError.errorString "only IPv4 is supported")
      ∧ parseIP "invalid!" = .error (GoError.hexInvalidByteError 'i') := by
  refine ⟨parseIP_eq_ok_iff str ip, ?_, ?_, ?_, rfl, rfl, rfl, rfl, ?_, ?_, rfl, rfl, rfl⟩
  · intro h
    obtain ⟨c0, c1, c2, c3, hd, _⟩ := (parseIP_eq_ok_iff str ip).1 h
    have h8 := hexDecode_length str.toList _ hd
    obtain ⟨cs⟩ := str
    exact h8
  · intro hlen hdig
    have hl : str.toList.length = 8 := by
      obtain ⟨cs⟩ := str
      exact hlen
    obtain ⟨bs, hd, hbl⟩ := hexDecode_of_digits str.toList hdig (by rw [hl])
    rw [hl] at hbl
    match bs, hd, hbl with
    | [c0, c1, c2, c3], hd, _ =>
      exact ⟨[c3, c2, c1, c0], (parseIP_eq_ok_iff str _).2 ⟨c0, c1, c2, c3, hd, rfl⟩⟩
    | [], _, hbl => simp at hbl
    | [_], _, hbl => simp at hbl
    | [_, _], _, hbl => simp at hbl
    | [_, _, _], _, hbl => simp at hbl
    | _ :: _ :: _ :: _ :: _ :: _, _, hbl => simp only [List.length_cons] at hbl; omega
  · rw [parseIP_eq_ok_iff]
    refine ⟨b0, b1, b2, b3, ?_, rfl⟩
    exact hexDecode_hexEncode [b0, b1, b2, b3] (by
      intro b hb
      simp only [List.mem_cons, List.mem_singleton, List.not_mem_nil, or_false] at hb
      rcases hb with rfl | rfl | rfl | rfl <;> assumption)
  · intro hd
    unfold parseIP
    by_cases hs : str = ""
    · exact ⟨_, by rw [if_pos hs]⟩
    · exact ⟨err, by rw [if_neg hs, hd]⟩
  · intro hd hl
    unfold parseIP
    by_cases hs : str = ""
    · exact ⟨_, by rw [if_pos hs]⟩
    · exact ⟨GoError.errorString "only IPv4 is supported", by rw [if_neg hs, hd]; simp [hl]⟩

/-- C23, instantiated on the bytes `0x0A 0xFE 0x00 0x01`. -/
theorem C23_parseIP_witness :
    10 < 256 ∧ 254 < 256 ∧ 0 < 256 ∧ 1 < 256
      ∧ hexOfBytes [10, 254, 0, 1] = "0AFE0001"
      ∧ parseIP (hexOfBytes [10, 254, 0, 1]) = .ok [1, 0, 254, 10] :=
  ⟨by decide, by decide, by decide, by decide, by decide,
    (C23_parseIP "" [] 10 254 0 1 [] GoError.hexErrLength (by decide) (by decide) (by decide)
      (by decide)).2.2.2.1⟩

theorem getRoutes_loop_cons_route (line : List Char) (rest : List (List Char))
    (routes : List Route) (r : Route) (hhead : "Iface".toList.isPrefixOf line = false)
    (hr : routeOfLine line = some r) :
    getRoutes.loop (line :: rest) routes = getRoutes.loop rest (routes ++ [r]) := by
  unfold routeOfLine at hr
  rw [getRoutes.loop]
  simp only [hhead, Bool.false_eq_true, if_false]
  generalize Fields line [] = fields at hr
  rcases fields with _ | ⟨iface, _ | ⟨dst, _ | ⟨gw, more⟩⟩⟩
  · simp at hr
  · simp at hr
  · simp at hr
  · simp only [] at hr
    simp only [List.getElem?_cons_zero, List.getElem?_cons_succ]
    cases hd : parseIP dst with
    | error e => simp [hd] at hr
    | ok ip1 =>
      cases hg : parseIP gw with
      | error e => simp [hd, hg] at hr
      | ok ip2 =>
        simp only [hd, hg, Option.some.injEq] at hr
        simp only [hr]

theorem getRoutes_loop_of_wellFormed (lines : List (List Char)) :
    (∀ line ∈ lines.filter (fun line => !"Iface".toList.isPrefixOf line),
        (routeOfLine line).isSome = true) →
      ∀ routes, getRoutes.loop lines routes
        = some (.ok (routes
            ++ (lines.filter (fun line => !"Iface".toList.isPrefixOf line)).filterMap
                routeOfLine)) := by
  induction lines with
  | nil => intro _ routes; simp [getRoutes.loop]
  | cons line rest ih =>
    intro h routes
    by_cases hhead : "Iface".toList.isPrefixOf line = true
    · have hrest : ∀ l ∈ rest.filter (fun line => !"Iface".toList.isPrefixOf line),
          (routeOfLine l).isSome = true := by
        intro l hl
        apply h
        simp only [List.filter_cons, hhead, Bool.not_true, Bool.false_eq_true, if_false]
        exact hl
      simp only [getRoutes.loop, hhead, if_true, List.filter_cons, Bool.not_true,
        Bool.false_eq_true, if_false]
      exact ih hrest routes
    · have hhead2 : "Iface".toList.isPrefixOf line = false := Bool.eq_false_iff.2 hhead
      have hline : (routeOfLine line).isSome = true := by
        apply h
        simp only [List.filter_cons, hhead2, Bool.not_false, if_true]
        exact List.mem_cons_self _ _
      have hrest : ∀ l ∈ rest.filter (fun line => !"Iface".toList.isPrefixOf line),
          (routeOfLine l).isSome = true := by
        intro l hl
        apply h
        simp only [List.filter_cons, hhead2, Bool.not_false, if_true]
        exact List.mem_cons_of_mem _ hl
      obtain ⟨r, hr⟩ := Option.isSome_iff_exists.1 hline
      rw [getRoutes_loop_cons_route line rest routes r hhead2 hr, ih hrest]
      simp only [List.filter_cons, hhead2, Bool.not_false, if_true, List.filterMap_cons, hr,
        List.append_assoc, List.singleton_append]

theorem getRoutes_of_wellFormed (text : String) (hwf : WellFormedRoutes text) :
    getRoutes (some text) = some (.ok ((routeLines text).filterMap routeOfLine)) := by
  have h := getRoutes_loop_of_wellFormed (readLines text.toList []) hwf []
  simpa [getRoutes, routeLines] using h

theorem chooseLoop_no_default (InterfaceByName : String → Option NetInterface × Option GoError)
    (routes : List Route) (h : ∀ r ∈ routes, r.Destination ≠ [0, 0, 0, 0]) :
    chooseHostInterfaceFromRoute.loop InterfaceByName routes = (none, none) := by
  induction routes with
  | nil => rfl
  | cons r rest ih =>
    have hr := h r (List.mem_cons_self _ _)
    simp only [chooseHostInterfaceFromRoute.loop, hr, if_false]
    exact ih (fun x hx => h x (List.mem_cons_of_mem _ hx))

/-- C28, on the code: for a route table without a default route, such as the
test texts `noInternetConnection` and `nothing`, `chooseHostInterfaceFromRoute`
and `ChooseHostInterface` return a nil interface together with a nil error, not
an error. -/
theorem C28_no_default_route_gives_nil_error
    (InterfaceByName : String → Option NetInterface × Option GoError)
    (nativeGo : Option NetInterface × Option GoError) (text : String) :
    chooseHostInterfaceFromRoute (some noInternetConnection) InterfaceByName = some (none, none)
      ∧ chooseHostInterfaceFromRoute (some nothing) InterfaceByName = some (none, none)
      ∧ ChooseHostInterface (.ok noInternetConnection) nativeGo InterfaceByName
          = some (none, none)
      ∧ (WellFormedRoutes text →
          (∀ line ∈ routeLines text, ∀ r, routeOfLine line = some r →
            r.Destination ≠ [0, 0, 0, 0]) →
          chooseHostInterfaceFromRoute (some text) InterfaceByName = some (none, none)
            ∧ ChooseHostInterface (.ok text) nativeGo InterfaceByName = some (none, none)) := by
  have hgen : ∀ t : String, WellFormedRoutes t →
      (∀ line ∈ routeLines t, ∀ r, routeOfLine line = some r → r.Destination ≠ [0, 0, 0, 0]) →
      chooseHostInterfaceFromRoute (some t) InterfaceByName = some (none, none) := by
    intro t hwf hno
    have hroutes := getRoutes_of_wellFormed t hwf
    simp only [chooseHostInterfaceFromRoute, hroutes]
    rw [chooseLoop_no_default]
    intro r hr
    obtain ⟨p, hp, hpr⟩ := List.mem_filterMap.1 hr
    exact hno p hp r hpr
  have h1 : chooseHostInterfaceFromRoute (some noInternetConnection) InterfaceByName
      = some (none, none) :=
    hgen noInternetConnection (by unfold WellFormedRoutes; decide) (by decide)
  have h2 : chooseHostInterfaceFromRoute (some nothing) InterfaceByName = some (none, none) :=
    hgen nothing (by unfold WellFormedRoutes; decide) (by decide)
  exact ⟨h1, h2, h1, fun hwf hno => ⟨hgen text hwf hno, hgen text hwf hno⟩⟩

/-! ## `setupDevice` and `parseNetworkOptions` -/

/-- C25: `setupDevice` fails with `NonDefaultBridgeExistError(config.BridgeName)`
whenever `config.DefaultBridge` is true and `config.BridgeName` is not the
default bridge name `ovs0`. It then leaves the state as it was and asks nothing
of the outside: no transaction of the database client and no command line is
added to the log of requests. -/
theorem C25_setupDevice_refuses_non_default_bridge {σ : Type}
    (client : Option (OvsdbClient σ)) (exec : List String → σ → Option GoError × σ)
    (GetKernelVersion : Except GoError VersionInfo) (rootTable : List (String × Row))
    (mac hwAddr : String) (config : networkConfiguration) (s : σ) (log : List Request)
    (hdefault : config.DefaultBridge = true) (hname : config.BridgeName ≠ "ovs0") :
    setupDevice { client := client.map OvsdbClient.logged } (loggedExec exec) GetKernelVersion
        rootTable mac hwAddr config (s, log)
      = (some (GoError.NonDefaultBridgeExistError config.BridgeName), (s, log))
      ∧ setupDevice { client := client } exec GetKernelVersion rootTable mac hwAddr config s
          = (some (GoError.NonDefaultBridgeExistError config.BridgeName), s) := by
  have hname2 : config.BridgeName ≠ DefaultOvsBridgeName := hname
  constructor <;> simp [setupDevice, hdefault, hname2]

/-- C25, instantiated on the configuration of `TestSetupNewNonDefaultBridge`,
the bridge name `test0` with `DefaultBridge` set. With the default bridge name
and no client the same call runs the two command lines of the fallback. -/
theorem C25_setupDevice_refuses_non_default_bridge_witness :
    setupDevice { client := (some sampleClient).map OvsdbClient.logged } (loggedExec sampleExec)
        (.ok { Kernel := 3, Major := 10, Minor := 0 }) [] "mac" "hw"
        { BridgeName := "test0", DefaultBridge := true } ([], [])
      = (some (GoError.NonDefaultBridgeExistError "test0"), ([], []))
      ∧ (setupDevice { client := (none : Option (OvsdbClient (List String × List Request))) }
          (loggedExec sampleExec) (.ok { Kernel := 3, Major := 10, Minor := 0 }) [] "mac" "hw"
          { BridgeName := "ovs0" } ([], [])).2.2
        = [Request.exec ["ovs-vsctl", "add-br", "ovs0"],
            Request.exec ["ovs-vsctl", "set", "bridge", "ovs0", "other-config:hwaddr=hw"]] :=
  ⟨(C25_setupDevice_refuses_non_default_bridge (some sampleClient) sampleExec
      (.ok { Kernel := 3, Major := 10, Minor := 0 }) [] "mac" "hw"
      { BridgeName := "test0", DefaultBridge := true } [] [] rfl (by decide)).1, rfl⟩

theorem utf8Size_of_ascii (c : Char) (h : c.toNat < 128) : c.utf8Size = 1 := by
  have h1 : c.val ≤ 127 := by
    rw [UInt32.le_def]
    show c.val.toNat ≤ 127
    have : c.val.toNat = c.toNat := rfl
    omega
  simp [Char.utf8Size, h1]

theorem runeBytes_length (c : Char) : (runeBytes c).length = c.utf8Size := by
  simp [runeBytes]

theorem flatMap_runeBytes_cons (c : Char) (cs : List Char) :
    (c :: cs).flatMap runeBytes = runeBytes c ++ cs.flatMap runeBytes := by
  simp [List.flatMap]

theorem length_le_bytes (cs : List Char) : cs.length ≤ (cs.flatMap runeBytes).length := by
  induction cs with
  | nil => exact Nat.le_refl _
  | cons c rest ih =>
    have := Char.utf8Size_pos c
    rw [flatMap_runeBytes_cons, List.length_append, runeBytes_length, List.length_cons]
    omega

theorem goBytes_append (a b : String) : goBytes (a ++ b) = goBytes a ++ goBytes b := by
  simp [goBytes, List.flatMap]

theorem textOfBytePrefix_bytes (cs : List Char) :
    ∀ (n : Nat) (head : List Char), textOfBytePrefix cs n = some head →
      head.flatMap runeBytes = (cs.flatMap runeBytes).take n := by
  induction cs with
  | nil =>
    intro n head h
    cases n with
    | zero =>
      simp only [textOfBytePrefix, Option.some.injEq] at h
      subst h
      rfl
    | succ n => simp [textOfBytePrefix] at h
  | cons c rest ih =>
    intro n head h
    cases n with
    | zero =>
      simp only [textOfBytePrefix, Option.some.injEq] at h
      subst h
      simp
    | succ n =>
      simp only [textOfBytePrefix] at h
      by_cases hc : c.utf8Size ≤ n + 1
      · rw [if_pos hc] at h
        cases hrest : textOfBytePrefix rest (n + 1 - c.utf8Size) with
        | none => simp [hrest] at h
        | some tail =>
          rw [hrest] at h
          simp only [Option.map_some', Option.some.injEq] at h
          subst h
          have hlen : (runeBytes c).length ≤ n + 1 := by rw [runeBytes_length]; exact hc
          rw [flatMap_runeBytes_cons, flatMap_runeBytes_cons, List.take_append_eq_append_take,
            List.take_of_length_le hlen, runeBytes_length, ih _ _ hrest]
      · rw [if_neg hc] at h
        simp at h

theorem textOfBytePrefix_of_ascii (cs : List Char) :
    ∀ n : Nat, n ≤ cs.length → (∀ c ∈ cs.take n, c.toNat < 128) →
      textOfBytePrefix cs n = some (cs.take n) := by
  induction cs with
  | nil =>
    intro n hn _
    have : n = 0 := by simpa using hn
    subst this
    rfl
  | cons c rest ih =>
    intro n hn hascii
    cases n with
    | zero => rfl
    | succ n =>
      have hc : c.utf8Size = 1 := utf8Size_of_ascii c (hascii c (by simp))
      have hrest := ih n (by simpa using hn) (fun x hx => hascii x (by
        simp only [List.take_succ_cons, List.mem_cons]
        exact Or.inr hx))
      simp only [textOfBytePrefix, hc, Nat.add_sub_cancel, hrest, List.take_succ_cons]
      simp

theorem sliceTo_bytes (s : String) (n : Nat) (g : GoSlice) (h : sliceTo s n = some g) :
    g.bytes = (goBytes s).take n := by
  unfold sliceTo at h
  by_cases hn : n ≤ (goBytes s).length
  · rw [if_pos hn] at h
    cases hp : textOfBytePrefix s.toList n with
    | none =>
      rw [hp] at h
      simp only [Option.some.injEq] at h
      subst h
      rfl
    | some head =>
      rw [hp] at h
      simp only [Option.some.injEq] at h
      subst h
      exact textOfBytePrefix_bytes s.toList n head hp
  · rw [if_neg hn] at h
    simp at h

theorem sliceTo_isSome (s : String) (n : Nat) (h : n ≤ (goBytes s).length) :
    ∃ g, sliceTo s n = some g := by
  unfold sliceTo
  rw [if_pos h]
  cases textOfBytePrefix s.toList n with
  | none => exact ⟨_, rfl⟩
  | some head => exact ⟨_, rfl⟩

theorem sliceTo_of_ascii (s : String) (n : Nat) (h : n ≤ s.length)
    (hascii : ∀ c ∈ s.toList.take n, c.toNat < 128) :
    sliceTo s n = some (GoSlice.text (String.mk (s.toList.take n))) := by
  have hn : n ≤ (goBytes s).length := Nat.le_trans h (length_le_bytes s.toList)
  unfold sliceTo
  rw [if_pos hn, textOfBytePrefix_of_ascii s.toList n h hascii]

theorem sliceTo_of_short (s : String) (n : Nat) (h : (goBytes s).length < n) :
    sliceTo s n = none := by
  simp [sliceTo, Nat.not_le.2 h]

/-- C30, the claim as stated fails on ids with characters of more than one
byte, because `len(id)` and `id[:12]` count bytes. The id of four characters
`€` has 12 bytes: `parseNetworkOptions` does not panic on it and returns the
bridge name `br-€€€€`. The id of twelve characters `€` has 36 bytes: the bridge
name returned is `br-€€€€`, not `br-` followed by the first twelve characters
of the id. -/
theorem C30_counterexample :
    "€€€€".length = 4
      ∧ parseNetworkOptions (fun (_ : Unit) => .ok {}) (fun _ => (0, none))
          (fun _ => (false, none)) "€€€€" none
        = some (.ok (ParsedOptions.config { ID := "€€€€", BridgeName := "br-€€€€" }))
      ∧ "€€€€€€€€€€€€".length = 12
      ∧ parseNetworkOptions (fun (_ : Unit) => .ok {}) (fun _ => (0, none))
          (fun _ => (false, none)) "€€€€€€€€€€€€" none
        = some (.ok (ParsedOptions.config { ID := "€€€€€€€€€€€€", BridgeName := "br-€€€€" }))
      ∧ "br-€€€€" ≠ "br-" ++ String.mk ("€€€€€€€€€€€€".toList.take 12) :=
  ⟨by decide, rfl, by decide, rfl, by decide⟩

/-- C30, amended: let the options yield a configuration that passes
`validate`, the zero configuration when there is no generic datum. With an
empty `BridgeName` and `DefaultBridge` false, `parseNetworkOptions` on an id of
at least 12 bytes, which every id of at least 12 characters is, returns that
configuration with `ID` set to the id and `BridgeName` set to the string whose
bytes are those of `br-` followed by the first 12 bytes of the id; these are
the first 12 characters of the id when they are ASCII. A non-empty `BridgeName`
is kept and only `ID` is set. With an empty `BridgeName`, `DefaultBridge` false
and an id of fewer than 12 bytes, the slice `id[:12]` is out of range and the
function panics instead of returning an error. -/
theorem C30_parseNetworkOptions_bridge_name {G : Type}
    (GenerateFromModel : G → Except GoError networkConfiguration)
    (Atoi : String → Int × Option String) (ParseBool : String → Bool × Option String)
    (id : String) (genData : Option (GenericDatum G)) (config : networkConfiguration)
    (hparse : (genData = none ∧ config = {}) ∨ ∃ data, genData = some data ∧
      parseNetworkGenericOptions GenerateFromModel Atoi ParseBool data = (some config, none))
    (hvalid : config.validate = none) :
    (config.BridgeName = "" → config.DefaultBridge = false → 12 ≤ (goBytes id).length →
        (∃ head, parseNetworkOptions GenerateFromModel Atoi ParseBool id genData
              = some (.ok (ParsedOptions.config
                  { config with BridgeName := "br-" ++ head, ID := id }))
            ∧ goBytes ("br-" ++ head) = goBytes "br-" ++ (goBytes id).take 12)
          ∨ parseNetworkOptions GenerateFromModel Atoi ParseBool id genData
              = some (.ok (ParsedOptions.rawBridgeName { config with ID := id }
                  (goBytes "br-" ++ (goBytes id).take 12))))
      ∧ id.length ≤ (goBytes id).length
      ∧ (config.BridgeName = "" → config.DefaultBridge = false → 12 ≤ id.length →
          (∀ c ∈ id.toList.take 12, c.toNat < 128) →
          parseNetworkOptions GenerateFromModel Atoi ParseBool id genData
            = some (.ok (ParsedOptions.config { config with
                BridgeName := "br-" ++ String.mk (id.toList.take 12), ID := id })))
      ∧ (config.BridgeName ≠ "" →
          parseNetworkOptions GenerateFromModel Atoi ParseBool id genData
            = some (.ok (ParsedOptions.config { config with ID := id })))
      ∧ (config.BridgeName = "" → config.DefaultBridge = false → (goBytes id).length < 12 →
          parseNetworkOptions GenerateFromModel Atoi ParseBool id genData = none) := by
  have hunfold : parseNetworkOptions GenerateFromModel Atoi ParseBool id genData
      = (if config.BridgeName = "" ∧ config.DefaultBridge = false then
          match sliceTo id 12 with
          | none => none
          | some (GoSlice.text head) =>
            some (.ok (ParsedOptions.config { config with BridgeName := "br-" ++ head, ID := id }))
          | some (GoSlice.raw bytes) =>
            some (.ok (ParsedOptions.rawBridgeName { config with ID := id }
              (goBytes "br-" ++ bytes)))
        else some (.ok (ParsedOptions.config { config with ID := id }))) := by
    rcases hparse with ⟨hg, hc⟩ | ⟨data, hg, hd⟩
    · subst hg
      subst hc
      rfl
    · subst hg
      simp only [parseNetworkOptions, hd, hvalid]
  refine ⟨?_, length_le_bytes id.toList, ?_, ?_, ?_⟩
  · intro hb hd hlen
    obtain ⟨g, hg⟩ := sliceTo_isSome id 12 hlen
    have hbytes := sliceTo_bytes id 12 g hg
    rw [hunfold, hg, if_pos ⟨hb, hd⟩]
    cases g with
    | text head =>
      exact Or.inl ⟨head, rfl, by rw [goBytes_append]; exact congrArg _ hbytes⟩
    | raw bytes =>
      have hb2 : bytes = (goBytes id).take 12 := hbytes
      subst hb2
      exact Or.inr rfl
  · intro hb hd hlen hascii
    rw [hunfold, sliceTo_of_ascii id 12 hlen hascii, if_pos ⟨hb, hd⟩]
  · intro hb
    rw [hunfold]
    simp [hb]
  · intro hb hd hlen
    rw [hunfold, sliceTo_of_short id 12 hlen, if_pos ⟨hb, hd⟩]

/-- C30, instantiated on a hexadecimal id, on the id `short`, on an id whose
byte 12 lies within a character, and on a bridge name given as a label. -/
theorem C30_parseNetworkOptions_bridge_name_witness :
    parseNetworkOptions (fun (_ : Unit) => .ok {}) (fun _ => (0, none)) (fun _ => (false, none))
        "0123456789abcdef0123" none
      = some (.ok (ParsedOptions.config
          { ID := "0123456789abcdef0123", BridgeName := "br-0123456789ab" }))
      ∧ parseNetworkOptions (fun (_ : Unit) => .ok {}) (fun _ => (0, none))
          (fun _ => (false, none)) "short" none = none
      ∧ parseNetworkOptions (fun (_ : Unit) => .ok {}) (fun _ => (0, none))
          (fun _ => (false, none)) "short"
          (some (GenericDatum.labels [("com.docker.network.ovs.bridge.name", "mybr")]))
        = some (.ok (ParsedOptions.config { ID := "short", BridgeName := "mybr" }))
      ∧ parseNetworkOptions (fun (_ : Unit) => .ok {}) (fun _ => (0, none))
          (fun _ => (false, none)) "a€€€€bbbbbbbbbbbb" none
        = some (.ok (ParsedOptions.rawBridgeName { ID := "a€€€€bbbbbbbbbbbb" }
            [98, 114, 45, 97, 226, 130, 172, 226, 130, 172, 226, 130, 172, 226, 130])) := by
  have h1 := C30_parseNetworkOptions_bridge_name (fun (_ : Unit) => .ok {}) (fun _ => (0, none))
    (fun _ => (false, none)) "0123456789abcdef0123" none {} (Or.inl ⟨rfl, rfl⟩) rfl
  have h2 := C30_parseNetworkOptions_bridge_name (fun (_ : Unit) => .ok {}) (fun _ => (0, none))
    (fun _ => (false, none)) "short" none {} (Or.inl ⟨rfl, rfl⟩) rfl
  have h3 := C30_parseNetworkOptions_bridge_name (fun (_ : Unit) => .ok {}) (fun _ => (0, none))
    (fun _ => (false, none)) "short"
    (some (GenericDatum.labels [("com.docker.network.ovs.bridge.name", "mybr")]))
    { BridgeName := "mybr" } (Or.inr ⟨_, rfl, rfl⟩) rfl
  exact ⟨(h1.2.2.1 rfl rfl (by decide) (by decide)).trans rfl,
    h2.2.2.2.2 rfl rfl (by decide), h3.2.2.2.1 (by decide), rfl⟩

/-! ## The driver: `getNetworks`, `DeleteNetwork`, `createNetwork` -/

theorem foldl_append_snd {β : Type} (l : List (String × β)) :
    ∀ ls : List β, l.foldl (fun ls entry => ls ++ [entry.2]) ls = ls ++ l.map Prod.snd := by
  induction l with
  | nil => intro ls; simp
  | cons e rest ih => intro ls; simp [List.foldl_cons, ih]

theorem driver.getNetworks_eq {τ : Type} (d : driver τ) :
    d.getNetworks = List.replicate d.networks.length none ++ d.networks.map Prod.snd := by
  simp [driver.getNetworks, foldl_append_snd]

/-- C26, on the code: `getNetworks` returns as many nil entries as the driver
has networks, followed by the networks of the map: the slice is twice as long
as the number of the registered networks and its first half is nil. For the
driver with the one network `sampleNetwork` it is `[nil, sampleNetwork]`. -/
theorem C26_getNetworks_starts_with_nil_entries {τ : Type} (d : driver τ) :
    d.getNetworks = List.replicate d.networks.length none ++ d.networks.map Prod.snd
      ∧ d.getNetworks.length = 2 * d.networks.length
      ∧ (∀ i, i < d.networks.length → d.getNetworks[i]? = some none)
      ∧ sampleDriver.getNetworks = [none, some sampleNetwork] := by
  refine ⟨driver.getNetworks_eq d, ?_, ?_, by decide⟩
  · rw [driver.getNetworks_eq]
    simp
    omega
  · intro i hi
    rw [driver.getNetworks_eq, List.getElem?_append_left (by simpa using hi)]
    simp [List.getElem?_replicate, hi]

theorem lookup_goDelete {β : Type} (m : List (String × β)) (key : String) :
    (goDelete m key).lookup key = none := by
  induction m with
  | nil => rfl
  | cons e rest ih =>
    obtain ⟨k, v⟩ := e
    by_cases hk : k = key
    · simpa [goDelete, List.filter_cons, hk] using ih
    · have hk2 : (key == k) = false := by
        simpa [beq_eq_false_iff_ne] using fun h : key = k => hk h.symm
      have : goDelete ((k, v) :: rest) key = (k, v) :: goDelete rest key := by
        simp [goDelete, List.filter_cons, hk]
      rw [this, List.lookup_cons, hk2]
      exact ih

theorem driver.DeleteNetwork_forbidden {τ : Type} (d : driver τ) (nid : String)
    (nw : ovsNetwork) (fuel : Nat) (kv : τ) (hreg : d.networks.lookup nid = some (some nw))
    (hdefault : nw.config.DefaultBridge = true) :
    d.DeleteNetwork nid fuel kv
      = some ((some (GoError.ForbiddenErrorf "default network of type \"ovs\" cannot be deleted"),
          { d with networks := goDelete d.networks nid }), kv) := by
  simp only [driver.DeleteNetwork, hreg, hdefault, Option.isNone_some, Bool.false_eq_true,
    if_false, if_true, driver.DeleteNetwork.deferred, Option.isSome_none]
  rfl

theorem driver.DeleteNetwork_store_failure {τ : Type} (d : driver τ) (nid : String)
    (nw : ovsNetwork) (fuel : Nat) (kv kv1 : τ) (err : GoError) (kvObject : networkConfiguration)
    (hreg : d.networks.lookup nid = some (some nw)) (hdefault : nw.config.DefaultBridge = false)
    (hstore : driver.storeDelete { d with networks := goDelete d.networks nid } nw.config fuel kv
      = some ((some err, kvObject), kv1)) :
    d.DeleteNetwork nid fuel kv
      = some ((some err, { d with networks := goDelete d.networks nid }), kv1) := by
  simp only [driver.DeleteNetwork, hreg, hdefault, Option.isNone_some, Bool.false_eq_true,
    if_false, hstore, driver.DeleteNetwork.deferred, Option.isSome_none]

/-- C27, on the code: when `DeleteNetwork` fails for a registered network, with
the Forbidden error for a network on the default bridge or with the error of
the delete in the store, the driver it leaves is the driver without the entry
of that id: the deferred function finds the local variable `err` nil and does
not set the network back. On `sampleDriver` the call for `net1` returns the
Forbidden error and leaves a driver without a network, and on
`sampleStoreDriver` the call for `net2` returns the error of the store and
leaves a driver without a network. -/
theorem C27_failed_DeleteNetwork_drops_the_network {τ : Type} (d : driver τ) (nid : String)
    (nw : ovsNetwork) (fuel : Nat) (kv kv1 : τ) (err : GoError)
    (kvObject : networkConfiguration) :
    (d.networks.lookup nid = some (some nw) → nw.config.DefaultBridge = true →
        ∃ d1, d.DeleteNetwork nid fuel kv
            = some ((some (GoError.ForbiddenErrorf
                "default network of type \"ovs\" cannot be deleted"), d1), kv)
          ∧ d1.networks.lookup nid = none)
      ∧ (d.networks.lookup nid = some (some nw) → nw.config.DefaultBridge = false →
          driver.storeDelete { d with networks := goDelete d.networks nid } nw.config fuel kv
            = some ((some err, kvObject), kv1) →
          ∃ d1, d.DeleteNetwork nid fuel kv = some ((some err, d1), kv1)
            ∧ d1.networks.lookup nid = none)
      ∧ sampleDriver.DeleteNetwork "net1" 0 ()
          = some ((some (GoError.ForbiddenErrorf
              "default network of type \"ovs\" cannot be deleted"), { networks := [] }), ())
      ∧ sampleStoreDriver.DeleteNetwork "net2" 1 0
          = some ((some (GoError.errorString "store unreachable"),
              { networks := [], store := some failingStore }), 1) := by
  refine ⟨?_, ?_, rfl, rfl⟩
  · intro hreg hdefault
    exact ⟨_, driver.DeleteNetwork_forbidden d nid nw fuel kv hreg hdefault,
      lookup_goDelete d.networks nid⟩
  · intro hreg hdefault hstore
    exact ⟨_, driver.DeleteNetwork_store_failure d nid nw fuel kv kv1 err kvObject hreg hdefault
      hstore, lookup_goDelete d.networks nid⟩

theorem driver.createNetwork.queue_steps {σ : Type} (fns : StepFunctions σ)
    (bridgeAlreadyExists EnableUserlandProxy : Bool) :
    (driver.createNetwork.queue fns bridgeAlreadyExists EnableUserlandProxy).steps
      = (createNetworkPlan bridgeAlreadyExists EnableUserlandProxy).map fns.get := by
  cases bridgeAlreadyExists <;> cases EnableUserlandProxy <;> rfl

theorem StepFunctions.named_get {η : Type} (fns : StepFunctions (SetupWorld η))
    (name : StepName) : fns.named.get name = namedStep name (fns.get name) := by
  cases name <;> rfl

theorem applyLoop_named {η : Type} (fns : StepFunctions (SetupWorld η)) (names : List StepName) :
    ∀ (w : SetupWorld η) (log : List StepName),
      (bridgeSetup.applyLoop (names.map fns.named.get)
          { config := w.config, host := (w.host, log) }).1
        = (bridgeSetup.applyLoop (names.map fns.get) w).1
      ∧ (∃ k, (bridgeSetup.applyLoop (names.map fns.named.get)
          { config := w.config, host := (w.host, log) }).2.host.2 = log ++ names.take k)
      ∧ ((bridgeSetup.applyLoop (names.map fns.get) w).1 = none →
          (bridgeSetup.applyLoop (names.map fns.named.get)
            { config := w.config, host := (w.host, log) }).2.host.2 = log ++ names) := by
  induction names with
  | nil =>
    intro w log
    exact ⟨rfl, ⟨0, by simp [bridgeSetup.applyLoop]⟩, fun _ => by simp [bridgeSetup.applyLoop]⟩
  | cons name rest ih =>
    intro w log
    simp only [List.map_cons, bridgeSetup.applyLoop, StepFunctions.named_get, namedStep]
    rcases hfn : fns.get name w with ⟨r, w1⟩
    cases r with
    | some err =>
      refine ⟨rfl, ⟨1, by simp⟩, fun h => ?_⟩
      simp at h
    | none =>
      obtain ⟨h1, ⟨k, h2⟩, h3⟩ := ih w1 (log ++ [name])
      refine ⟨h1, ⟨k + 1, ?_⟩, fun h => ?_⟩
      · simpa [List.append_assoc] using h2
      · simpa [List.append_assoc] using h3 h

theorem driver.createNetwork_error {τ η : Type} (d : driver τ)
    (fns : StepFunctions (SetupWorld η)) (LinkByName : String → η → Option String)
    (w : SetupWorld η) :
    (d.createNetwork fns LinkByName w).1
      = (bridgeSetup.applyLoop
          ((createNetworkPlan (newInterface LinkByName w).1.linkExists
            d.config.EnableUserlandProxy).map fns.get) (newInterface LinkByName w).2).1 := by
  rw [← driver.createNetwork.queue_steps]
  simp only [driver.createNetwork, bridgeSetup.apply]
  rcases bridgeSetup.applyLoop
    (driver.createNetwork.queue fns (newInterface LinkByName w).1.linkExists
      d.config.EnableUserlandProxy).steps (newInterface LinkByName w).2 with ⟨err, w2⟩
  cases err <;> rfl

theorem driver.createNetwork_world {τ η : Type} (d : driver τ)
    (fns : StepFunctions (SetupWorld η)) (LinkByName : String → η → Option String)
    (w : SetupWorld η) :
    (d.createNetwork fns LinkByName w).2.2
      = (bridgeSetup.applyLoop
          ((createNetworkPlan (newInterface LinkByName w).1.linkExists
            d.config.EnableUserlandProxy).map fns.get) (newInterface LinkByName w).2).2 := by
  rw [← driver.createNetwork.queue_steps]
  simp only [driver.createNetwork, bridgeSetup.apply]
  rcases bridgeSetup.applyLoop
    (driver.createNetwork.queue fns (newInterface LinkByName w).1.linkExists
      d.config.EnableUserlandProxy).steps (newInterface LinkByName w).2 with ⟨err, w2⟩
  cases err <;> rfl

theorem driver.createNetwork.stepsRun_eq {τ η : Type} (d : driver τ)
    (fns : StepFunctions (SetupWorld η)) (LinkByName : String → η → Option String)
    (w : SetupWorld η) :
    driver.createNetwork.stepsRun d fns LinkByName w
      = (bridgeSetup.applyLoop
          ((createNetworkPlan (newInterface LinkByName w).1.linkExists
            d.config.EnableUserlandProxy).map fns.named.get)
          { config := (newInterface LinkByName w).2.config,
            host := ((newInterface LinkByName w).2.host, []) }).2.host.2 := by
  unfold driver.createNetwork.stepsRun
  rw [driver.createNetwork_world]
  rfl

/-- C21: the steps that `createNetwork` queues are a function of two booleans,
whether the bridge interface that `newInterface` finds exists and the flag
`EnableUserlandProxy`, both read before any step runs. The queue is the plan
`setupDevice` (iff the bridge did not exist), `setupVerifyInterface`,
`setupLoopbackAddressRouting` (iff `EnableUserlandProxy` is false),
`setupDeviceUp`, `setupAttachNIC` (iff the bridge did not exist), in this
order. `createNetwork` returns the error of running that plan, the steps it
runs are a beginning of the plan, and the whole plan when no step fails. On the
sample host, where `setupDevice` creates the bridge, `setupAttachNIC` is still
run after it. -/
theorem C21_createNetwork_step_plan {τ η : Type} (d : driver τ)
    (fns : StepFunctions (SetupWorld η)) (LinkByName : String → η → Option String)
    (w : SetupWorld η) :
    (∀ bridgeAlreadyExists EnableUserlandProxy : Bool,
        (driver.createNetwork.queue fns bridgeAlreadyExists EnableUserlandProxy).steps
          = ((if bridgeAlreadyExists then [] else [fns.setupDevice])
              ++ [fns.setupVerifyInterface]
              ++ (if EnableUserlandProxy then [] else [fns.setupLoopbackAddressRouting])
              ++ [fns.setupDeviceUp]
              ++ (if bridgeAlreadyExists then [] else [fns.setupAttachNIC])))
      ∧ (d.createNetwork fns LinkByName w).1
          = (bridgeSetup.applyLoop
              ((createNetworkPlan (newInterface LinkByName w).1.linkExists
                d.config.EnableUserlandProxy).map fns.get) (newInterface LinkByName w).2).1
      ∧ (∃ k, driver.createNetwork.stepsRun d fns LinkByName w
          = (createNetworkPlan (newInterface LinkByName w).1.linkExists
              d.config.EnableUserlandProxy).take k)
      ∧ ((d.createNetwork fns LinkByName w).1 = none →
          driver.createNetwork.stepsRun d fns LinkByName w
            = createNetworkPlan (newInterface LinkByName w).1.linkExists
                d.config.EnableUserlandProxy)
      ∧ driver.createNetwork.stepsRun ({} : driver Unit) sampleSteps sampleLinkByName
            { config := { ID := "net1" }, host := [] }
          = [StepName.setupDevice, StepName.setupVerifyInterface,
              StepName.setupLoopbackAddressRouting, StepName.setupDeviceUp,
              StepName.setupAttachNIC]
      ∧ driver.createNetwork.stepsRun ({} : driver Unit) sampleSteps sampleLinkByName
            { config := { ID := "net1" }, host := ["ovs0"] }
          = [StepName.setupVerifyInterface, StepName.setupLoopbackAddressRouting,
              StepName.setupDeviceUp]
      ∧ driver.createNetwork.stepsRun
            ({ config := { EnableUserlandProxy := true } } : driver Unit) sampleSteps
            sampleLinkByName { config := { ID := "net1" }, host := [] }
          = [StepName.setupDevice, StepName.setupVerifyInterface, StepName.setupDeviceUp,
              StepName.setupAttachNIC] := by
  have hnamed := applyLoop_named fns
    (createNetworkPlan (newInterface LinkByName w).1.linkExists d.config.EnableUserlandProxy)
    (newInterface LinkByName w).2 []
  refine ⟨?_, driver.createNetwork_error d fns LinkByName w, ?_, ?_, by decide, by decide,
    by decide⟩
  · intro e p
    cases e <;> cases p <;> rfl
  · obtain ⟨k, hk⟩ := hnamed.2.1
    exact ⟨k, by rw [driver.createNetwork.stepsRun_eq, hk, List.nil_append]⟩
  · intro hnone
    rw [driver.createNetwork_error] at hnone
    rw [driver.createNetwork.stepsRun_eq, hnamed.2.2 hnone, List.nil_append]

end Libnetwork
